import Mathlib

/-!
# AvatarMixer: the avatar state relay of `assignment-client`

A shallow embedding of `assignment-client/src/avatars/AvatarMixer.cpp`.

* A `float` value is the rational it denotes. The definitions of the first part (`throttle`,
  `sourcePredicate`, `sourceAction` and the tick built from them) take `float` arithmetic as
  exact: the constants `0.10f`, `0.20f`, `0.02f`, `0.5f`, `1.0f / 300.0f` are the rationals
  they are written as, and arithmetic does not round. The definitions of the part on single
  precision (`throttleFloat`, `sourcePredicateFloat`, `sourceActionFloat`, the tick built
  from them, and `sendStatsPacket`) round every `float` operation to the nearest `float`,
  as the code computes; statements that rounding changes are made of these.
* A `QByteArray` is a list of bytes; `size()` is its length.
* The calls whose result the mixer cannot determine are inputs of a tick (`Tick`): the two
  clock readings, the outcome of every `MutexTryLocker` and the value of every `randFloat()`,
  each addressed by its call site and the (receiver, source) pair it is made for.
* What lives in other libraries is a field of `Env`: `MAX_PACKET_SIZE`, the populated packet
  header of each packet type, and `glm::length`.
-/

namespace Hifi

/-! ## Bytes, ids, vectors -/

/-- One `char` of a `QByteArray`. -/
abbrev Byte := Fin 256

/-- A `QByteArray`: a sequence of bytes. -/
abbrev QByteArray := List Byte

/-- The call `QByteArray::resize(n)`: truncates to `n` bytes, or extends to `n` bytes (the new bytes
are uninitialised in Qt; they are zero here). -/
def resize (b : QByteArray) (n : Nat) : QByteArray :=
  b.take n ++ List.replicate (n - b.length) 0

/-- The call `QByteArray::replace(pos, len, after)`: the `len` bytes from `pos` give way to `after`. -/
def replace (b : QByteArray) (pos len : Nat) (after : QByteArray) : QByteArray :=
  b.take pos ++ after ++ b.drop (pos + len)

/-- The constant `NUM_BYTES_RFC4122_UUID`. -/
def NUM_BYTES_RFC4122_UUID : Nat := 16

/-- A `QUuid`, given by its RFC 4122 byte form, which is 16 bytes long. -/
abbrev QUuid := { b : QByteArray // b.length = NUM_BYTES_RFC4122_UUID }

/-- The call `QUuid::toRfc4122()`. -/
def toRfc4122 (u : QUuid) : QByteArray := u.val

/-- A `glm::vec3`. -/
structure Vec3 where
  x : ℚ
  y : ℚ
  z : ℚ
deriving DecidableEq

instance : Sub Vec3 := ⟨fun a b => ⟨a.x - b.x, a.y - b.y, a.z - b.z⟩⟩

/-! ## Peers and their linked data -/

/-- Modelled from the spec: the category of a peer (`NodeType_t`, declared in the networking
library): the spec's "contributing" category is `Agent`, every other role is `Other`. -/
inductive NodeType where
  | Agent
  | Other (tag : Nat)
deriving DecidableEq

/-- The packet types the mixer reads or writes (`PacketType`, declared in `PacketHeaders.h`). -/
inductive PacketType where
  | PacketTypeAvatarData
  | PacketTypeBulkAvatarData
  | PacketTypeAvatarIdentity
  | PacketTypeAvatarBillboard
  | PacketTypeKillAvatar
  | PacketTypeOther (tag : Nat)
deriving DecidableEq

/-- The part of an `AvatarData` the mixer reads. -/
structure AvatarData where
  /-- What `getPosition()` returns -/
  position : Vec3
  /-- What `toByteArray()` returns: the pose payload -/
  toByteArray : QByteArray
  /-- What `getBillboard()` returns -/
  billboard : QByteArray
  /-- What `identityByteArray()` returns -/
  identityByteArray : QByteArray
deriving DecidableEq

/-- The class `AvatarMixerClientData`: the linked data of a node (the spec's ClientState), without its
mutex, whose try-lock outcomes are inputs of the tick. -/
structure AvatarMixerClientData where
  avatar : AvatarData
  hasReceivedFirstPackets : Bool
  billboardChangeTimestamp : Nat
  identityChangeTimestamp : Nat
deriving DecidableEq

/-- Modelled from the spec: `AvatarMixerClientData::checkAndSetHasReceivedFirstPackets`, which
is defined in `AvatarMixerClientData.cpp`: the "checked-once flag on the receiver's state".
It returns the flag as it was and leaves it set. -/
def checkAndSetHasReceivedFirstPackets (d : AvatarMixerClientData) :
    Bool × AvatarMixerClientData :=
  (d.hasReceivedFirstPackets, { d with hasReceivedFirstPackets := true })

/-- A `HifiSockAddr`, opaque to the mixer. -/
abbrev HifiSockAddr := Nat

/-- A `Node` of the `NodeList`. -/
structure Node where
  /-- What `getUUID()` returns -/
  uuid : QUuid
  /-- What `getType()` returns -/
  type : NodeType
  /-- What `getLinkedData()` returns: `none` is the null pointer -/
  linkedData : Option AvatarMixerClientData
  /-- What `getActiveSocket()` returns: `none` is the null pointer -/
  activeSocket : Option HifiSockAddr
deriving DecidableEq

/-- What the mixer takes from other libraries. -/
structure Env where
  /-- The constant `MAX_PACKET_SIZE` -/
  MAX_PACKET_SIZE : Nat
  /-- What `byteArrayWithPopulatedHeader(type)` returns: the header of a packet of this type -/
  byteArrayWithPopulatedHeader : PacketType → QByteArray
  /-- The function `glm::length` -/
  glmLength : Vec3 → ℚ

/-- Modelled from the spec: `populatePacketHeader(packet, type)` of `PacketHeaders.cpp`
("open a new OutboundPacket with the protocol header"): writes the header of `type` at the
front of `packet`, growing it when it is shorter, and returns the number of header bytes. -/
def populatePacketHeader (env : Env) (packet : QByteArray) (type : PacketType) :
    QByteArray × Nat :=
  let header := env.byteArrayWithPopulatedHeader type
  (header ++ packet.drop header.length, header.length)

/-- A datagram handed to `NodeList::writeDatagram(packet, node)`: the packet, the index of the
destination node in the node list, and the packet type of the call site. -/
structure Datagram where
  type : PacketType
  packet : QByteArray
  destination : Nat
deriving DecidableEq

/-! ## The mixer -/

/-- The members of `AvatarMixer` the tick and the statistics use, and the function-static
`mixedAvatarByteArray` of `broadcastAvatarData`. -/
structure Mixer where
  _lastFrameTimestamp : Nat
  _trailingSleepRatio : ℚ
  _performanceThrottlingRatio : ℚ
  _sumListeners : Nat
  _numStatFrames : Nat
  _sumBillboardPackets : Nat
  _sumIdentityPackets : Nat
  mixedAvatarByteArray : QByteArray
deriving DecidableEq

/-- The constant `AVATAR_DATA_SEND_INTERVAL_MSECS = (1.0f / 60.0f) * 1000`, converted to `unsigned int`:
the conversion drops the fraction of `16.66…`. -/
def AVATAR_DATA_SEND_INTERVAL_MSECS : Nat := Nat.floor ((1 / 60 : ℚ) * 1000)

/-- The constructor `AvatarMixer::AvatarMixer`, run at time `now`. -/
def AvatarMixer (now : Nat) : Mixer :=
  { _lastFrameTimestamp := now
    _trailingSleepRatio := 1
    _performanceThrottlingRatio := 0
    _sumListeners := 0
    _numStatFrames := 0
    _sumBillboardPackets := 0
    _sumIdentityPackets := 0
    mixedAvatarByteArray := [] }

/-- The constant `BILLBOARD_AND_IDENTITY_SEND_PROBABILITY`. -/
def BILLBOARD_AND_IDENTITY_SEND_PROBABILITY : ℚ := 1 / 300

/-- The constant `STRUGGLE_TRIGGER_SLEEP_PERCENTAGE_THRESHOLD = 0.10f`. -/
def STRUGGLE_TRIGGER_SLEEP_PERCENTAGE_THRESHOLD : ℚ := 10 / 100

/-- The constant `BACK_OFF_TRIGGER_SLEEP_PERCENTAGE_THRESHOLD = 0.20f`. -/
def BACK_OFF_TRIGGER_SLEEP_PERCENTAGE_THRESHOLD : ℚ := 20 / 100

/-- The constant `RATIO_BACK_OFF = 0.02f`. -/
def RATIO_BACK_OFF : ℚ := 2 / 100

/-- The constant `TRAILING_AVERAGE_FRAMES`. -/
def TRAILING_AVERAGE_FRAMES : Int := 100

/-- The constant `CURRENT_FRAME_RATIO = 1.0f / TRAILING_AVERAGE_FRAMES`. -/
def CURRENT_FRAME_RATIO : ℚ := 1 / TRAILING_AVERAGE_FRAMES

/-- The constant `PREVIOUS_FRAMES_RATIO = 1.0f - CURRENT_FRAME_RATIO`. -/
def PREVIOUS_FRAMES_RATIO : ℚ := 1 - CURRENT_FRAME_RATIO

/-- The constant `FULL_RATE_DISTANCE = 2.0f`. -/
def FULL_RATE_DISTANCE : ℚ := 2

/-- The conversion of a 64-bit difference to `int`: the value modulo `2^32`, in
`[-2^31, 2^31)`. -/
def toInt (v : Int) : Int := (v + 2 ^ 31) % 2 ^ 32 - 2 ^ 31

/-- The locals of `broadcastAvatarData` when the throttle block (lines 72-117) is done. -/
structure Throttle where
  _trailingSleepRatio : ℚ
  _performanceThrottlingRatio : ℚ
  lastCutoffRatio : ℚ
  hasRatioChanged : Bool
  framesSinceCutoffEvent : Int
deriving DecidableEq

/-- Lines 72-117 of `broadcastAvatarData`, in exact arithmetic: the trailing sleep ratio and
the throttling ratio after a tick whose idle time was `idleTime`. `framesSinceCutoffEvent` is
a local of the call. The same lines in `float` are `throttleFloat`. -/
def throttle (idleTime : Int) (trailingSleepRatio performanceThrottlingRatio : ℚ) : Throttle :=
  let framesSinceCutoffEvent : Int := TRAILING_AVERAGE_FRAMES
  let trailing : ℚ := ( PREVIOUS_FRAMES_RATIO * trailingSleepRatio)
    + (idleTime * CURRENT_FRAME_RATIO / (AVATAR_DATA_SEND_INTERVAL_MSECS : ℚ))
  let lastCutoffRatio := performanceThrottlingRatio
  let gate : Bool := decide (framesSinceCutoffEvent ≥ TRAILING_AVERAGE_FRAMES)
  let adjusted : ℚ × Bool :=
    if gate then
      if trailing ≤ STRUGGLE_TRIGGER_SLEEP_PERCENTAGE_THRESHOLD then
        (performanceThrottlingRatio + ((1 / 2) * (1 - performanceThrottlingRatio)), true)
      else if trailing ≥ BACK_OFF_TRIGGER_SLEEP_PERCENTAGE_THRESHOLD
          ∧ performanceThrottlingRatio ≠ 0 then
        let backedOff := performanceThrottlingRatio - RATIO_BACK_OFF
        (if backedOff < 0 then 0 else backedOff, true)
      else
        (performanceThrottlingRatio, false)
    else
      (performanceThrottlingRatio, false)
  let hasRatioChanged := adjusted.2
  let framesAfterGate : Int := if gate && hasRatioChanged then 0 else framesSinceCutoffEvent
  { _trailingSleepRatio := trailing
    _performanceThrottlingRatio := adjusted.1
    lastCutoffRatio := lastCutoffRatio
    hasRatioChanged := hasRatioChanged
    framesSinceCutoffEvent := if !hasRatioChanged then framesAfterGate + 1 else framesAfterGate }

/-! ## The tick -/

/-- What a tick reads from outside the mixer. `i` is the index of the receiver in the node
list and `j` that of the source. -/
structure Tick where
  /-- What `QDateTime::currentMSecsSinceEpoch()` returns at line 68 -/
  now : Nat
  /-- What `QDateTime::currentMSecsSinceEpoch()` returns at line 245 -/
  nowAtEnd : Nat
  /-- What `lock.isLocked()` returns at line 141, for receiver `i` -/
  nodeLocked : Nat → Bool
  /-- What `lock.isLocked()` returns at line 178, for receiver `i` and source `j` -/
  otherNodeLocked : Nat → Nat → Bool
  /-- What `randFloat()` returns at line 170 -/
  throttleDraw : Nat → Nat → ℚ
  /-- What `randFloat()` returns at line 189 -/
  distanceDraw : Nat → Nat → ℚ
  /-- What `randFloat()` returns at line 217 -/
  billboardDraw : Nat → Nat → ℚ
  /-- What `randFloat()` returns at line 229 -/
  identityDraw : Nat → Nat → ℚ

/-- Modelled from the spec: `NodeList::eachMatchingNode(predicate, functor)`
("enumerate peers satisfying predicate, invoke action per match"), in enumeration order; the
node at position `k` of the enumeration is handed over with its index. -/
def eachMatchingNodeFrom {σ : Type} (predicate : Nat → Node → Bool)
    (functor : Nat → Node → σ → σ) : Nat → List Node → σ → σ
  | _, [], s => s
  | k, node :: rest, s =>
    eachMatchingNodeFrom predicate functor (k + 1) rest
      (if predicate k node then functor k node s else s)

/-- The call `nodeList->eachMatchingNode(predicate, functor)`. -/
def eachMatchingNode {σ : Type} (nodes : List Node) (predicate : Nat → Node → Bool)
    (functor : Nat → Node → σ → σ) (s : σ) : σ :=
  eachMatchingNodeFrom predicate functor 0 nodes s

/-- What the pass for one receiver reads and writes: the mixer (its packet buffer and
counters), the receiver's linked data, and the datagrams written so far in the pass. -/
structure Pass where
  mixer : Mixer
  nodeData : AvatarMixerClientData
  sent : List Datagram
deriving DecidableEq

/-- The source predicate, lines 161-174, with the difference of line 170 exact. The same
lines in `float` are `sourcePredicateFloat`. -/
def sourcePredicate (t : Tick) (performanceThrottlingRatio : ℚ) (i : Nat) (node : Node)
    (j : Nat) (otherNode : Node) : Bool :=
  if otherNode.linkedData.isNone then false
  else if otherNode.uuid = node.uuid then false
  else if !(performanceThrottlingRatio == 0
      || decide (t.throttleDraw i j < 1 - performanceThrottlingRatio)) then false
  else true

/-- Lines 193-205: the record of `otherNode` goes into the packet, after a flush when it does
not fit. -/
def appendAvatar (env : Env) (numPacketHeaderBytes i : Nat) (otherNode : Node)
    (otherAvatar : AvatarData) (p : Pass) : Pass :=
  let avatarByteArray : QByteArray := toRfc4122 otherNode.uuid ++ otherAvatar.toByteArray
  let flushed : Pass :=
    if avatarByteArray.length + p.mixer.mixedAvatarByteArray.length > env.MAX_PACKET_SIZE then
      { p with
        sent := p.sent ++ [⟨.PacketTypeBulkAvatarData, p.mixer.mixedAvatarByteArray, i⟩]
        mixer := { p.mixer with
          mixedAvatarByteArray := resize p.mixer.mixedAvatarByteArray numPacketHeaderBytes } }
    else p
  { flushed with
    mixer := { flushed.mixer with
      mixedAvatarByteArray := flushed.mixer.mixedAvatarByteArray ++ avatarByteArray } }

/-- Lines 214-224: the billboard packet of `otherNode`. -/
def sendBillboard (env : Env) (t : Tick) (i j : Nat) (otherNode : Node)
    (otherNodeData : AvatarMixerClientData) (forceSend : Bool) (p : Pass) : Pass :=
  if otherNodeData.billboardChangeTimestamp > 0
      ∧ (forceSend
        ∨ otherNodeData.billboardChangeTimestamp > p.mixer._lastFrameTimestamp
        ∨ t.billboardDraw i j < BILLBOARD_AND_IDENTITY_SEND_PROBABILITY) then
    let billboardPacket : QByteArray :=
      env.byteArrayWithPopulatedHeader .PacketTypeAvatarBillboard
        ++ toRfc4122 otherNode.uuid ++ otherNodeData.avatar.billboard
    { p with
      sent := p.sent ++ [⟨.PacketTypeAvatarBillboard, billboardPacket, i⟩]
      mixer := { p.mixer with _sumBillboardPackets := p.mixer._sumBillboardPackets + 1 } }
  else p

/-- Lines 226-240: the identity packet of `otherNode`. -/
def sendIdentity (env : Env) (t : Tick) (i j : Nat) (otherNode : Node)
    (otherNodeData : AvatarMixerClientData) (forceSend : Bool) (p : Pass) : Pass :=
  if otherNodeData.identityChangeTimestamp > 0
      ∧ (forceSend
        ∨ otherNodeData.identityChangeTimestamp > p.mixer._lastFrameTimestamp
        ∨ t.identityDraw i j < BILLBOARD_AND_IDENTITY_SEND_PROBABILITY) then
    let individualData : QByteArray :=
      replace otherNodeData.avatar.identityByteArray 0 NUM_BYTES_RFC4122_UUID
        (toRfc4122 otherNode.uuid)
    let identityPacket : QByteArray :=
      env.byteArrayWithPopulatedHeader .PacketTypeAvatarIdentity ++ individualData
    { p with
      sent := p.sent ++ [⟨.PacketTypeAvatarIdentity, identityPacket, i⟩]
      mixer := { p.mixer with _sumIdentityPackets := p.mixer._sumIdentityPackets + 1 } }
  else p

/-- The source functor, lines 175-241, for receiver `i` at `myPosition`, with the difference
of line 187 and the quotient of line 189 exact. The same lines in `float` are
`sourceActionFloat`. -/
def sourceAction (env : Env) (t : Tick) (numPacketHeaderBytes i : Nat) (myPosition : Vec3)
    (j : Nat) (otherNode : Node) (p : Pass) : Pass :=
  match otherNode.linkedData with
  | none => p
  | some otherNodeData =>
    if !t.otherNodeLocked i j then p
    else
      let otherAvatar := otherNodeData.avatar
      let otherPosition := otherAvatar.position
      let distanceToAvatar : ℚ := env.glmLength (myPosition - otherPosition)
      if !(distanceToAvatar == 0
          || decide (t.distanceDraw i j < FULL_RATE_DISTANCE / distanceToAvatar)) then p
      else
        let packed := appendAvatar env numPacketHeaderBytes i otherNode otherAvatar p
        let checked := checkAndSetHasReceivedFirstPackets packed.nodeData
        let forceSend : Bool := !checked.1
        let marked : Pass := { packed with nodeData := checked.2 }
        sendIdentity env t i j otherNode otherNodeData forceSend
          (sendBillboard env t i j otherNode otherNodeData forceSend marked)

/-- The receiver predicate, lines 126-137. -/
def receiverPredicate (node : Node) : Bool :=
  if node.linkedData.isNone then false
  else if node.type ≠ NodeType.Agent then false
  else if node.activeSocket.isNone then false
  else true

/-- The state of a tick: the mixer, the node list (whose linked data the tick writes) and
the datagrams handed to `writeDatagram`, in order. -/
structure Broadcast where
  mixer : Mixer
  nodes : List Node
  sent : List Datagram
deriving DecidableEq

/-- Lines 144-241 for receiver `i`, whose lock is held: the counter, the reset of the packet
and the pass over the sources. The datagrams of the pass start from none. -/
def receiverPass (env : Env) (t : Tick) (numPacketHeaderBytes : Nat) (nodes : List Node)
    (i : Nat) (node : Node) (nodeData : AvatarMixerClientData) (mixer : Mixer) : Pass :=
  let counted : Mixer :=
    { mixer with
      _sumListeners := mixer._sumListeners + 1
      mixedAvatarByteArray := resize mixer.mixedAvatarByteArray numPacketHeaderBytes }
  let myPosition := nodeData.avatar.position
  eachMatchingNode nodes
    (fun j otherNode => sourcePredicate t counted._performanceThrottlingRatio i node j otherNode)
    (sourceAction env t numPacketHeaderBytes i myPosition)
    { mixer := counted, nodeData := nodeData, sent := [] }

/-- The receiver functor, lines 138-243, for the node at index `i`. `node` is the entry of the
node list that the enumeration hands over; no earlier pass of the tick has written it, since a
pass writes the linked data of its own receiver only. The sources of the pass are enumerated
from the node list as the earlier passes left it. -/
def receiverAction (env : Env) (t : Tick) (numPacketHeaderBytes : Nat)
    (i : Nat) (node : Node) (b : Broadcast) : Broadcast :=
  match node.linkedData with
  | none => b
  | some nodeData =>
    if !t.nodeLocked i then b
    else
      let p := receiverPass env t numPacketHeaderBytes b.nodes i node nodeData b.mixer
      { mixer := p.mixer
        nodes := b.nodes.set i { node with linkedData := some p.nodeData }
        sent := b.sent ++ p.sent
          ++ [⟨.PacketTypeBulkAvatarData, p.mixer.mixedAvatarByteArray, i⟩] }

/-- Line 68: `int idleTime = QDateTime::currentMSecsSinceEpoch() - _lastFrameTimestamp`. -/
def idleTime (t : Tick) (m : Mixer) : Int :=
  toInt ((t.now : Int) - (m._lastFrameTimestamp : Int))

/-- The method `AvatarMixer::broadcastAvatarData`: one tick over the node list `nodes`. -/
def broadcastAvatarData (env : Env) (t : Tick) (m : Mixer) (nodes : List Node) : Broadcast :=
  let th := throttle (idleTime t m) m._trailingSleepRatio m._performanceThrottlingRatio
  let header := populatePacketHeader env m.mixedAvatarByteArray .PacketTypeBulkAvatarData
  let numPacketHeaderBytes := header.2
  let started : Mixer :=
    { m with
      _numStatFrames := m._numStatFrames + 1
      _trailingSleepRatio := th._trailingSleepRatio
      _performanceThrottlingRatio := th._performanceThrottlingRatio
      mixedAvatarByteArray := header.1 }
  let b := eachMatchingNode nodes (fun _ node => receiverPredicate node)
    (receiverAction env t numPacketHeaderBytes)
    { mixer := started, nodes := nodes, sent := [] }
  { b with mixer := { b.mixer with _lastFrameTimestamp := t.nowAtEnd } }

/-- The method `AvatarMixer::nodeKilled`: the packet handed to `broadcastToNodes` and the node
types it is broadcast to, or `none` when nothing is broadcast. -/
def nodeKilled (env : Env) (killedNode : Node) : Option (QByteArray × List NodeType) :=
  if killedNode.type = NodeType.Agent ∧ killedNode.linkedData.isSome then
    let killPacket : QByteArray :=
      env.byteArrayWithPopulatedHeader .PacketTypeKillAvatar ++ toRfc4122 killedNode.uuid
    some (killPacket, [NodeType.Agent])
  else none

/-- The mixer after the first `n` ticks of a run: tick `k` of the run is `(ticks k).1`, and
finds the node list `(ticks k).2`. -/
def mixerAfter (env : Env) (m : Mixer) (ticks : Nat → Tick × List Node) : Nat → Mixer
  | 0 => m
  | n + 1 =>
    (broadcastAvatarData env (ticks n).1 (mixerAfter env m ticks n) (ticks n).2).mixer

/-- The idle time that tick `k` of a run measures. -/
def idleTimeAt (env : Env) (m : Mixer) (ticks : Nat → Tick × List Node) (k : Nat) : Int :=
  idleTime (ticks k).1 (mixerAfter env m ticks k)

/-- The step of the throttling ratio as the specification words it, from the updated
trailing sleep ratio `t` and the old ratio `r`. -/
def referenceStep (t r : ℚ) : ℚ :=
  if t ≤ 10 / 100 then r + (1 / 2) * (1 - r)
  else if t ≥ 20 / 100 ∧ r ≠ 0 then max 0 (r - 2 / 100)
  else r

/-- The members of the mixer that the passes over the nodes only read: the two ratios and
the frame timestamp. -/
def frame (m : Mixer) : ℚ × ℚ × Nat :=
  (m._trailingSleepRatio, m._performanceThrottlingRatio, m._lastFrameTimestamp)

/-! ## Concrete inputs -/

/-- An environment for the concrete ticks below: packets of at most 1500 bytes, one-byte
headers, and the Euclidean length of vectors that lie on the x axis. -/
def exampleEnv : Env :=
  { MAX_PACKET_SIZE := 1500
    byteArrayWithPopulatedHeader := fun type =>
      match type with
      | .PacketTypeBulkAvatarData => [1]
      | .PacketTypeAvatarIdentity => [2]
      | .PacketTypeAvatarBillboard => [3]
      | .PacketTypeKillAvatar => [4]
      | _ => [0]
    glmLength := fun v => |v.x| }

/-- A tick that starts in the millisecond the previous one ended in (`now` is the mixer's
frame timestamp 0, so the idle time is 0), with every lock free and every draw 1/2. -/
def busyTick : Tick :=
  { now := 0
    nowAtEnd := 0
    nodeLocked := fun _ => true
    otherNodeLocked := fun _ _ => true
    throttleDraw := fun _ _ => 1 / 2
    distanceDraw := fun _ _ => 1 / 2
    billboardDraw := fun _ _ => 1 / 2
    identityDraw := fun _ _ => 1 / 2 }

/-- A run of busy ticks over an empty node list. -/
def busyRun : Nat → Tick × List Node := fun _ => (busyTick, [])

/-- The id whose 16 bytes are all `b`. -/
def uuidOf (b : Byte) : QUuid := ⟨List.replicate 16 b, by simp [NUM_BYTES_RFC4122_UUID]⟩

/-- The linked data of the peers below: an avatar on the x axis at `x` with pose payload
`pose`, a one-byte billboard and a 17-byte identity payload, whose billboard and identity
both changed at time `changed` (0: never). -/
def exampleData (x : ℚ) (pose : QByteArray) (hasReceivedFirstPackets : Bool) (changed : Nat) :
    AvatarMixerClientData :=
  { avatar :=
      { position := ⟨x, 0, 0⟩
        toByteArray := pose
        billboard := [9]
        identityByteArray := List.replicate 16 0 ++ [5] }
    hasReceivedFirstPackets := hasReceivedFirstPackets
    billboardChangeTimestamp := changed
    identityChangeTimestamp := changed }

/-- An `Agent` with an active socket and linked data, whose id bytes are all `b`. -/
def examplePeer (b : Byte) (x : ℚ) (pose : QByteArray) (hasReceivedFirstPackets : Bool)
    (changed : Nat) : Node :=
  { uuid := uuidOf b
    type := .Agent
    linkedData := some (exampleData x pose hasReceivedFirstPackets changed)
    activeSocket := some 1 }

/-- The mixer of the concrete ticks below: constructed at time 0, it has run one tick over
an empty node list, which ended at time 10. -/
def startedMixer : Mixer :=
  (broadcastAvatarData exampleEnv { busyTick with nowAtEnd := 10 } (AvatarMixer 0) []).mixer

/-- A tick of `startedMixer` that starts at time 26, after an idle time of 16 ms, with every
lock free and every draw 1/2. -/
def calmTick : Tick := { busyTick with now := 26, nowAtEnd := 27 }

/-! ## The sources of a pass and the bulk packets of a tick -/

/-- Whether source `j` passes the filters of the pass for receiver `i`: the source predicate
(lines 161-174), the try-lock (line 178) and the distance filter (line 189). -/
def included (env : Env) (t : Tick) (performanceThrottlingRatio : ℚ) (i : Nat) (node : Node)
    (myPosition : Vec3) (j : Nat) (otherNode : Node) : Bool :=
  sourcePredicate t performanceThrottlingRatio i node j otherNode
    && match otherNode.linkedData with
      | none => false
      | some otherNodeData =>
        t.otherNodeLocked i j
          && (env.glmLength (myPosition - otherNodeData.avatar.position) == 0
            || decide (t.distanceDraw i j
                < FULL_RATE_DISTANCE
                  / env.glmLength (myPosition - otherNodeData.avatar.position)))

/-- The record of a source in a bulk packet (lines 193-195): its id and its pose payload. -/
def avatarRecord (otherNode : Node) : QByteArray :=
  match otherNode.linkedData with
  | none => []
  | some otherNodeData => toRfc4122 otherNode.uuid ++ otherNodeData.avatar.toByteArray

/-- The records of the sources that pass the filters for receiver `i`, in enumeration order;
the enumeration of `nodes` starts at index `k`. -/
def includedRecordsFrom (env : Env) (t : Tick) (performanceThrottlingRatio : ℚ) (i : Nat)
    (node : Node) (myPosition : Vec3) (k : Nat) (nodes : List Node) : List QByteArray :=
  ((List.enumFrom k nodes).filter
    (fun jn => included env t performanceThrottlingRatio i node myPosition jn.1 jn.2)).map
    (fun jn => avatarRecord jn.2)

/-- The records of the sources that pass the filters for receiver `i`, in enumeration
order. -/
def includedRecords (env : Env) (t : Tick) (performanceThrottlingRatio : ℚ) (i : Nat)
    (node : Node) (myPosition : Vec3) (nodes : List Node) : List QByteArray :=
  includedRecordsFrom env t performanceThrottlingRatio i node myPosition 0 nodes

/-- The bulk packets among `sent` that went to node `i`, in transmission order. -/
def bulkPacketsTo (i : Nat) (sent : List Datagram) : List QByteArray :=
  (sent.filter
    (fun d => d.type = PacketType.PacketTypeBulkAvatarData ∧ d.destination = i)).map
    (fun d => d.packet)

/-- The payloads of packets with `numPacketHeaderBytes` header bytes, one after the other. -/
def payloads (numPacketHeaderBytes : Nat) (packets : List QByteArray) : QByteArray :=
  (packets.map (fun packet => packet.drop numPacketHeaderBytes)).flatten

/-- Whether a node is serviced as a receiver in a tick: it passes the receiver predicate and
its lock is obtained. -/
def serviced (t : Tick) (i : Nat) (node : Node) : Bool :=
  receiverPredicate node && t.nodeLocked i

/-- A node without the first-packets flag of its linked data: what a pass reads of a source
(the flag is written for the receiver of a pass and read of no source). -/
def asSource (n : Node) : Node :=
  { n with
    linkedData := n.linkedData.map (fun d => { d with hasReceivedFirstPackets := false }) }

/-- What holds of the pass for receiver `i` at every source: the buffer starts with the bulk
header, every datagram written goes to `i`, every bulk packet written starts with the
header, and the receiver's linked data differs from `nodeData` in the first-packets flag at
most. -/
def PassInv (header : QByteArray) (i : Nat) (nodeData : AvatarMixerClientData) (p : Pass) :
    Prop :=
  (∃ pay, p.mixer.mixedAvatarByteArray = header ++ pay)
    ∧ (∀ x ∈ p.sent, x.destination = i)
    ∧ (∀ x ∈ p.sent, x.type = PacketType.PacketTypeBulkAvatarData →
        ∃ pay, x.packet = header ++ pay)
    ∧ { p.nodeData with hasReceivedFirstPackets := false }
      = { nodeData with hasReceivedFirstPackets := false }

/-- The records that the tick packs for the node `node` at index `i`: those of the sources
that pass the filters when it is serviced, and none when it is not. -/
def receiverRecords (env : Env) (t : Tick) (performanceThrottlingRatio : ℚ) (i : Nat)
    (node : Node) (nodes : List Node) : List QByteArray :=
  match node.linkedData with
  | none => []
  | some nodeData =>
    if serviced t i node then
      includedRecords env t performanceThrottlingRatio i node nodeData.avatar.position nodes
    else []

/-- What holds of a tick between two receivers: the buffer starts with the bulk header, the
node list is the one the tick found but for first-packets flags, the throttling ratio is the
one the throttle block left, and every bulk packet written starts with the header. -/
def TickInv (header : QByteArray) (sources : List Node) (performanceThrottlingRatio : ℚ)
    (b : Broadcast) : Prop :=
  (∃ rest, b.mixer.mixedAvatarByteArray = header ++ rest)
    ∧ b.nodes.map asSource = sources
    ∧ b.mixer._performanceThrottlingRatio = performanceThrottlingRatio
    ∧ (∀ x ∈ b.sent, x.type = PacketType.PacketTypeBulkAvatarData →
        ∃ pay, x.packet = header ++ pay)

/-- The packets `packets` and the buffer hold the records `records`, whole and in order:
each packet is the header followed by a group of consecutive records, and the buffer is the
header followed by the records after those. -/
def Packed (header : QByteArray) (packets : List QByteArray) (buffer : QByteArray)
    (records : List QByteArray) : Prop :=
  ∃ (groups : List (List QByteArray)) (current : List QByteArray),
    packets = groups.map (fun g => header ++ g.flatten)
      ∧ buffer = header ++ current.flatten
      ∧ groups.flatten ++ current = records

/-- The packets `packets` hold the records `records`, whole and in order: each packet is the
header followed by a group of consecutive records. -/
def Grouped (header : QByteArray) (packets : List QByteArray) (records : List QByteArray) :
    Prop :=
  ∃ groups : List (List QByteArray),
    packets = groups.map (fun g => header ++ g.flatten) ∧ groups.flatten = records

/-- The record of node `n` fits a bulk packet of its own: the bulk header and the record are
at most `MAX_PACKET_SIZE` bytes together. It holds of a node without linked data, which has
no record. -/
def recordFits (env : Env) (n : Node) : Prop :=
  ∀ d, n.linkedData = some d →
    (env.byteArrayWithPopulatedHeader .PacketTypeBulkAvatarData).length
      + (toRfc4122 n.uuid ++ d.avatar.toByteArray).length ≤ env.MAX_PACKET_SIZE

/-- Three contributing peers at the origin: the first has not received its first packets
yet; the billboard and identity of all three changed at time 5. -/
def threePeers : List Node :=
  [examplePeer 7 0 [70] false 5, examplePeer 8 0 [80] true 5, examplePeer 9 0 [90] true 5]

/-- Two contributing peers 10 units apart, the identity and billboard of the second of which
changed at time 15. -/
def farPeers : List Node :=
  [examplePeer 7 0 [70] true 0, examplePeer 8 10 [80] true 15]

/-- A peer with linked data that is no `Agent` and has no active socket. -/
def silentPeer : Node :=
  { examplePeer 8 0 [80] true 0 with type := .Other 0, activeSocket := none }

/-! ## The datagrams of one receiver -/

/-- The datagrams among `sent` that went to node `i`, in transmission order. -/
def datagramsTo (i : Nat) (sent : List Datagram) : List Datagram :=
  sent.filter (fun x => x.destination = i)

/-- The datagrams `datagrams` are those of the pass for the receiver `node` at index `i`,
followed by the final flush of line 242; the pass starts from a node list that is the one
the tick found but for first-packets flags, and from a mixer with the throttling ratio and
the frame timestamp of the tick whose buffer starts with the bulk header. -/
def PassOf (env : Env) (t : Tick) (header : QByteArray) (sources : List Node)
    (performanceThrottlingRatio : ℚ) (lastFrameTimestamp : Nat) (i : Nat) (node : Node)
    (nodeData : AvatarMixerClientData) (datagrams : List Datagram) : Prop :=
  ∃ (nodes : List Node) (mixer : Mixer),
    nodes.map asSource = sources
      ∧ mixer._performanceThrottlingRatio = performanceThrottlingRatio
      ∧ mixer._lastFrameTimestamp = lastFrameTimestamp
      ∧ (∃ rest, mixer.mixedAvatarByteArray = header ++ rest)
      ∧ datagrams
        = (receiverPass env t header.length nodes i node nodeData mixer).sent
          ++ [⟨.PacketTypeBulkAvatarData,
              (receiverPass env t header.length nodes i node nodeData
                mixer).mixer.mixedAvatarByteArray, i⟩]

/-- The datagrams `datagrams` are what the tick writes to the node `node` at index `i`: those
of its pass and the final flush when it is serviced, and none when it is not (or when there
is no such node). -/
def ReceiverDatagrams (env : Env) (t : Tick) (header : QByteArray) (sources : List Node)
    (performanceThrottlingRatio : ℚ) (lastFrameTimestamp : Nat) (i : Nat)
    (node : Option Node) (datagrams : List Datagram) : Prop :=
  match node with
  | none => datagrams = []
  | some node =>
    match node.linkedData with
    | none => datagrams = []
    | some nodeData =>
      if serviced t i node then
        PassOf env t header sources performanceThrottlingRatio lastFrameTimestamp i node
          nodeData datagrams
      else datagrams = []

/-! ## The ids that datagrams carry -/

/-- The id that a billboard or identity packet with `numHeaderBytes` header bytes carries:
the 16 bytes behind the header (lines 219 and 234). -/
def packetId (numHeaderBytes : Nat) (packet : QByteArray) : QByteArray :=
  (packet.drop numHeaderBytes).take NUM_BYTES_RFC4122_UUID

/-- The id that a record of a bulk packet carries: its first 16 bytes (line 194). -/
def recordId (record : QByteArray) : QByteArray :=
  record.take NUM_BYTES_RFC4122_UUID

/-- Every datagram of `sent` is a bulk, billboard or identity packet, and no billboard or
identity packet among them carries the id of `node`. -/
def NotOwn (env : Env) (node : Node) (sent : List Datagram) : Prop :=
  ∀ x ∈ sent,
    (x.type = PacketType.PacketTypeBulkAvatarData
        ∨ x.type = PacketType.PacketTypeAvatarBillboard
        ∨ x.type = PacketType.PacketTypeAvatarIdentity)
      ∧ (x.type = PacketType.PacketTypeAvatarBillboard →
          packetId (env.byteArrayWithPopulatedHeader .PacketTypeAvatarBillboard).length x.packet
            ≠ toRfc4122 node.uuid)
      ∧ (x.type = PacketType.PacketTypeAvatarIdentity →
          packetId (env.byteArrayWithPopulatedHeader .PacketTypeAvatarIdentity).length x.packet
            ≠ toRfc4122 node.uuid)

/-! ## The receive path -/

/-- What the receive path takes from the node list and from the avatar library. A node is
named by its index in the node list. -/
structure Network where
  /-- What `nodeList->packetVersionAndHashMatch(packet)` returns -/
  packetVersionAndHashMatch : QByteArray → Bool
  /-- What `packetTypeForPacket(packet)` returns -/
  packetTypeForPacket : QByteArray → PacketType
  /-- What `nodeList->sendingNodeForPacket(packet)` returns: `none` is the null pointer -/
  sendingNodeForPacket : List Node → QByteArray → Option Nat
  /-- What `avatar.hasIdentityChangedAfterParsing(packet)` returns, and the avatar it leaves -/
  hasIdentityChangedAfterParsing : AvatarData → QByteArray → Bool × AvatarData
  /-- What `avatar.hasBillboardChangedAfterParsing(packet)` returns, and the avatar it
  leaves -/
  hasBillboardChangedAfterParsing : AvatarData → QByteArray → Bool × AvatarData
  /-- The node list after `nodeList->findNodeAndUpdateWithDataFromPacket(packet)` -/
  findNodeAndUpdateWithDataFromPacket : List Node → QByteArray → List Node
  /-- The node list after `nodeList->processKillNode(packet)` -/
  processKillNode : List Node → QByteArray → List Node
  /-- The node list after `nodeList->processNodeData(senderSockAddr, packet)` -/
  processNodeData : List Node → HifiSockAddr → QByteArray → List Node

/-- A datagram that `readAvailableDatagram` hands over, and the time at which it is
handled. -/
structure Inbound where
  receivedPacket : QByteArray
  senderSockAddr : HifiSockAddr
  /-- What `QDateTime::currentMSecsSinceEpoch()` returns at lines 286 and 303 -/
  now : Nat

/-- What `readPendingDatagrams` itself does to the linked data of a node, in the order of its
statements: it takes the mutex (a `QMutexLocker` is constructed), gives it back (the locker
goes out of scope), reads or writes the stored avatar, or writes a change timestamp. -/
inductive Access where
  | lock (node : Nat)
  | unlock (node : Nat)
  | avatar (node : Nat)
  | timestamp (node : Nat)
deriving DecidableEq

/-- Lines 277-288: an identity packet. -/
def readIdentity (net : Network) (d : Inbound) (nodes : List Node) : List Node × List Access :=
  match net.sendingNodeForPacket nodes d.receivedPacket with
  | none => (nodes, [])
  | some k =>
    match nodes[k]? with
    | none => (nodes, [])
    | some avatarNode =>
      match avatarNode.linkedData with
      | none => (nodes, [])
      | some nodeData =>
        let parsed := net.hasIdentityChangedAfterParsing nodeData.avatar d.receivedPacket
        let afterParsing : AvatarMixerClientData := { nodeData with avatar := parsed.2 }
        if parsed.1 then
          (nodes.set k
            { avatarNode with
              linkedData := some { afterParsing with identityChangeTimestamp := d.now } },
            [.avatar k, .lock k, .timestamp k, .unlock k])
        else
          (nodes.set k { avatarNode with linkedData := some afterParsing }, [.avatar k])

/-- Lines 294-306: a billboard packet. -/
def readBillboard (net : Network) (d : Inbound) (nodes : List Node) : List Node × List Access :=
  match net.sendingNodeForPacket nodes d.receivedPacket with
  | none => (nodes, [])
  | some k =>
    match nodes[k]? with
    | none => (nodes, [])
    | some avatarNode =>
      match avatarNode.linkedData with
      | none => (nodes, [])
      | some nodeData =>
        let parsed := net.hasBillboardChangedAfterParsing nodeData.avatar d.receivedPacket
        let afterParsing : AvatarMixerClientData := { nodeData with avatar := parsed.2 }
        if parsed.1 then
          (nodes.set k
            { avatarNode with
              linkedData := some { afterParsing with billboardChangeTimestamp := d.now } },
            [.avatar k, .lock k, .timestamp k, .unlock k])
        else
          (nodes.set k { avatarNode with linkedData := some afterParsing }, [.avatar k])

/-- Lines 268-318: the body of the loop of `readPendingDatagrams`, for one datagram: the node
list it leaves and what it does itself to linked data (the calls handed to the node list are
not looked into). -/
def readDatagram (net : Network) (d : Inbound) (nodes : List Node) : List Node × List Access :=
  if net.packetVersionAndHashMatch d.receivedPacket then
    match net.packetTypeForPacket d.receivedPacket with
    | .PacketTypeAvatarData =>
      (net.findNodeAndUpdateWithDataFromPacket nodes d.receivedPacket, [])
    | .PacketTypeAvatarIdentity => readIdentity net d nodes
    | .PacketTypeAvatarBillboard => readBillboard net d nodes
    | .PacketTypeKillAvatar => (net.processKillNode nodes d.receivedPacket, [])
    | _ => (net.processNodeData nodes d.senderSockAddr d.receivedPacket, [])
  else (nodes, [])

/-- The method `AvatarMixer::readPendingDatagrams`, over the datagrams that
`readAvailableDatagram` hands over, in order. -/
def readPendingDatagrams (net : Network) : List Inbound → List Node → List Node × List Access
  | [], nodes => (nodes, [])
  | d :: rest, nodes =>
    let first := readDatagram net d nodes
    let others := readPendingDatagrams net rest first.1
    (others.1, first.2 ++ others.2)

/-- Whether every access to an avatar or to a change timestamp in `accesses` is made while
the mutex of its node is held; `held` are the nodes whose mutex is held at the start. -/
def guarded (held : List Nat) : List Access → Bool
  | [] => true
  | .lock k :: rest => guarded (k :: held) rest
  | .unlock k :: rest => guarded (held.erase k) rest
  | .avatar k :: rest => decide (k ∈ held) && guarded held rest
  | .timestamp k :: rest => decide (k ∈ held) && guarded held rest

/-- The identity change timestamp of the node at index `j`, when it has linked data. -/
def identityChangeTimestampAt (nodes : List Node) (j : Nat) : Option Nat :=
  (nodes[j]?).bind (fun n => n.linkedData.map (fun d => d.identityChangeTimestamp))

/-- The billboard change timestamp of the node at index `j`, when it has linked data. -/
def billboardChangeTimestampAt (nodes : List Node) (j : Nat) : Option Nat :=
  (nodes[j]?).bind (fun n => n.linkedData.map (fun d => d.billboardChangeTimestamp))

/-- Whether the sender of the datagram is the node at index `j`, a node of the list that has
linked data, and `changed` reports a change of its avatar. -/
def senderChanged (net : Network) (changed : AvatarData → QByteArray → Bool × AvatarData)
    (d : Inbound) (nodes : List Node) (j : Nat) : Bool :=
  match net.sendingNodeForPacket nodes d.receivedPacket with
  | none => false
  | some k =>
    decide (k = j)
      && match nodes[k]? with
        | none => false
        | some avatarNode =>
          match avatarNode.linkedData with
          | none => false
          | some nodeData => (changed nodeData.avatar d.receivedPacket).1

/-! ## Concrete inputs of the receive path -/

/-- A network for the concrete datagrams below: every packet passes the version and hash
check and is an identity packet of the node at index 0, and parsing replaces the identity
payload of the avatar by the packet and reports a change when the two differ. -/
def exampleNetwork : Network :=
  { packetVersionAndHashMatch := fun _ => true
    packetTypeForPacket := fun _ => .PacketTypeAvatarIdentity
    sendingNodeForPacket := fun _ _ => some 0
    hasIdentityChangedAfterParsing := fun avatar packet =>
      (decide (avatar.identityByteArray ≠ packet), { avatar with identityByteArray := packet })
    hasBillboardChangedAfterParsing := fun avatar packet =>
      (decide (avatar.billboard ≠ packet), { avatar with billboard := packet })
    findNodeAndUpdateWithDataFromPacket := fun nodes _ => nodes
    processKillNode := fun nodes _ => nodes
    processNodeData := fun nodes _ _ => nodes }

/-- An identity packet that differs from the stored identity payload, handled at time 20. -/
def exampleIdentity : Inbound :=
  { receivedPacket := List.replicate 16 0 ++ [6], senderSockAddr := 1, now := 20 }

/-- The integer nearest to `y`, the even one of the two when `y` lies halfway between two
integers. -/
def roundHalfEven (y : ℚ) : ℤ :=
  if y - ⌊y⌋ < 1 / 2 then ⌊y⌋
  else if 1 / 2 < y - ⌊y⌋ then ⌊y⌋ + 1
  else if ⌊y⌋ % 2 = 0 then ⌊y⌋
  else ⌊y⌋ + 1

/-- The position of the leading bit of `n`, by halving at most `fuel` times (0 for `n < 2`). -/
def leadingBitFrom : ℕ → ℕ → ℕ
  | 0, _ => 0
  | fuel + 1, n => if n < 2 then 0 else leadingBitFrom fuel (n / 2) + 1

/-- The position of the leading bit of `n`: the `k` with `2^k ≤ n < 2^(k+1)`, for `n` other
than 0. -/
def leadingBit (n : ℕ) : ℕ := leadingBitFrom n n

/-- The exponent of the leading bit of `x`, for `x` other than 0: the `e` with
`2^e ≤ |x| < 2^(e+1)`, found from the leading bits of the numerator and the denominator. -/
def binaryExponent (x : ℚ) : ℤ :=
  let estimate : ℤ := (leadingBit x.num.natAbs : ℤ) - (leadingBit x.den : ℤ)
  if (2 : ℚ) ^ estimate ≤ |x| then estimate else estimate - 1

/-- The `float` nearest to `x`: 24 significant bits, the exponent of the leading bit at
least -126 (below, the spacing stays `2^-149`: subnormal numbers), ties to even. A result of
`2^128` or more in absolute value overflows; `2^128` stands for infinity then, which is above
every `float` as `2^128` is. -/
def roundToFloat (x : ℚ) : ℚ :=
  if x = 0 then 0
  else
    let exponent : ℤ := max (binaryExponent x) (-126)
    let spacing : ℚ := 2 ^ (exponent - 23)
    let rounded : ℚ := (roundHalfEven (x / spacing) : ℚ) * spacing
    if 2 ^ 128 ≤ |rounded| then (if 0 < x then 2 ^ 128 else -(2 ^ 128)) else rounded

/-- The sum `a + b` of two `float`. -/
def addFloat (a b : ℚ) : ℚ := roundToFloat (a + b)

/-- The difference `a - b` of two `float`. -/
def subFloat (a b : ℚ) : ℚ := roundToFloat (a - b)

/-- The product `a * b` of two `float`. -/
def mulFloat (a b : ℚ) : ℚ := roundToFloat (a * b)

/-- The quotient `a / b` of two `float`, for `b` other than 0. -/
def divFloat (a b : ℚ) : ℚ := roundToFloat (a / b)

/-- The difference of two `glm::vec3`, each component a difference of `float`. -/
def subVec3Float (a b : Vec3) : Vec3 := ⟨subFloat a.x b.x, subFloat a.y b.y, subFloat a.z b.z⟩

/-- Lines 72-117 of `broadcastAvatarData` in `float`: the trailing sleep ratio and the
throttling ratio after a tick whose idle time was `idleTime`. The `int` operands `idleTime`
and `TRAILING_AVERAGE_FRAMES` and the `unsigned int` `AVATAR_DATA_SEND_INTERVAL_MSECS` are
converted to `float` where they meet one. -/
def throttleFloat (idleTime : Int) (trailingSleepRatio performanceThrottlingRatio : ℚ) :
    Throttle :=
  let struggleThreshold : ℚ := roundToFloat STRUGGLE_TRIGGER_SLEEP_PERCENTAGE_THRESHOLD
  let backOffThreshold : ℚ := roundToFloat BACK_OFF_TRIGGER_SLEEP_PERCENTAGE_THRESHOLD
  let ratioBackOff : ℚ := roundToFloat RATIO_BACK_OFF
  let framesSinceCutoffEvent : Int := TRAILING_AVERAGE_FRAMES
  let currentFrameRatio : ℚ := divFloat 1 (roundToFloat TRAILING_AVERAGE_FRAMES)
  let previousFramesRatio : ℚ := subFloat 1 currentFrameRatio
  let trailing : ℚ :=
    addFloat (mulFloat previousFramesRatio trailingSleepRatio)
      (divFloat (mulFloat (roundToFloat idleTime) currentFrameRatio)
        (roundToFloat AVATAR_DATA_SEND_INTERVAL_MSECS))
  let lastCutoffRatio := performanceThrottlingRatio
  let gate : Bool := decide (framesSinceCutoffEvent ≥ TRAILING_AVERAGE_FRAMES)
  let adjusted : ℚ × Bool :=
    if gate then
      if trailing ≤ struggleThreshold then
        (addFloat performanceThrottlingRatio
          (mulFloat (1 / 2) (subFloat 1 performanceThrottlingRatio)), true)
      else if trailing ≥ backOffThreshold ∧ performanceThrottlingRatio ≠ 0 then
        let backedOff := subFloat performanceThrottlingRatio ratioBackOff
        (if backedOff < 0 then 0 else backedOff, true)
      else
        (performanceThrottlingRatio, false)
    else
      (performanceThrottlingRatio, false)
  let hasRatioChanged := adjusted.2
  let framesAfterGate : Int := if gate && hasRatioChanged then 0 else framesSinceCutoffEvent
  { _trailingSleepRatio := trailing
    _performanceThrottlingRatio := adjusted.1
    lastCutoffRatio := lastCutoffRatio
    hasRatioChanged := hasRatioChanged
    framesSinceCutoffEvent := if !hasRatioChanged then framesAfterGate + 1 else framesAfterGate }

/-- The source predicate, lines 161-174, in `float`: line 170 compares the draw with the
`float` difference `1.0f - _performanceThrottlingRatio`. -/
def sourcePredicateFloat (t : Tick) (performanceThrottlingRatio : ℚ) (i : Nat) (node : Node)
    (j : Nat) (otherNode : Node) : Bool :=
  if otherNode.linkedData.isNone then false
  else if otherNode.uuid = node.uuid then false
  else if !(performanceThrottlingRatio == 0
      || decide (t.throttleDraw i j < subFloat 1 performanceThrottlingRatio)) then false
  else true

/-- The source functor, lines 175-241, in `float`, for receiver `i` at `myPosition`: line 187
takes the length of a difference of `float` vectors and line 189 compares the draw with the
`float` quotient `FULL_RATE_DISTANCE / distanceToAvatar`. The billboard and identity
packets are decided as in `sendBillboard` and `sendIdentity`. -/
def sourceActionFloat (env : Env) (t : Tick) (numPacketHeaderBytes i : Nat) (myPosition : Vec3)
    (j : Nat) (otherNode : Node) (p : Pass) : Pass :=
  match otherNode.linkedData with
  | none => p
  | some otherNodeData =>
    if !t.otherNodeLocked i j then p
    else
      let otherAvatar := otherNodeData.avatar
      let otherPosition := otherAvatar.position
      let distanceToAvatar : ℚ := env.glmLength (subVec3Float myPosition otherPosition)
      if !(distanceToAvatar == 0
          || decide (t.distanceDraw i j < divFloat FULL_RATE_DISTANCE distanceToAvatar)) then p
      else
        let packed := appendAvatar env numPacketHeaderBytes i otherNode otherAvatar p
        let checked := checkAndSetHasReceivedFirstPackets packed.nodeData
        let forceSend : Bool := !checked.1
        let marked : Pass := { packed with nodeData := checked.2 }
        sendIdentity env t i j otherNode otherNodeData forceSend
          (sendBillboard env t i j otherNode otherNodeData forceSend marked)

/-- Lines 144-241 in `float` for receiver `i`, whose lock is held. -/
def receiverPassFloat (env : Env) (t : Tick) (numPacketHeaderBytes : Nat) (nodes : List Node)
    (i : Nat) (node : Node) (nodeData : AvatarMixerClientData) (mixer : Mixer) : Pass :=
  let counted : Mixer :=
    { mixer with
      _sumListeners := mixer._sumListeners + 1
      mixedAvatarByteArray := resize mixer.mixedAvatarByteArray numPacketHeaderBytes }
  let myPosition := nodeData.avatar.position
  eachMatchingNode nodes
    (fun j otherNode =>
      sourcePredicateFloat t counted._performanceThrottlingRatio i node j otherNode)
    (sourceActionFloat env t numPacketHeaderBytes i myPosition)
    { mixer := counted, nodeData := nodeData, sent := [] }

/-- The receiver functor, lines 138-243, in `float`, for the node at index `i`. -/
def receiverActionFloat (env : Env) (t : Tick) (numPacketHeaderBytes : Nat)
    (i : Nat) (node : Node) (b : Broadcast) : Broadcast :=
  match node.linkedData with
  | none => b
  | some nodeData =>
    if !t.nodeLocked i then b
    else
      let p := receiverPassFloat env t numPacketHeaderBytes b.nodes i node nodeData b.mixer
      { mixer := p.mixer
        nodes := b.nodes.set i { node with linkedData := some p.nodeData }
        sent := b.sent ++ p.sent
          ++ [⟨.PacketTypeBulkAvatarData, p.mixer.mixedAvatarByteArray, i⟩] }

/-- The method `AvatarMixer::broadcastAvatarData` in `float`: one tick over the node list
`nodes`. -/
def broadcastAvatarDataFloat (env : Env) (t : Tick) (m : Mixer) (nodes : List Node) :
    Broadcast :=
  let th := throttleFloat (idleTime t m) m._trailingSleepRatio m._performanceThrottlingRatio
  let header := populatePacketHeader env m.mixedAvatarByteArray .PacketTypeBulkAvatarData
  let numPacketHeaderBytes := header.2
  let started : Mixer :=
    { m with
      _numStatFrames := m._numStatFrames + 1
      _trailingSleepRatio := th._trailingSleepRatio
      _performanceThrottlingRatio := th._performanceThrottlingRatio
      mixedAvatarByteArray := header.1 }
  let b := eachMatchingNode nodes (fun _ node => receiverPredicate node)
    (receiverActionFloat env t numPacketHeaderBytes)
    { mixer := started, nodes := nodes, sent := [] }
  { b with mixer := { b.mixer with _lastFrameTimestamp := t.nowAtEnd } }

/-- The mixer after the first `n` ticks of a run, in `float`: tick `k` of the run is
`(ticks k).1`, and finds the node list `(ticks k).2`. -/
def mixerAfterFloat (env : Env) (m : Mixer) (ticks : Nat → Tick × List Node) : Nat → Mixer
  | 0 => m
  | n + 1 =>
    (broadcastAvatarDataFloat env (ticks n).1 (mixerAfterFloat env m ticks n) (ticks n).2).mixer

/-- The step of the throttling ratio as the specification words it, in `float`, from the
updated trailing sleep ratio `t` and the old ratio `r`. -/
def referenceStepFloat (t r : ℚ) : ℚ :=
  if t ≤ roundToFloat (10 / 100) then addFloat r (mulFloat (1 / 2) (subFloat 1 r))
  else if t ≥ roundToFloat (20 / 100) ∧ r ≠ 0 then max 0 (subFloat r (roundToFloat (2 / 100)))
  else r

/-- A tick with every lock free whose throttle draw is 0 for every source. -/
def luckyTick : Tick := { calmTick with throttleDraw := fun _ _ => 0 }

/-- The mixer of the run of busy ticks after `frames` ticks, given its two ratios. -/
def busyMixer (frames : Nat) (trailingSleepRatio performanceThrottlingRatio : ℚ) : Mixer :=
  { _lastFrameTimestamp := 0
    _trailingSleepRatio := trailingSleepRatio
    _performanceThrottlingRatio := performanceThrottlingRatio
    _sumListeners := 0
    _numStatFrames := frames
    _sumBillboardPackets := 0
    _sumIdentityPackets := 0
    mixedAvatarByteArray := [1] }

/-- The trailing sleep ratio and the throttling ratio, in `float`, after a tick whose idle
time is 0, from the two ratios before it. -/
def busyStepFloat (ratios : ℚ × ℚ) : ℚ × ℚ :=
  ((throttleFloat 0 ratios.1 ratios.2)._trailingSleepRatio,
    (throttleFloat 0 ratios.1 ratios.2)._performanceThrottlingRatio)

/-! ## The statistics -/

/-- The quotient `a / b` of two `float` of which `b` may be 0: `none` is the result of
`0 / 0`, which is not a number, and `2^128` stands for the infinite result of `a / 0`. -/
def divFloatOrNaN (a b : ℚ) : Option ℚ :=
  if b = 0 then (if a = 0 then none else some (if 0 < a then 2 ^ 128 else -(2 ^ 128)))
  else some (divFloat a b)

/-- The `QJsonObject` that `sendStatsPacket` hands to `addPacketStatsAndSendStatsPacket`: one
member for each key that it sets. An average is `none` when it is not a number. -/
structure StatsObject where
  average_listeners_last_second : Option ℚ
  average_billboard_packets_per_frame : Option ℚ
  average_identity_packets_per_frame : Option ℚ
  trailing_sleep_percentage : ℚ
  performance_throttling_ratio : ℚ
deriving DecidableEq

/-- The method `AvatarMixer::sendStatsPacket`: the statistics it reports and the mixer it
leaves. The counters are converted to `float` and divided as `float` (lines 324-327), and
the trailing sleep ratio is multiplied by `100` converted to `float` (line 329). -/
def sendStatsPacket (m : Mixer) : StatsObject × Mixer :=
  let statsObject : StatsObject :=
    { average_listeners_last_second :=
        divFloatOrNaN (roundToFloat m._sumListeners) (roundToFloat m._numStatFrames)
      average_billboard_packets_per_frame :=
        divFloatOrNaN (roundToFloat m._sumBillboardPackets) (roundToFloat m._numStatFrames)
      average_identity_packets_per_frame :=
        divFloatOrNaN (roundToFloat m._sumIdentityPackets) (roundToFloat m._numStatFrames)
      trailing_sleep_percentage := mulFloat m._trailingSleepRatio (roundToFloat 100)
      performance_throttling_ratio := m._performanceThrottlingRatio }
  (statsObject,
    { m with
      _sumListeners := 0
      _sumBillboardPackets := 0
      _sumIdentityPackets := 0
      _numStatFrames := 0 })

/-! ## The throttle -/

theorem interval_eq : AVATAR_DATA_SEND_INTERVAL_MSECS = 16 := by
  unfold AVATAR_DATA_SEND_INTERVAL_MSECS
  rw [Nat.floor_eq_iff (by norm_num)]
  norm_num

theorem throttle_trailing (i : Int) (t r : ℚ) :
    (throttle i t r)._trailingSleepRatio
      = (99 / 100) * t + (1 / 100) * ((i : ℚ) / AVATAR_DATA_SEND_INTERVAL_MSECS) := by
  simp only [throttle, PREVIOUS_FRAMES_RATIO, CURRENT_FRAME_RATIO, TRAILING_AVERAGE_FRAMES]
  push_cast
  ring

theorem throttle_ratio (i : Int) (t r : ℚ) :
    (throttle i t r)._performanceThrottlingRatio
      = referenceStep (throttle i t r)._trailingSleepRatio r := by
  simp only [throttle, referenceStep, STRUGGLE_TRIGGER_SLEEP_PERCENTAGE_THRESHOLD,
    BACK_OFF_TRIGGER_SLEEP_PERCENTAGE_THRESHOLD, RATIO_BACK_OFF, ge_iff_le, le_refl,
    decide_True, if_true]
  split_ifs with h1 h2 h3 <;> first | rfl | skip
  · rw [max_eq_left (le_of_lt h3)]
  · rw [max_eq_right (not_lt.mp h3)]


/-! ## What the passes over the nodes leave alone -/

theorem eachMatchingNodeFrom_preserves {σ : Type} (P : σ → Prop) (predicate : Nat → Node → Bool)
    (functor : Nat → Node → σ → σ) (hf : ∀ k n s, P s → P (functor k n s)) :
    ∀ (nodes : List Node) (k : Nat) (s : σ), P s →
      P (eachMatchingNodeFrom predicate functor k nodes s) := by
  intro nodes
  induction nodes with
  | nil => intro k s hs; simpa [eachMatchingNodeFrom] using hs
  | cons n rest ih =>
    intro k s hs
    simp only [eachMatchingNodeFrom]
    apply ih
    split_ifs
    · exact hf k n s hs
    · exact hs

theorem appendAvatar_frame (env : Env) (h i : Nat) (o : Node) (a : AvatarData) (p : Pass) :
    frame (appendAvatar env h i o a p).mixer = frame p.mixer := by
  simp only [appendAvatar]
  split_ifs <;> rfl

theorem sendBillboard_frame (env : Env) (t : Tick) (i j : Nat) (o : Node)
    (d : AvatarMixerClientData) (f : Bool) (p : Pass) :
    frame (sendBillboard env t i j o d f p).mixer = frame p.mixer := by
  unfold sendBillboard
  split_ifs <;> rfl

theorem sendIdentity_frame (env : Env) (t : Tick) (i j : Nat) (o : Node)
    (d : AvatarMixerClientData) (f : Bool) (p : Pass) :
    frame (sendIdentity env t i j o d f p).mixer = frame p.mixer := by
  unfold sendIdentity
  split_ifs <;> rfl

theorem sourceAction_frame (env : Env) (t : Tick) (h i : Nat) (pos : Vec3) (j : Nat)
    (o : Node) (p : Pass) :
    frame (sourceAction env t h i pos j o p).mixer = frame p.mixer := by
  unfold sourceAction
  split
  · rfl
  · dsimp only
    split_ifs
    · rfl
    · rfl
    · rw [sendIdentity_frame, sendBillboard_frame]
      exact appendAvatar_frame env h i o _ p

theorem receiverPass_frame (env : Env) (t : Tick) (h : Nat) (nodes : List Node) (i : Nat)
    (node : Node) (d : AvatarMixerClientData) (m : Mixer) :
    frame (receiverPass env t h nodes i node d m).mixer = frame m := by
  simp only [receiverPass, eachMatchingNode]
  refine eachMatchingNodeFrom_preserves (fun p : Pass => frame p.mixer = frame m) _ _ ?_ nodes 0 _ ?_
  · intro k n s hs
    exact (sourceAction_frame env t h i _ k n s).trans hs
  · rfl

theorem receiverAction_frame (env : Env) (t : Tick) (h i : Nat) (node : Node) (b : Broadcast) :
    frame (receiverAction env t h i node b).mixer = frame b.mixer := by
  unfold receiverAction
  split
  · rfl
  · dsimp only
    split_ifs
    · rfl
    · exact receiverPass_frame env t h b.nodes i node _ b.mixer

theorem broadcastAvatarData_throttle (env : Env) (t : Tick) (m : Mixer) (nodes : List Node) :
    (broadcastAvatarData env t m nodes).mixer._trailingSleepRatio
        = (throttle (idleTime t m) m._trailingSleepRatio
            m._performanceThrottlingRatio)._trailingSleepRatio
      ∧ (broadcastAvatarData env t m nodes).mixer._performanceThrottlingRatio
        = (throttle (idleTime t m) m._trailingSleepRatio
            m._performanceThrottlingRatio)._performanceThrottlingRatio := by
  have key := eachMatchingNodeFrom_preserves
    (fun b : Broadcast => frame b.mixer
      = ((throttle (idleTime t m) m._trailingSleepRatio
            m._performanceThrottlingRatio)._trailingSleepRatio,
         (throttle (idleTime t m) m._trailingSleepRatio
            m._performanceThrottlingRatio)._performanceThrottlingRatio,
         m._lastFrameTimestamp))
    (fun _ node => receiverPredicate node)
    (receiverAction env t
      (populatePacketHeader env m.mixedAvatarByteArray .PacketTypeBulkAvatarData).2)
    (fun k n s hs => (receiverAction_frame env t _ k n s).trans hs) nodes 0
    { mixer :=
        { m with
          _numStatFrames := m._numStatFrames + 1
          _trailingSleepRatio := (throttle (idleTime t m) m._trailingSleepRatio
            m._performanceThrottlingRatio)._trailingSleepRatio
          _performanceThrottlingRatio := (throttle (idleTime t m) m._trailingSleepRatio
            m._performanceThrottlingRatio)._performanceThrottlingRatio
          mixedAvatarByteArray :=
            (populatePacketHeader env m.mixedAvatarByteArray .PacketTypeBulkAvatarData).1 }
      nodes := nodes, sent := [] } rfl
  simp only [frame, Prod.mk.injEq] at key
  exact ⟨key.1, key.2.1⟩

theorem ratio_is_reference_step_aux (env : Env) (t : Tick) (m : Mixer) (nodes : List Node) :
    (broadcastAvatarData env t m nodes).mixer._performanceThrottlingRatio
      = referenceStep (broadcastAvatarData env t m nodes).mixer._trailingSleepRatio
          m._performanceThrottlingRatio := by
  rw [(broadcastAvatarData_throttle env t m nodes).1,
    (broadcastAvatarData_throttle env t m nodes).2]
  exact throttle_ratio _ _ _

/-! ## The throttle over a run -/

theorem referenceStep_mem (t r : ℚ) (h0 : 0 ≤ r) (h1 : r ≤ 1) :
    0 ≤ referenceStep t r ∧ referenceStep t r ≤ 1 := by
  unfold referenceStep
  split_ifs with ha hb
  · constructor <;> linarith
  · refine ⟨le_max_left _ _, max_le (by norm_num) (by linarith)⟩
  · exact ⟨h0, h1⟩

theorem mixerAfter_trailing (env : Env) (m : Mixer) (ticks : Nat → Tick × List Node) (n : Nat) :
    (mixerAfter env m ticks (n + 1))._trailingSleepRatio
      = (99 / 100) * (mixerAfter env m ticks n)._trailingSleepRatio
        + (1 / 100) * ((idleTimeAt env m ticks n : ℚ) / AVATAR_DATA_SEND_INTERVAL_MSECS) := by
  simp only [mixerAfter, idleTimeAt]
  rw [(broadcastAvatarData_throttle env _ _ _).1, throttle_trailing]

theorem mixerAfter_ratio (env : Env) (m : Mixer) (ticks : Nat → Tick × List Node) (n : Nat) :
    (mixerAfter env m ticks (n + 1))._performanceThrottlingRatio
      = referenceStep (mixerAfter env m ticks (n + 1))._trailingSleepRatio
          (mixerAfter env m ticks n)._performanceThrottlingRatio := by
  simp only [mixerAfter]
  rw [(broadcastAvatarData_throttle env _ _ _).2, (broadcastAvatarData_throttle env _ _ _).1,
    throttle_ratio]

theorem mixerAfter_constant_sample (env : Env) (m : Mixer) (ticks : Nat → Tick × List Node)
    (s : ℚ) (n : Nat)
    (hs : ∀ k, k < n → (idleTimeAt env m ticks k : ℚ) / AVATAR_DATA_SEND_INTERVAL_MSECS = s) :
    (mixerAfter env m ticks n)._trailingSleepRatio - s
      = (99 / 100) ^ n * (m._trailingSleepRatio - s) := by
  induction n with
  | zero => simp [mixerAfter]
  | succ n ih =>
    rw [mixerAfter_trailing, hs n (Nat.lt_succ_self n), pow_succ]
    have := ih (fun k hk => hs k (Nat.lt_succ_of_lt hk))
    linear_combination (99 / 100) * this

/-- C9: in exact arithmetic the trailing sleep ratio after `n` ticks from construction is the
closed-form exponential moving average with weight 1/100 of the samples
`idleTime / AVATAR_DATA_SEND_INTERVAL_MSECS`, started at 1; for a constant sample `s` the
error is `(99/100)^n * (1 - s)`, it never grows in absolute value, and the ratio tends to
`s`. -/
theorem trailingSleepRatio_closed_form (env : Env) (now : Nat)
    (ticks : Nat → Tick × List Node) :
    (∀ n, (mixerAfter env (AvatarMixer now) ticks n)._trailingSleepRatio
        = (99 / 100) ^ n * 1
          + ∑ k in Finset.range n, (1 / 100) * (99 / 100) ^ (n - 1 - k)
              * ((idleTimeAt env (AvatarMixer now) ticks k : ℚ)
                  / AVATAR_DATA_SEND_INTERVAL_MSECS))
    ∧ (∀ s : ℚ,
        (∀ k, (idleTimeAt env (AvatarMixer now) ticks k : ℚ)
            / AVATAR_DATA_SEND_INTERVAL_MSECS = s) →
        (∀ n, (mixerAfter env (AvatarMixer now) ticks n)._trailingSleepRatio - s
            = (99 / 100) ^ n * (1 - s))
        ∧ (∀ n, |(mixerAfter env (AvatarMixer now) ticks (n + 1))._trailingSleepRatio - s|
            ≤ |(mixerAfter env (AvatarMixer now) ticks n)._trailingSleepRatio - s|)
        ∧ Filter.Tendsto
            (fun n => (((mixerAfter env (AvatarMixer now) ticks n)._trailingSleepRatio : ℚ) : ℝ))
            Filter.atTop (nhds (s : ℝ))) := by
  refine ⟨?_, ?_⟩
  · intro n
    induction n with
    | zero => simp [mixerAfter, AvatarMixer]
    | succ n ih =>
      rw [mixerAfter_trailing, ih, Finset.sum_range_succ, mul_add, Finset.mul_sum]
      have hsum : ∀ k ∈ Finset.range n,
          (99 / 100 : ℚ) * ((1 / 100) * (99 / 100) ^ (n - 1 - k)
              * ((idleTimeAt env (AvatarMixer now) ticks k : ℚ)
                  / AVATAR_DATA_SEND_INTERVAL_MSECS))
            = (1 / 100) * (99 / 100) ^ (n + 1 - 1 - k)
              * ((idleTimeAt env (AvatarMixer now) ticks k : ℚ)
                  / AVATAR_DATA_SEND_INTERVAL_MSECS) := by
        intro k hk
        have hk' : k < n := Finset.mem_range.mp hk
        have he : n + 1 - 1 - k = (n - 1 - k) + 1 := by omega
        rw [he, pow_succ]
        ring
      rw [Finset.sum_congr rfl hsum]
      have hz : n + 1 - 1 - n = 0 := by omega
      rw [hz, pow_zero, pow_succ]
      ring
  · intro s hs
    have hform : ∀ n, (mixerAfter env (AvatarMixer now) ticks n)._trailingSleepRatio - s
        = (99 / 100) ^ n * (1 - s) := by
      intro n
      have := mixerAfter_constant_sample env (AvatarMixer now) ticks s n (fun k _ => hs k)
      simpa [AvatarMixer] using this
    refine ⟨hform, ?_, ?_⟩
    · intro n
      rw [hform, hform, pow_succ, abs_mul, abs_mul, abs_mul]
      have h1 : |(99 / 100 : ℚ)| ≤ 1 := by
        rw [abs_of_pos (by norm_num)]
        norm_num
      calc |(99 / 100 : ℚ) ^ n| * |(99 / 100 : ℚ)| * |1 - s|
          ≤ |(99 / 100 : ℚ) ^ n| * 1 * |1 - s| := by
            apply mul_le_mul_of_nonneg_right _ (abs_nonneg _)
            exact mul_le_mul_of_nonneg_left h1 (abs_nonneg _)
        _ = |(99 / 100 : ℚ) ^ n| * |1 - s| := by ring
    · have hreal : ∀ n,
          (((mixerAfter env (AvatarMixer now) ticks n)._trailingSleepRatio : ℚ) : ℝ)
            = (99 / 100 : ℝ) ^ n * (1 - (s : ℝ)) + (s : ℝ) := by
        intro n
        have h := hform n
        have h' : (mixerAfter env (AvatarMixer now) ticks n)._trailingSleepRatio
            = (99 / 100) ^ n * (1 - s) + s := by linarith
        rw [h']
        push_cast
        ring
      simp only [hreal]
      have hpow : Filter.Tendsto (fun n : ℕ => (99 / 100 : ℝ) ^ n) Filter.atTop (nhds 0) :=
        tendsto_pow_atTop_nhds_zero_of_lt_one (by norm_num) (by norm_num)
      have := (hpow.mul_const (1 - (s : ℝ))).add_const (s : ℝ)
      simpa using this

/-- C4: the throttling ratio is 0 after construction, every tick maps a ratio in [0,1] to a
ratio in [0,1], and so the ratio is in [0,1] after any number of ticks of any run. -/
theorem performanceThrottlingRatio_in_unit_interval :
    (∀ now, (AvatarMixer now)._performanceThrottlingRatio = 0)
    ∧ (∀ (env : Env) (t : Tick) (m : Mixer) (nodes : List Node),
        0 ≤ m._performanceThrottlingRatio ∧ m._performanceThrottlingRatio ≤ 1 →
        0 ≤ (broadcastAvatarData env t m nodes).mixer._performanceThrottlingRatio
          ∧ (broadcastAvatarData env t m nodes).mixer._performanceThrottlingRatio ≤ 1)
    ∧ (∀ (env : Env) (now : Nat) (ticks : Nat → Tick × List Node) (n : Nat),
        0 ≤ (mixerAfter env (AvatarMixer now) ticks n)._performanceThrottlingRatio
          ∧ (mixerAfter env (AvatarMixer now) ticks n)._performanceThrottlingRatio ≤ 1) := by
  have step : ∀ (env : Env) (t : Tick) (m : Mixer) (nodes : List Node),
      0 ≤ m._performanceThrottlingRatio ∧ m._performanceThrottlingRatio ≤ 1 →
      0 ≤ (broadcastAvatarData env t m nodes).mixer._performanceThrottlingRatio
        ∧ (broadcastAvatarData env t m nodes).mixer._performanceThrottlingRatio ≤ 1 := by
    intro env t m nodes h
    rw [(ratio_is_reference_step_aux env t m nodes)]
    exact referenceStep_mem _ _ h.1 h.2
  refine ⟨fun _ => rfl, step, ?_⟩
  intro env now ticks n
  induction n with
  | zero => simp [mixerAfter, AvatarMixer]
  | succ n ih => exact step env _ _ _ ih

/-! ## Packing -/

theorem resize_header (header rest : QByteArray) :
    resize (header ++ rest) header.length = header := by
  simp [resize]

theorem bulkPacketsTo_append (i : Nat) (a b : List Datagram) :
    bulkPacketsTo i (a ++ b) = bulkPacketsTo i a ++ bulkPacketsTo i b := by
  simp [bulkPacketsTo]

theorem payloads_append (h : Nat) (a b : List QByteArray) :
    payloads h (a ++ b) = payloads h a ++ payloads h b := by
  simp [payloads]

/-- Lines 193-205 keep the records whole and in order: after the append the bulk packets and
the buffer hold the records they held, then the new one. -/
theorem appendAvatar_packed (env : Env) (header : QByteArray) (i : Nat) (o : Node)
    (a : AvatarData) (p : Pass) (records : List QByteArray)
    (hp : Packed header (bulkPacketsTo i p.sent) p.mixer.mixedAvatarByteArray records) :
    Packed header (bulkPacketsTo i (appendAvatar env header.length i o a p).sent)
      (appendAvatar env header.length i o a p).mixer.mixedAvatarByteArray
      (records ++ [toRfc4122 o.uuid ++ a.toByteArray]) := by
  obtain ⟨groups, current, hpk, hbuf, hrec⟩ := hp
  simp only [appendAvatar]
  split_ifs with hfull
  · refine ⟨groups ++ [current], [toRfc4122 o.uuid ++ a.toByteArray], ?_, ?_, ?_⟩
    · rw [bulkPacketsTo_append, hpk, List.map_append]
      simp [bulkPacketsTo, hbuf]
    · simp only [hbuf, resize_header]
      simp
    · rw [← hrec]
      simp
  · refine ⟨groups, current ++ [toRfc4122 o.uuid ++ a.toByteArray], hpk, ?_, ?_⟩
    · simp only [hbuf]
      simp
    · rw [← hrec]
      simp

theorem sendBillboard_bulk (env : Env) (t : Tick) (i j : Nat) (o : Node)
    (d : AvatarMixerClientData) (f : Bool) (p : Pass) :
    bulkPacketsTo i (sendBillboard env t i j o d f p).sent = bulkPacketsTo i p.sent
      ∧ (sendBillboard env t i j o d f p).mixer.mixedAvatarByteArray
        = p.mixer.mixedAvatarByteArray
      ∧ (sendBillboard env t i j o d f p).nodeData = p.nodeData := by
  unfold sendBillboard
  split_ifs
  · simp [bulkPacketsTo]
  · simp

theorem sendIdentity_bulk (env : Env) (t : Tick) (i j : Nat) (o : Node)
    (d : AvatarMixerClientData) (f : Bool) (p : Pass) :
    bulkPacketsTo i (sendIdentity env t i j o d f p).sent = bulkPacketsTo i p.sent
      ∧ (sendIdentity env t i j o d f p).mixer.mixedAvatarByteArray
        = p.mixer.mixedAvatarByteArray
      ∧ (sendIdentity env t i j o d f p).nodeData = p.nodeData := by
  unfold sendIdentity
  split_ifs
  · simp [bulkPacketsTo]
  · simp

/-- A source that does not pass the filters leaves the pass as it was. -/
theorem source_not_included (env : Env) (t : Tick) (r : ℚ) (h i : Nat) (node : Node)
    (pos : Vec3) (j : Nat) (o : Node) (p : Pass)
    (hno : included env t r i node pos j o = false) :
    (if sourcePredicate t r i node j o then sourceAction env t h i pos j o p else p) = p := by
  unfold included at hno
  split_ifs with hpred
  · unfold sourceAction
    rw [hpred] at hno
    split
    · rfl
    · rename_i d hd
      simp only [hd, Bool.true_and, Bool.and_eq_false_imp] at hno
      dsimp only
      split_ifs with hl hdist
      · rfl
      · rfl
      · exfalso
        simp only [Bool.not_eq_true', Bool.not_eq_false] at hl
        have := hno hl
        simp only [Bool.not_eq_true] at hdist
        rw [Bool.not_eq_false'] at hdist
        simp [hdist] at this
  · rfl

/-- A source that passes the filters has linked data, and the pass continues with its record
appended and its billboard and identity packets decided. -/
theorem source_included (env : Env) (t : Tick) (r : ℚ) (h i : Nat) (node : Node)
    (pos : Vec3) (j : Nat) (o : Node) (p : Pass)
    (hyes : included env t r i node pos j o = true) :
    ∃ d, o.linkedData = some d
      ∧ (if sourcePredicate t r i node j o then sourceAction env t h i pos j o p else p)
        = sendIdentity env t i j o d
            (!(checkAndSetHasReceivedFirstPackets (appendAvatar env h i o d.avatar p).nodeData).1)
            (sendBillboard env t i j o d
              (!(checkAndSetHasReceivedFirstPackets (appendAvatar env h i o d.avatar p).nodeData).1)
              { appendAvatar env h i o d.avatar p with
                nodeData :=
                  (checkAndSetHasReceivedFirstPackets
                    (appendAvatar env h i o d.avatar p).nodeData).2 }) := by
  unfold included at hyes
  rw [Bool.and_eq_true] at hyes
  obtain ⟨hpred, hrest⟩ := hyes
  cases hd : o.linkedData with
  | none => simp [hd] at hrest
  | some d =>
    refine ⟨d, rfl, ?_⟩
    simp only [hd, Bool.and_eq_true] at hrest
    rw [if_pos hpred]
    unfold sourceAction
    simp only [hd]
    rw [if_neg (by simp [hrest.1]), if_neg (by rw [hrest.2]; simp)]

theorem includedRecordsFrom_cons (env : Env) (t : Tick) (r : ℚ) (i : Nat) (node : Node)
    (pos : Vec3) (k : Nat) (n : Node) (rest : List Node) :
    includedRecordsFrom env t r i node pos k (n :: rest)
      = (if included env t r i node pos k n then [avatarRecord n] else [])
        ++ includedRecordsFrom env t r i node pos (k + 1) rest := by
  simp only [includedRecordsFrom, List.enumFrom, List.filter_cons]
  split_ifs <;> simp

/-- The step of the pass at one source, as far as packing goes. -/
theorem source_packed (env : Env) (t : Tick) (r : ℚ) (header : QByteArray) (i : Nat)
    (node : Node) (pos : Vec3) (j : Nat) (o : Node) (p : Pass) (records : List QByteArray)
    (hp : Packed header (bulkPacketsTo i p.sent) p.mixer.mixedAvatarByteArray records) :
    Packed header
      (bulkPacketsTo i
        (if sourcePredicate t r i node j o then sourceAction env t header.length i pos j o p
          else p).sent)
      (if sourcePredicate t r i node j o then sourceAction env t header.length i pos j o p
        else p).mixer.mixedAvatarByteArray
      (records ++ (if included env t r i node pos j o then [avatarRecord o] else [])) := by
  cases hinc : included env t r i node pos j o with
  | false =>
    rw [source_not_included env t r header.length i node pos j o p hinc]
    simpa using hp
  | true =>
    obtain ⟨d, hd, hstep⟩ := source_included env t r header.length i node pos j o p hinc
    rw [hstep, (sendIdentity_bulk env t i j o d _ _).2.1, (sendBillboard_bulk env t i j o d _ _).2.1,
      (sendIdentity_bulk env t i j o d _ _).1, (sendBillboard_bulk env t i j o d _ _).1]
    have := appendAvatar_packed env header i o d.avatar p records hp
    simpa [avatarRecord, hd] using this

/-- The packing of a whole pass: the bulk packets it wrote and the buffer hold what they held
before, then the records of the sources that passed the filters, whole and in order. -/
theorem pass_packed (env : Env) (t : Tick) (r : ℚ) (header : QByteArray) (i : Nat)
    (node : Node) (pos : Vec3) :
    ∀ (nodes : List Node) (k : Nat) (p : Pass) (records : List QByteArray),
      Packed header (bulkPacketsTo i p.sent) p.mixer.mixedAvatarByteArray records →
      Packed header
        (bulkPacketsTo i
          (eachMatchingNodeFrom (fun j o => sourcePredicate t r i node j o)
            (sourceAction env t header.length i pos) k nodes p).sent)
        (eachMatchingNodeFrom (fun j o => sourcePredicate t r i node j o)
          (sourceAction env t header.length i pos) k nodes p).mixer.mixedAvatarByteArray
        (records ++ includedRecordsFrom env t r i node pos k nodes) := by
  intro nodes
  induction nodes with
  | nil =>
    intro k p records hp
    simpa [eachMatchingNodeFrom, includedRecordsFrom] using hp
  | cons n rest ih =>
    intro k p records hp
    have h1 := source_packed env t r header i node pos k n p records hp
    have h2 := ih (k + 1) _ _ h1
    simp only [eachMatchingNodeFrom]
    rw [includedRecordsFrom_cons, ← List.append_assoc]
    exact h2

theorem appendAvatar_inv (env : Env) (header : QByteArray) (i : Nat) (d0 : AvatarMixerClientData)
    (o : Node) (a : AvatarData) (p : Pass) (hp : PassInv header i d0 p) :
    PassInv header i d0 (appendAvatar env header.length i o a p) := by
  obtain ⟨⟨pay, hpay⟩, hdest, hbulk, hdata⟩ := hp
  simp only [appendAvatar]
  split_ifs with hfull
  · refine ⟨⟨toRfc4122 o.uuid ++ a.toByteArray, ?_⟩, ?_, ?_, hdata⟩
    · simp only [hpay, resize_header]
    · intro x hx
      rcases List.mem_append.mp hx with hx | hx
      · exact hdest x hx
      · rw [List.mem_singleton.mp hx]
    · intro x hx hty
      rcases List.mem_append.mp hx with hx | hx
      · exact hbulk x hx hty
      · rw [List.mem_singleton.mp hx]
        exact ⟨pay, hpay⟩
  · exact ⟨⟨pay ++ (toRfc4122 o.uuid ++ a.toByteArray), by simp only [hpay, List.append_assoc]⟩,
      hdest, hbulk, hdata⟩

theorem sendBillboard_inv (env : Env) (t : Tick) (header : QByteArray) (i j : Nat)
    (d0 : AvatarMixerClientData) (o : Node) (d : AvatarMixerClientData) (f : Bool) (p : Pass)
    (hp : PassInv header i d0 p) :
    PassInv header i d0 (sendBillboard env t i j o d f p) := by
  obtain ⟨hbuf, hdest, hbulk, hdata⟩ := hp
  unfold sendBillboard
  split_ifs
  · refine ⟨hbuf, ?_, ?_, hdata⟩
    · intro x hx
      rcases List.mem_append.mp hx with hx | hx
      · exact hdest x hx
      · rw [List.mem_singleton.mp hx]
    · intro x hx hty
      rcases List.mem_append.mp hx with hx | hx
      · exact hbulk x hx hty
      · rw [List.mem_singleton.mp hx] at hty
        simp at hty
  · exact ⟨hbuf, hdest, hbulk, hdata⟩

theorem sendIdentity_inv (env : Env) (t : Tick) (header : QByteArray) (i j : Nat)
    (d0 : AvatarMixerClientData) (o : Node) (d : AvatarMixerClientData) (f : Bool) (p : Pass)
    (hp : PassInv header i d0 p) :
    PassInv header i d0 (sendIdentity env t i j o d f p) := by
  obtain ⟨hbuf, hdest, hbulk, hdata⟩ := hp
  unfold sendIdentity
  split_ifs
  · refine ⟨hbuf, ?_, ?_, hdata⟩
    · intro x hx
      rcases List.mem_append.mp hx with hx | hx
      · exact hdest x hx
      · rw [List.mem_singleton.mp hx]
    · intro x hx hty
      rcases List.mem_append.mp hx with hx | hx
      · exact hbulk x hx hty
      · rw [List.mem_singleton.mp hx] at hty
        simp at hty
  · exact ⟨hbuf, hdest, hbulk, hdata⟩

theorem sourceAction_inv (env : Env) (t : Tick) (header : QByteArray) (i : Nat)
    (d0 : AvatarMixerClientData) (pos : Vec3) (j : Nat) (o : Node) (p : Pass)
    (hp : PassInv header i d0 p) :
    PassInv header i d0 (sourceAction env t header.length i pos j o p) := by
  unfold sourceAction
  split
  · exact hp
  · dsimp only
    split_ifs
    · exact hp
    · exact hp
    · apply sendIdentity_inv
      apply sendBillboard_inv
      obtain ⟨hbuf, hdest, hbulk, hdata⟩ := appendAvatar_inv env header i d0 o _ p hp
      refine ⟨hbuf, hdest, hbulk, ?_⟩
      simpa [checkAndSetHasReceivedFirstPackets] using hdata

theorem receiverPass_inv (env : Env) (t : Tick) (header rest : QByteArray) (nodes : List Node)
    (i : Nat) (node : Node) (d : AvatarMixerClientData) (m : Mixer)
    (hm : m.mixedAvatarByteArray = header ++ rest) :
    PassInv header i d (receiverPass env t header.length nodes i node d m) := by
  simp only [receiverPass, eachMatchingNode]
  refine eachMatchingNodeFrom_preserves (PassInv header i d) _ _ ?_ nodes 0 _ ?_
  · intro k n s hs
    exact sourceAction_inv env t header i d _ k n s hs
  · refine ⟨⟨[], ?_⟩, ?_, ?_, rfl⟩
    · simp only [hm, resize_header, List.append_nil]
    · intro x hx
      simp at hx
    · intro x hx
      simp at hx

/-- The bulk packets of a pass together with the final flush hold the records of the sources
that passed the filters, whole and in order. -/
theorem receiverPass_grouped (env : Env) (t : Tick) (header rest : QByteArray)
    (nodes : List Node) (i : Nat) (node : Node) (d : AvatarMixerClientData) (m : Mixer)
    (hm : m.mixedAvatarByteArray = header ++ rest) :
    Grouped header
      (bulkPacketsTo i (receiverPass env t header.length nodes i node d m).sent
        ++ [(receiverPass env t header.length nodes i node d m).mixer.mixedAvatarByteArray])
      (includedRecords env t m._performanceThrottlingRatio i node d.avatar.position nodes) := by
  have h := pass_packed env t m._performanceThrottlingRatio header i node d.avatar.position
    nodes 0
    { mixer :=
        { m with
          _sumListeners := m._sumListeners + 1
          mixedAvatarByteArray := resize m.mixedAvatarByteArray header.length }
      nodeData := d, sent := [] } []
    ⟨[], [], by simp [bulkPacketsTo], by simp only [hm, resize_header]; simp, rfl⟩
  obtain ⟨groups, current, hpk, hbuf, hrec⟩ := h
  refine ⟨groups ++ [current], ?_, ?_⟩
  · simp only [receiverPass, eachMatchingNode]
    rw [hpk, hbuf]
    simp
  · simp only [includedRecords]
    rw [List.nil_append] at hrec
    rw [← hrec]
    simp

/-! ## The passes of a tick -/

theorem set_of_getElem? {α : Type} (l : List α) (k : Nat) (a : α) (h : l[k]? = some a) :
    l.set k a = l := by
  induction l generalizing k with
  | nil => rfl
  | cons x xs ih =>
    cases k with
    | zero =>
      simp only [List.getElem?_cons_zero, Option.some.injEq] at h
      simp [h]
    | succ k =>
      simp only [List.getElem?_cons_succ] at h
      simp [ih k h]

theorem included_asSource (env : Env) (t : Tick) (r : ℚ) (i : Nat) (node : Node) (pos : Vec3)
    (j : Nat) (o : Node) :
    included env t r i node pos j (asSource o) = included env t r i node pos j o := by
  unfold included sourcePredicate asSource
  cases o.linkedData <;> simp

theorem avatarRecord_asSource (o : Node) : avatarRecord (asSource o) = avatarRecord o := by
  unfold avatarRecord asSource
  cases o.linkedData <;> simp

theorem includedRecordsFrom_asSource (env : Env) (t : Tick) (r : ℚ) (i : Nat) (node : Node)
    (pos : Vec3) (nodes : List Node) :
    ∀ k, includedRecordsFrom env t r i node pos k (nodes.map asSource)
      = includedRecordsFrom env t r i node pos k nodes := by
  induction nodes with
  | nil => intro k; rfl
  | cons n rest ih =>
    intro k
    rw [List.map_cons, includedRecordsFrom_cons, includedRecordsFrom_cons, ih (k + 1),
      included_asSource, avatarRecord_asSource]

theorem receiverPredicate_linkedData (node : Node) (h : receiverPredicate node = true) :
    ∃ d, node.linkedData = some d := by
  unfold receiverPredicate at h
  cases hd : node.linkedData with
  | none => simp [hd] at h
  | some d => exact ⟨d, rfl⟩

/-- One receiver of the tick: what its functor keeps and what it adds to the bulk packets
of node `i`. -/
theorem receiver_step (env : Env) (t : Tick) (header : QByteArray) (sources : List Node)
    (r : ℚ) (i k : Nat) (n : Node) (b : Broadcast) (hb : TickInv header sources r b)
    (hk : sources[k]? = some (asSource n)) :
    TickInv header sources r
        (if receiverPredicate n then receiverAction env t header.length k n b else b)
      ∧ (k ≠ i →
          bulkPacketsTo i
              (if receiverPredicate n then receiverAction env t header.length k n b else b).sent
            = bulkPacketsTo i b.sent)
      ∧ (k = i →
          ∃ packets, bulkPacketsTo i
              (if receiverPredicate n then receiverAction env t header.length k n b else b).sent
            = bulkPacketsTo i b.sent ++ packets
              ∧ Grouped header packets (receiverRecords env t r i n sources)) := by
  obtain ⟨⟨rest, hbuf⟩, hnodes, hr, hbulk⟩ := hb
  by_cases hpred : receiverPredicate n = true
  · obtain ⟨d, hd⟩ := receiverPredicate_linkedData n hpred
    rw [if_pos hpred]
    unfold receiverAction
    simp only [hd]
    by_cases hlock : t.nodeLocked k = true
    · rw [if_neg (by simp [hlock])]
      have hinv := receiverPass_inv env t header rest b.nodes k n d b.mixer hbuf
      have hframe := receiverPass_frame env t header.length b.nodes k n d b.mixer
      have hgrouped := receiverPass_grouped env t header rest b.nodes k n d b.mixer hbuf
      generalize receiverPass env t header.length b.nodes k n d b.mixer = p
        at hinv hframe hgrouped ⊢
      obtain ⟨hpbuf, hpdest, hpbulk, hpdata⟩ := hinv
      dsimp only
      refine ⟨⟨hpbuf, ?_, ?_, ?_⟩, ?_, ?_⟩
      · rw [List.map_set]
        have hsame : asSource { n with linkedData := some p.nodeData } = asSource n := by
          unfold asSource
          simp only [hd, Option.map_some']
          rw [hpdata]
        rw [hsame, hnodes]
        exact set_of_getElem? sources k _ hk
      · simp only [frame, Prod.mk.injEq] at hframe
        rw [hframe.2.1, hr]
      · intro x hx hty
        rcases List.mem_append.mp hx with hx | hx
        · rcases List.mem_append.mp hx with hx | hx
          · exact hbulk x hx hty
          · exact hpbulk x hx hty
        · rw [List.mem_singleton.mp hx]
          exact hpbuf
      · intro hki
        rw [bulkPacketsTo_append, bulkPacketsTo_append]
        have h1 : bulkPacketsTo i p.sent = [] := by
          simp only [bulkPacketsTo, List.map_eq_nil_iff, List.filter_eq_nil_iff]
          intro x hx
          simp [hpdest x hx, hki]
        rw [h1]
        simp [bulkPacketsTo, hki]
      · intro hki
        subst hki
        refine ⟨bulkPacketsTo k p.sent ++ [p.mixer.mixedAvatarByteArray], ?_, ?_⟩
        · rw [bulkPacketsTo_append, bulkPacketsTo_append, List.append_assoc]
          simp [bulkPacketsTo]
        · have hrec : receiverRecords env t r k n sources
              = includedRecords env t b.mixer._performanceThrottlingRatio k n
                  d.avatar.position b.nodes := by
            unfold receiverRecords
            simp only [hd, serviced, hpred, hlock, Bool.and_self, if_true]
            rw [hr]
            unfold includedRecords
            rw [← includedRecordsFrom_asSource env t r k n d.avatar.position b.nodes 0, hnodes]
          rw [hrec]
          exact hgrouped
    · rw [if_pos (by simpa using hlock)]
      refine ⟨⟨⟨rest, hbuf⟩, hnodes, hr, hbulk⟩, fun _ => rfl, ?_⟩
      intro hki
      subst hki
      refine ⟨[], by simp, [], rfl, ?_⟩
      unfold receiverRecords
      simp [hd, serviced, hlock]
  · rw [if_neg hpred]
    refine ⟨⟨⟨rest, hbuf⟩, hnodes, hr, hbulk⟩, fun _ => rfl, ?_⟩
    intro hki
    subst hki
    refine ⟨[], by simp, [], rfl, ?_⟩
    unfold receiverRecords
    cases hd : n.linkedData with
    | none => simp
    | some d => simp [serviced, hpred]

/-- The receivers of the tick from index `k` on: the bulk packets of node `i` grow by packets
that hold the records packed for it, when its turn comes, and by nothing otherwise. -/
theorem receivers_grouped (env : Env) (t : Tick) (header : QByteArray) (sources : List Node)
    (r : ℚ) (i : Nat) :
    ∀ (rest : List Node) (k : Nat) (b : Broadcast), TickInv header sources r b →
      (∀ j n, rest[j]? = some n → sources[k + j]? = some (asSource n)) →
      TickInv header sources r
          (eachMatchingNodeFrom (fun _ node => receiverPredicate node)
            (receiverAction env t header.length) k rest b)
        ∧ ∃ packets,
          bulkPacketsTo i
              (eachMatchingNodeFrom (fun _ node => receiverPredicate node)
                (receiverAction env t header.length) k rest b).sent
            = bulkPacketsTo i b.sent ++ packets
          ∧ Grouped header packets
              (if k ≤ i then
                match rest[i - k]? with
                | some n => receiverRecords env t r i n sources
                | none => []
              else []) := by
  intro rest
  induction rest with
  | nil =>
    intro k b hb _
    simp only [eachMatchingNodeFrom]
    refine ⟨hb, [], by simp, [], rfl, ?_⟩
    split_ifs <;> simp
  | cons n rest ih =>
    intro k b hb hsrc
    have hk : sources[k]? = some (asSource n) := by
      have := hsrc 0 n (by simp)
      simpa using this
    obtain ⟨hinv1, hne, heq⟩ := receiver_step env t header sources r i k n b hb hk
    have hsrc' : ∀ j m, rest[j]? = some m → sources[k + 1 + j]? = some (asSource m) := by
      intro j m hj
      have := hsrc (j + 1) m (by simpa using hj)
      rw [show k + 1 + j = k + (j + 1) by omega]
      exact this
    obtain ⟨hinv2, packets2, hpk2, hgr2⟩ := ih (k + 1) _ hinv1 hsrc'
    simp only [eachMatchingNodeFrom]
    refine ⟨hinv2, ?_⟩
    rcases Nat.lt_trichotomy k i with hlt | heqk | hgt
    · refine ⟨packets2, ?_, ?_⟩
      · rw [hpk2, hne (Nat.ne_of_lt hlt)]
      · rw [if_pos (by omega : k + 1 ≤ i)] at hgr2
        rw [if_pos (by omega : k ≤ i)]
        have : i - k = (i - (k + 1)) + 1 := by omega
        rw [this, List.getElem?_cons_succ]
        exact hgr2
    · obtain ⟨packets1, hpk1, hgr1⟩ := heq heqk
      rw [if_neg (by omega : ¬ k + 1 ≤ i)] at hgr2
      obtain ⟨groups2, hmap2, hflat2⟩ := hgr2
      have hnil : groups2.flatten = [] := hflat2
      obtain ⟨groups1, hmap1, hflat1⟩ := hgr1
      refine ⟨packets1 ++ packets2, ?_, groups1 ++ groups2, ?_, ?_⟩
      · rw [hpk2, hpk1, List.append_assoc]
      · rw [hmap1, hmap2, List.map_append]
      · rw [if_pos (by omega : k ≤ i)]
        have : i - k = 0 := by omega
        rw [this, List.getElem?_cons_zero, List.flatten_append, hnil, List.append_nil]
        exact hflat1
    · refine ⟨packets2, ?_, ?_⟩
      · rw [hpk2, hne (by omega)]
      · rw [if_neg (by omega : ¬ k + 1 ≤ i)] at hgr2
        rw [if_neg (by omega : ¬ k ≤ i)]
        exact hgr2

theorem populatePacketHeader_eq (env : Env) (packet : QByteArray) (type : PacketType) :
    (populatePacketHeader env packet type).2 = (env.byteArrayWithPopulatedHeader type).length
      ∧ ∃ rest, (populatePacketHeader env packet type).1
          = env.byteArrayWithPopulatedHeader type ++ rest :=
  ⟨rfl, ⟨_, rfl⟩⟩

/-- The tick as a whole: the invariant at its end, and the bulk packets of each node. -/
theorem broadcastAvatarData_grouped (env : Env) (t : Tick) (m : Mixer) (nodes : List Node)
    (i : Nat) :
    TickInv (env.byteArrayWithPopulatedHeader .PacketTypeBulkAvatarData) (nodes.map asSource)
        (broadcastAvatarData env t m nodes).mixer._performanceThrottlingRatio
        (broadcastAvatarData env t m nodes)
      ∧ Grouped (env.byteArrayWithPopulatedHeader .PacketTypeBulkAvatarData)
          (bulkPacketsTo i (broadcastAvatarData env t m nodes).sent)
          (match nodes[i]? with
            | some n =>
              receiverRecords env t
                (broadcastAvatarData env t m nodes).mixer._performanceThrottlingRatio i n nodes
            | none => []) := by
  rw [(broadcastAvatarData_throttle env t m nodes).2]
  have hstart : TickInv (env.byteArrayWithPopulatedHeader .PacketTypeBulkAvatarData)
      (nodes.map asSource)
      (throttle (idleTime t m) m._trailingSleepRatio
        m._performanceThrottlingRatio)._performanceThrottlingRatio
      { mixer :=
          { m with
            _numStatFrames := m._numStatFrames + 1
            _trailingSleepRatio := (throttle (idleTime t m) m._trailingSleepRatio
              m._performanceThrottlingRatio)._trailingSleepRatio
            _performanceThrottlingRatio := (throttle (idleTime t m) m._trailingSleepRatio
              m._performanceThrottlingRatio)._performanceThrottlingRatio
            mixedAvatarByteArray :=
              (populatePacketHeader env m.mixedAvatarByteArray .PacketTypeBulkAvatarData).1 }
        nodes := nodes, sent := [] } := by
    refine ⟨⟨_, rfl⟩, rfl, rfl, ?_⟩
    intro x hx
    simp at hx
  have hsrc : ∀ j n, nodes[j]? = some n → (nodes.map asSource)[0 + j]? = some (asSource n) := by
    intro j n hj
    simp [hj]
  obtain ⟨hinv, packets, hpk, hgr⟩ := receivers_grouped env t
    (env.byteArrayWithPopulatedHeader .PacketTypeBulkAvatarData) (nodes.map asSource) _ i
    nodes 0 _ hstart hsrc
  obtain ⟨hbuf, hnodes, hr, hbulk⟩ := hinv
  refine ⟨⟨hbuf, hnodes, hr, hbulk⟩, ?_⟩
  simp only [broadcastAvatarData, eachMatchingNode, populatePacketHeader] at hpk ⊢
  rw [hpk]
  simp only [bulkPacketsTo, List.filter_nil, List.map_nil, List.nil_append]
  simp only [Nat.zero_le, if_true, Nat.sub_zero] at hgr
  cases hn : nodes[i]? with
  | none =>
    rw [hn] at hgr
    exact hgr
  | some n =>
    rw [hn] at hgr
    simp only [receiverRecords] at hgr ⊢
    cases hd : n.linkedData with
    | none =>
      rw [hd] at hgr
      exact hgr
    | some d =>
      rw [hd] at hgr
      simp only [includedRecords] at hgr ⊢
      rw [includedRecordsFrom_asSource] at hgr
      exact hgr

/-! ## The size of the bulk packets -/

/-- A property that every step of an enumeration keeps holds at its end; the step at a node
may use the index of the node in the list. -/
theorem eachMatchingNodeFrom_preserves_at {σ : Type} (P : σ → Prop)
    (predicate : Nat → Node → Bool) (functor : Nat → Node → σ → σ) :
    ∀ (nodes : List Node) (k : Nat),
      (∀ j n s, nodes[j]? = some n → P s →
        P (if predicate (k + j) n then functor (k + j) n s else s)) →
      ∀ s, P s → P (eachMatchingNodeFrom predicate functor k nodes s) := by
  intro nodes
  induction nodes with
  | nil => intro k _ s hs; simpa [eachMatchingNodeFrom] using hs
  | cons n rest ih =>
    intro k hf s hs
    simp only [eachMatchingNodeFrom]
    apply ih (k + 1)
    · intro j m s' hj hs'
      have := hf (j + 1) m s' (by simpa using hj) hs'
      rw [show k + (j + 1) = k + 1 + j by omega] at this
      exact this
    · have := hf 0 n s (by simp) hs
      simpa using this

/-- C3, evaluated on the code: from construction, with every tick starting in the
millisecond the previous one ended in (idle time 0), the trailing sleep ratio is at most
0.10 from tick 230 on, and the throttling ratio is increased by ticks 230, 231 and 232, three
ticks in a row: 0, then 1/2, 3/4 and 7/8. -/
theorem ratio_changes_on_consecutive_ticks :
    (mixerAfter exampleEnv (AvatarMixer 0) busyRun 229)._performanceThrottlingRatio = 0
    ∧ (mixerAfter exampleEnv (AvatarMixer 0) busyRun 230)._performanceThrottlingRatio = 1 / 2
    ∧ (mixerAfter exampleEnv (AvatarMixer 0) busyRun 231)._performanceThrottlingRatio = 3 / 4
    ∧ (mixerAfter exampleEnv (AvatarMixer 0) busyRun 232)._performanceThrottlingRatio = 7 / 8
    ∧ (mixerAfter exampleEnv (AvatarMixer 0) busyRun 230)._trailingSleepRatio ≤ 10 / 100 := by
  decide!

/-- The run of busy ticks measures an idle time of 0 at every tick. -/
theorem busyRun_idleTime (k : Nat) : idleTimeAt exampleEnv (AvatarMixer 0) busyRun k = 0 := by
  have hlast : ∀ n, (mixerAfter exampleEnv (AvatarMixer 0) busyRun n)._lastFrameTimestamp = 0 := by
    intro n
    cases n with
    | zero => rfl
    | succ n => rfl
  simp only [idleTimeAt, idleTime, hlast k, busyRun, busyTick]
  decide

/-- The statement of C9 for a constant sample at a concrete run: busy ticks, whose sample is
0 at every tick. -/
theorem trailingSleepRatio_closed_form_example :
    (∀ k, (idleTimeAt exampleEnv (AvatarMixer 0) busyRun k : ℚ)
        / AVATAR_DATA_SEND_INTERVAL_MSECS = 0)
    ∧ ∀ n, (mixerAfter exampleEnv (AvatarMixer 0) busyRun n)._trailingSleepRatio - 0
        = (99 / 100) ^ n * (1 - 0) :=
  have h : ∀ k, (idleTimeAt exampleEnv (AvatarMixer 0) busyRun k : ℚ)
      / AVATAR_DATA_SEND_INTERVAL_MSECS = 0 := by
    intro k
    rw [busyRun_idleTime]
    simp
  ⟨h, ((trailingSleepRatio_closed_form exampleEnv 0 busyRun).2 0 h).1⟩

/-! ## The claims about billboard and identity packets -/

/-- C5, evaluated on the code: throttling ratio 0, every lock free, and a source 10 units
from the receiver whose identity changed at time 15, after the previous tick ended at time
10; the distance draw is 1/2, not below 2/10: the only datagram of the tick for the receiver
is a bulk packet of the header alone, and no identity packet of the source. -/
theorem changed_identity_not_sent_when_distance_filtered :
    startedMixer._performanceThrottlingRatio = 0
    ∧ (broadcastAvatarData exampleEnv calmTick startedMixer
        farPeers).mixer._performanceThrottlingRatio = 0
    ∧ serviced calmTick 0 (examplePeer 7 0 [70] true 0) = true
    ∧ farPeers[1]? = some (examplePeer 8 10 [80] true 15)
    ∧ 0 < (exampleData 10 [80] true 15).identityChangeTimestamp
    ∧ startedMixer._lastFrameTimestamp < (exampleData 10 [80] true 15).identityChangeTimestamp
    ∧ (broadcastAvatarData exampleEnv calmTick startedMixer farPeers).sent.filter
        (fun x => x.destination = 0)
      = [⟨.PacketTypeBulkAvatarData, [1], 0⟩] := by
  decide!

/-- C6, evaluated on the code: a receiver that has not received its first packets, and two
sources at its position whose billboard and identity changed at time 5, before the previous
tick ended (time 10); the keep-alive draws are 1/2. Both sources pass the filters and both
records are in the bulk packet, and the billboard and the identity packet of the first
source only are sent. -/
theorem first_contact_forces_first_source_only :
    serviced calmTick 0 (examplePeer 7 0 [70] false 5) = true
    ∧ (exampleData 0 [70] false 5).hasReceivedFirstPackets = false
    ∧ threePeers[2]? = some (examplePeer 9 0 [90] true 5)
    ∧ included exampleEnv calmTick 0 0 (examplePeer 7 0 [70] false 5) ⟨0, 0, 0⟩ 2
        (examplePeer 9 0 [90] true 5) = true
    ∧ 0 < (exampleData 0 [90] true 5).identityChangeTimestamp
    ∧ 0 < (exampleData 0 [90] true 5).billboardChangeTimestamp
    ∧ (broadcastAvatarData exampleEnv calmTick startedMixer threePeers).sent.filter
        (fun x => x.destination = 0)
      = [⟨.PacketTypeAvatarBillboard, [3] ++ toRfc4122 (uuidOf 8) ++ [9], 0⟩,
         ⟨.PacketTypeAvatarIdentity, [2] ++ toRfc4122 (uuidOf 8) ++ [5], 0⟩,
         ⟨.PacketTypeBulkAvatarData,
          [1] ++ (toRfc4122 (uuidOf 8) ++ [80]) ++ (toRfc4122 (uuidOf 9) ++ [90]), 0⟩] := by
  decide!

/-! ## The claims about eligibility and removal -/

/-- C7, refuted as stated: a source that is no `Agent` and has no active socket, but has
linked data: its record is in the bulk packet of the receiver. -/
theorem source_need_not_be_agent_or_reachable :
    bulkPacketsTo 0
        (broadcastAvatarData exampleEnv calmTick startedMixer
          [examplePeer 7 0 [70] true 0, silentPeer]).sent
      = [[1] ++ (toRfc4122 silentPeer.uuid ++ [80])]
    ∧ silentPeer.type ≠ NodeType.Agent
    ∧ silentPeer.activeSocket = none := by
  decide!

/-- C7, as amended: whenever the pass for a receiver does anything for a source (appends its
record, sends its billboard or identity, or touches a counter or the flag), the source
passed the filters, has linked data and has another id than the receiver; its category and
its socket are not looked at. And whenever the tick does anything for a receiver, the
receiver has linked data, is an `Agent` and has an active socket. -/
theorem source_has_linked_data_and_is_not_receiver :
    (∀ (env : Env) (t : Tick) (r : ℚ) (h i : Nat) (node : Node) (pos : Vec3) (j : Nat)
        (o : Node) (p : Pass),
        (if sourcePredicate t r i node j o then sourceAction env t h i pos j o p else p) ≠ p →
        included env t r i node pos j o = true
          ∧ (∃ d, o.linkedData = some d) ∧ o.uuid ≠ node.uuid)
    ∧ (∀ (env : Env) (t : Tick) (h k : Nat) (n : Node) (b : Broadcast),
        (if receiverPredicate n then receiverAction env t h k n b else b) ≠ b →
        (∃ d, n.linkedData = some d) ∧ n.type = NodeType.Agent
          ∧ ∃ a, n.activeSocket = some a) := by
  refine ⟨?_, ?_⟩
  · intro env t r h i node pos j o p hstep
    have hinc : included env t r i node pos j o = true := by
      by_contra hno
      exact hstep (source_not_included env t r h i node pos j o p (by simpa using hno))
    refine ⟨hinc, ?_, ?_⟩
    · obtain ⟨d, hd, _⟩ := source_included env t r h i node pos j o p hinc
      exact ⟨d, hd⟩
    · unfold included at hinc
      rw [Bool.and_eq_true] at hinc
      have hpred := hinc.1
      unfold sourcePredicate at hpred
      intro heq
      simp [heq] at hpred
  · intro env t h k n b hstep
    have hpred : receiverPredicate n = true := by
      by_contra hno
      exact hstep (if_neg hno)
    refine ⟨receiverPredicate_linkedData n hpred, ?_, ?_⟩
    · unfold receiverPredicate at hpred
      by_contra htype
      simp [htype] at hpred
    · unfold receiverPredicate at hpred
      cases ha : n.activeSocket with
      | none => simp [ha] at hpred
      | some a => exact ⟨a, rfl⟩

/-- The amended C7 at a concrete step: a source that is no `Agent` and has no socket, in the
pass of a receiver at the same place. -/
theorem source_has_linked_data_example :
    included exampleEnv calmTick 0 0 (examplePeer 7 0 [70] true 0) ⟨0, 0, 0⟩ 1 silentPeer
        = true
      ∧ (∃ d, silentPeer.linkedData = some d)
      ∧ silentPeer.uuid ≠ (examplePeer 7 0 [70] true 0).uuid :=
  source_has_linked_data_and_is_not_receiver.1 exampleEnv calmTick 0 1 0
    (examplePeer 7 0 [70] true 0) ⟨0, 0, 0⟩ 1 silentPeer
    { mixer := startedMixer, nodeData := exampleData 0 [70] true 0, sent := [] }
    (by decide!)

/-- C8, refuted as stated: a removed peer with linked data that is no `Agent`: nothing is
broadcast. -/
theorem nodeKilled_silent_for_other_category :
    silentPeer.linkedData.isSome = true ∧ nodeKilled exampleEnv silentPeer = none := by
  decide!

/-- C8, as amended: when the removed peer is an `Agent` with linked data, the KillAvatar
header followed by its 16-byte id is broadcast to the `Agent` category; when it has no
linked data, or is of another category, nothing is broadcast. -/
theorem nodeKilled_broadcasts_for_agent_with_linked_data (env : Env) (killedNode : Node) :
    (killedNode.type = NodeType.Agent → (∃ d, killedNode.linkedData = some d) →
        nodeKilled env killedNode
            = some (env.byteArrayWithPopulatedHeader .PacketTypeKillAvatar
                ++ toRfc4122 killedNode.uuid, [NodeType.Agent])
          ∧ (toRfc4122 killedNode.uuid).length = 16)
      ∧ (killedNode.linkedData = none → nodeKilled env killedNode = none)
      ∧ (killedNode.type ≠ NodeType.Agent → nodeKilled env killedNode = none) := by
  refine ⟨?_, ?_, ?_⟩
  · rintro htype ⟨d, hd⟩
    refine ⟨?_, killedNode.uuid.property⟩
    simp [nodeKilled, htype, hd]
  · intro hd
    simp [nodeKilled, hd]
  · intro htype
    simp [nodeKilled, htype]

/-! ## The datagrams of one receiver -/

theorem datagramsTo_append (i : Nat) (a b : List Datagram) :
    datagramsTo i (a ++ b) = datagramsTo i a ++ datagramsTo i b := by
  simp [datagramsTo]

theorem datagramsTo_of_destination (i : Nat) (a : List Datagram)
    (h : ∀ x ∈ a, x.destination = i) : datagramsTo i a = a := by
  simp only [datagramsTo, List.filter_eq_self]
  intro x hx
  simp [h x hx]

theorem datagramsTo_of_other (i k : Nat) (a : List Datagram)
    (h : ∀ x ∈ a, x.destination = k) (hki : k ≠ i) : datagramsTo i a = [] := by
  simp only [datagramsTo, List.filter_eq_nil_iff]
  intro x hx
  simp [h x hx, hki]

/-- One receiver of the tick: what its functor adds to the datagrams of node `i`. -/
theorem receiver_step_datagrams (env : Env) (t : Tick) (header : QByteArray)
    (sources : List Node) (r : ℚ) (last : Nat) (i k : Nat) (n : Node) (b : Broadcast)
    (hb : TickInv header sources r b) (hlast : b.mixer._lastFrameTimestamp = last) :
    (if receiverPredicate n then receiverAction env t header.length k n b
        else b).mixer._lastFrameTimestamp = last
      ∧ (k ≠ i →
          datagramsTo i
              (if receiverPredicate n then receiverAction env t header.length k n b else b).sent
            = datagramsTo i b.sent)
      ∧ (k = i →
          ∃ extra, datagramsTo i
              (if receiverPredicate n then receiverAction env t header.length k n b else b).sent
            = datagramsTo i b.sent ++ extra
              ∧ ReceiverDatagrams env t header sources r last i (some n) extra) := by
  obtain ⟨⟨rest, hbuf⟩, hnodes, hr, _⟩ := hb
  have hframe : (if receiverPredicate n then receiverAction env t header.length k n b
      else b).mixer._lastFrameTimestamp = last := by
    split_ifs
    · have := receiverAction_frame env t header.length k n b
      simp only [frame, Prod.mk.injEq] at this
      rw [this.2.2, hlast]
    · exact hlast
  refine ⟨hframe, ?_, ?_⟩
  · intro hki
    by_cases hpred : receiverPredicate n = true
    · rw [if_pos hpred]
      unfold receiverAction
      split
      · rfl
      · rename_i d hd
        dsimp only
        split_ifs
        · rfl
        · have hinv := receiverPass_inv env t header rest b.nodes k n d b.mixer hbuf
          generalize receiverPass env t header.length b.nodes k n d b.mixer = p at hinv ⊢
          rw [datagramsTo_append, datagramsTo_append,
            datagramsTo_of_other i k p.sent hinv.2.1 hki]
          simp [datagramsTo, hki]
    · rw [if_neg hpred]
  · intro hki
    subst hki
    by_cases hpred : receiverPredicate n = true
    · obtain ⟨d, hd⟩ := receiverPredicate_linkedData n hpred
      rw [if_pos hpred]
      unfold receiverAction
      simp only [hd]
      by_cases hlock : t.nodeLocked k = true
      · rw [if_neg (by simp [hlock])]
        have hinv := receiverPass_inv env t header rest b.nodes k n d b.mixer hbuf
        refine ⟨(receiverPass env t header.length b.nodes k n d b.mixer).sent
          ++ [⟨.PacketTypeBulkAvatarData,
              (receiverPass env t header.length b.nodes k n d
                b.mixer).mixer.mixedAvatarByteArray, k⟩], ?_, ?_⟩
        · dsimp only
          rw [datagramsTo_append, datagramsTo_append, List.append_assoc,
            datagramsTo_of_destination k _ hinv.2.1]
          simp [datagramsTo]
        · simp only [ReceiverDatagrams, hd, serviced, hpred, hlock, Bool.and_self, if_true]
          exact ⟨b.nodes, b.mixer, hnodes, hr, hlast, ⟨rest, hbuf⟩, rfl⟩
      · rw [if_pos (by simpa using hlock)]
        refine ⟨[], by simp, ?_⟩
        simp [ReceiverDatagrams, hd, serviced, hlock]
    · rw [if_neg hpred]
      refine ⟨[], by simp, ?_⟩
      simp only [ReceiverDatagrams]
      cases hd : n.linkedData with
      | none => trivial
      | some d => simp [serviced, hpred]

/-- The receivers of the tick from index `k` on: the datagrams of node `i` grow by those of
its pass and final flush when its turn comes and it is serviced, and by nothing otherwise. -/
theorem receivers_datagrams (env : Env) (t : Tick) (header : QByteArray) (sources : List Node)
    (r : ℚ) (last : Nat) (i : Nat) :
    ∀ (rest : List Node) (k : Nat) (b : Broadcast), TickInv header sources r b →
      b.mixer._lastFrameTimestamp = last →
      (∀ j n, rest[j]? = some n → sources[k + j]? = some (asSource n)) →
      ∃ extra,
        datagramsTo i
            (eachMatchingNodeFrom (fun _ node => receiverPredicate node)
              (receiverAction env t header.length) k rest b).sent
          = datagramsTo i b.sent ++ extra
        ∧ ReceiverDatagrams env t header sources r last i
            (if k ≤ i then rest[i - k]? else none) extra := by
  intro rest
  induction rest with
  | nil =>
    intro k b _ _ _
    simp only [eachMatchingNodeFrom]
    refine ⟨[], by simp, ?_⟩
    split_ifs <;> simp [ReceiverDatagrams]
  | cons n rest ih =>
    intro k b hb hlast hsrc
    have hk : sources[k]? = some (asSource n) := by
      have := hsrc 0 n (by simp)
      simpa using this
    have hinv1 := (receiver_step env t header sources r i k n b hb hk).1
    obtain ⟨hlast1, hne, heq⟩ := receiver_step_datagrams env t header sources r last i k n b
      hb hlast
    have hsrc' : ∀ j m, rest[j]? = some m → sources[k + 1 + j]? = some (asSource m) := by
      intro j m hj
      have := hsrc (j + 1) m (by simpa using hj)
      rw [show k + 1 + j = k + (j + 1) by omega]
      exact this
    obtain ⟨extra2, hsent2, hdesc2⟩ := ih (k + 1) _ hinv1 hlast1 hsrc'
    simp only [eachMatchingNodeFrom]
    rcases Nat.lt_trichotomy k i with hlt | heqk | hgt
    · refine ⟨extra2, ?_, ?_⟩
      · rw [hsent2, hne (Nat.ne_of_lt hlt)]
      · rw [if_pos (by omega : k + 1 ≤ i)] at hdesc2
        rw [if_pos (by omega : k ≤ i)]
        have : i - k = (i - (k + 1)) + 1 := by omega
        rw [this, List.getElem?_cons_succ]
        exact hdesc2
    · obtain ⟨extra1, hsent1, hdesc1⟩ := heq heqk
      rw [if_neg (by omega : ¬ k + 1 ≤ i)] at hdesc2
      have hnil : extra2 = [] := hdesc2
      refine ⟨extra1, ?_, ?_⟩
      · rw [hsent2, hsent1, hnil, List.append_nil]
      · rw [if_pos (by omega : k ≤ i)]
        have : i - k = 0 := by omega
        rw [this, List.getElem?_cons_zero]
        exact hdesc1
    · refine ⟨extra2, ?_, ?_⟩
      · rw [hsent2, hne (by omega)]
      · rw [if_neg (by omega : ¬ k + 1 ≤ i)] at hdesc2
        rw [if_neg (by omega : ¬ k ≤ i)]
        exact hdesc2

/-- The tick as a whole: the datagrams it writes to each node. -/
theorem broadcastAvatarData_datagrams (env : Env) (t : Tick) (m : Mixer) (nodes : List Node)
    (i : Nat) :
    ReceiverDatagrams env t (env.byteArrayWithPopulatedHeader .PacketTypeBulkAvatarData)
      (nodes.map asSource)
      (broadcastAvatarData env t m nodes).mixer._performanceThrottlingRatio
      m._lastFrameTimestamp i nodes[i]?
      (datagramsTo i (broadcastAvatarData env t m nodes).sent) := by
  rw [(broadcastAvatarData_throttle env t m nodes).2]
  have hstart : TickInv (env.byteArrayWithPopulatedHeader .PacketTypeBulkAvatarData)
      (nodes.map asSource)
      (throttle (idleTime t m) m._trailingSleepRatio
        m._performanceThrottlingRatio)._performanceThrottlingRatio
      { mixer :=
          { m with
            _numStatFrames := m._numStatFrames + 1
            _trailingSleepRatio := (throttle (idleTime t m) m._trailingSleepRatio
              m._performanceThrottlingRatio)._trailingSleepRatio
            _performanceThrottlingRatio := (throttle (idleTime t m) m._trailingSleepRatio
              m._performanceThrottlingRatio)._performanceThrottlingRatio
            mixedAvatarByteArray :=
              (populatePacketHeader env m.mixedAvatarByteArray .PacketTypeBulkAvatarData).1 }
        nodes := nodes, sent := [] } := by
    refine ⟨⟨_, rfl⟩, rfl, rfl, ?_⟩
    intro x hx
    simp at hx
  have hsrc : ∀ j n, nodes[j]? = some n → (nodes.map asSource)[0 + j]? = some (asSource n) := by
    intro j n hj
    simp [hj]
  obtain ⟨extra, hsent, hdesc⟩ := receivers_datagrams env t
    (env.byteArrayWithPopulatedHeader .PacketTypeBulkAvatarData) (nodes.map asSource) _
    m._lastFrameTimestamp i nodes 0 _ hstart rfl hsrc
  simp only [Nat.zero_le, if_true, Nat.sub_zero] at hdesc
  simp only [broadcastAvatarData, eachMatchingNode, populatePacketHeader] at hsent ⊢
  rw [hsent]
  simpa [datagramsTo] using hdesc

/-! ## The final flush -/

theorem appendAvatar_sent (env : Env) (h i : Nat) (o : Node) (a : AvatarData) (p : Pass) :
    (appendAvatar env h i o a p).sent
      = p.sent
        ++ (if (toRfc4122 o.uuid ++ a.toByteArray).length + p.mixer.mixedAvatarByteArray.length
              > env.MAX_PACKET_SIZE then
            [⟨.PacketTypeBulkAvatarData, p.mixer.mixedAvatarByteArray, i⟩]
          else []) := by
  simp only [appendAvatar]
  split_ifs <;> simp

theorem toRfc4122_ne (a b : QUuid) (h : a ≠ b) : toRfc4122 a ≠ toRfc4122 b := by
  intro heq
  exact h (Subtype.ext heq)

theorem take_id_append (u : QUuid) (rest : QByteArray) :
    (toRfc4122 u ++ rest).take NUM_BYTES_RFC4122_UUID = toRfc4122 u := by
  have hlen : (toRfc4122 u).length = NUM_BYTES_RFC4122_UUID := u.property
  rw [← hlen, List.take_left]

theorem sourcePredicate_other (t : Tick) (r : ℚ) (i : Nat) (node : Node) (j : Nat) (o : Node)
    (h : sourcePredicate t r i node j o = true) : o.uuid ≠ node.uuid := by
  unfold sourcePredicate at h
  intro heq
  simp [heq] at h

theorem notOwn_append (env : Env) (node : Node) (a b : List Datagram)
    (ha : NotOwn env node a) (hb : NotOwn env node b) : NotOwn env node (a ++ b) := by
  intro x hx
  rcases List.mem_append.mp hx with hx | hx
  · exact ha x hx
  · exact hb x hx

theorem sourceAction_notOwn (env : Env) (t : Tick) (h i : Nat) (node : Node) (pos : Vec3)
    (j : Nat) (o : Node) (p : Pass) (hother : o.uuid ≠ node.uuid)
    (hp : NotOwn env node p.sent) :
    NotOwn env node (sourceAction env t h i pos j o p).sent := by
  unfold sourceAction
  split
  · exact hp
  · rename_i d hd
    dsimp only
    split_ifs
    · exact hp
    · exact hp
    · have hpacked : NotOwn env node (appendAvatar env h i o d.avatar p).sent := by
        rw [appendAvatar_sent]
        apply notOwn_append env node _ _ hp
        intro x hx
        split_ifs at hx
        · rw [List.mem_singleton.mp hx]
          simp
        · simp at hx
      generalize appendAvatar env h i o d.avatar p = packed at hpacked ⊢
      have hbill : NotOwn env node
          (sendBillboard env t i j o d
            (!(checkAndSetHasReceivedFirstPackets packed.nodeData).1)
            { packed with
              nodeData := (checkAndSetHasReceivedFirstPackets packed.nodeData).2 }).sent := by
        unfold sendBillboard
        split_ifs
        · apply notOwn_append env node _ _ hpacked
          intro x hx
          rw [List.mem_singleton.mp hx]
          refine ⟨Or.inr (Or.inl rfl), ?_, ?_⟩
          · intro _
            simp only [packetId, List.append_assoc, List.drop_left, take_id_append]
            exact toRfc4122_ne _ _ hother
          · intro hty
            simp at hty
        · exact hpacked
      generalize sendBillboard env t i j o d
        (!(checkAndSetHasReceivedFirstPackets packed.nodeData).1)
        { packed with
          nodeData := (checkAndSetHasReceivedFirstPackets packed.nodeData).2 } = billed
        at hbill ⊢
      unfold sendIdentity
      split_ifs
      · apply notOwn_append env node _ _ hbill
        intro x hx
        rw [List.mem_singleton.mp hx]
        refine ⟨Or.inr (Or.inr rfl), ?_, ?_⟩
        · intro hty
          simp at hty
        · intro _
          simp only [packetId, replace, List.take_zero, List.nil_append, List.append_assoc,
            List.drop_left, take_id_append]
          exact toRfc4122_ne _ _ hother
      · exact hbill

theorem receiverPass_notOwn (env : Env) (t : Tick) (h : Nat) (nodes : List Node) (i : Nat)
    (node : Node) (d : AvatarMixerClientData) (m : Mixer) :
    NotOwn env node (receiverPass env t h nodes i node d m).sent := by
  simp only [receiverPass, eachMatchingNode]
  refine eachMatchingNodeFrom_preserves_at (fun p : Pass => NotOwn env node p.sent) _ _ nodes 0
    ?_ _ ?_
  · intro j n s _ hs
    split_ifs with hpred
    · exact sourceAction_notOwn env t h i node _ _ n s
        (sourcePredicate_other t _ i node _ n hpred) hs
    · exact hs
  · intro x hx
    simp at hx

theorem includedRecordsFrom_recordId (env : Env) (t : Tick) (r : ℚ) (i : Nat) (node : Node)
    (pos : Vec3) :
    ∀ (nodes : List Node) (k : Nat), ∀ record ∈ includedRecordsFrom env t r i node pos k nodes,
      recordId record ≠ toRfc4122 node.uuid := by
  intro nodes
  induction nodes with
  | nil =>
    intro k record hrec
    simp [includedRecordsFrom] at hrec
  | cons n rest ih =>
    intro k record hrec
    rw [includedRecordsFrom_cons] at hrec
    rcases List.mem_append.mp hrec with hrec | hrec
    · split_ifs at hrec with hinc
      · rw [List.mem_singleton.mp hrec]
        obtain ⟨d, hd, _⟩ := source_included env t r 0 i node pos k n
          { mixer := AvatarMixer 0, nodeData := ⟨⟨pos, [], [], []⟩, false, 0, 0⟩, sent := [] } hinc
        have hpred : sourcePredicate t r i node k n = true := by
          unfold included at hinc
          rw [Bool.and_eq_true] at hinc
          exact hinc.1
        simp only [avatarRecord, hd, recordId, take_id_append]
        exact toRfc4122_ne _ _ (sourcePredicate_other t r i node k n hpred)
      · simp at hrec
    · exact ih (k + 1) record hrec

/-! ## The receive path -/

theorem getElem?_set_node (nodes : List Node) (k : Nat) (node new : Node)
    (hk : nodes[k]? = some node) (j : Nat) :
    (nodes.set k new)[j]? = if k = j then some new else nodes[j]? := by
  have hlt : k < nodes.length := by
    by_contra hge
    rw [List.getElem?_eq_none (by omega)] at hk
    simp at hk
  rw [List.getElem?_set, if_pos hlt]

theorem identityChangeTimestampAt_set (nodes : List Node) (k : Nat) (node : Node)
    (nd nd' : AvatarMixerClientData) (hk : nodes[k]? = some node)
    (hd : node.linkedData = some nd) (j : Nat) :
    identityChangeTimestampAt (nodes.set k { node with linkedData := some nd' }) j
      = if k = j ∧ nd'.identityChangeTimestamp ≠ nd.identityChangeTimestamp then
          some nd'.identityChangeTimestamp
        else identityChangeTimestampAt nodes j := by
  unfold identityChangeTimestampAt
  rw [getElem?_set_node nodes k node _ hk j]
  by_cases hkj : k = j
  · subst hkj
    by_cases hsame : nd'.identityChangeTimestamp = nd.identityChangeTimestamp
    · simp [hk, hd, hsame]
    · simp [hsame]
  · simp [hkj]

theorem billboardChangeTimestampAt_set (nodes : List Node) (k : Nat) (node : Node)
    (nd nd' : AvatarMixerClientData) (hk : nodes[k]? = some node)
    (hd : node.linkedData = some nd) (j : Nat) :
    billboardChangeTimestampAt (nodes.set k { node with linkedData := some nd' }) j
      = if k = j ∧ nd'.billboardChangeTimestamp ≠ nd.billboardChangeTimestamp then
          some nd'.billboardChangeTimestamp
        else billboardChangeTimestampAt nodes j := by
  unfold billboardChangeTimestampAt
  rw [getElem?_set_node nodes k node _ hk j]
  by_cases hkj : k = j
  · subst hkj
    by_cases hsame : nd'.billboardChangeTimestamp = nd.billboardChangeTimestamp
    · simp [hk, hd, hsame]
    · simp [hsame]
  · simp [hkj]

theorem readIdentity_timestamps (net : Network) (d : Inbound) (nodes : List Node) (j : Nat) :
    identityChangeTimestampAt (readIdentity net d nodes).1 j
        = (if senderChanged net net.hasIdentityChangedAfterParsing d nodes j then some d.now
          else identityChangeTimestampAt nodes j)
      ∧ billboardChangeTimestampAt (readIdentity net d nodes).1 j
        = billboardChangeTimestampAt nodes j := by
  unfold readIdentity senderChanged
  cases hs : net.sendingNodeForPacket nodes d.receivedPacket with
  | none => simp
  | some k =>
    cases hk : nodes[k]? with
    | none => simp [hk]
    | some node =>
      cases hd : node.linkedData with
      | none => simp [hk, hd]
      | some nd =>
        simp only [hk, hd]
        cases hc : (net.hasIdentityChangedAfterParsing nd.avatar d.receivedPacket).1 with
        | false =>
          simp only [Bool.false_eq_true, if_false, Bool.and_false]
          rw [identityChangeTimestampAt_set nodes k node nd _ hk hd,
            billboardChangeTimestampAt_set nodes k node nd _ hk hd]
          simp
        | true =>
          simp only [if_true, Bool.and_true, decide_eq_true_eq]
          rw [identityChangeTimestampAt_set nodes k node nd _ hk hd,
            billboardChangeTimestampAt_set nodes k node nd _ hk hd]
          refine ⟨?_, by simp⟩
          by_cases hkj : k = j
          · subst hkj
            by_cases hsame : d.now = nd.identityChangeTimestamp
            · simp [identityChangeTimestampAt, hk, hd, hsame]
            · simp [hsame]
          · simp [hkj]

theorem readBillboard_timestamps (net : Network) (d : Inbound) (nodes : List Node) (j : Nat) :
    billboardChangeTimestampAt (readBillboard net d nodes).1 j
        = (if senderChanged net net.hasBillboardChangedAfterParsing d nodes j then some d.now
          else billboardChangeTimestampAt nodes j)
      ∧ identityChangeTimestampAt (readBillboard net d nodes).1 j
        = identityChangeTimestampAt nodes j := by
  unfold readBillboard senderChanged
  cases hs : net.sendingNodeForPacket nodes d.receivedPacket with
  | none => simp
  | some k =>
    cases hk : nodes[k]? with
    | none => simp [hk]
    | some node =>
      cases hd : node.linkedData with
      | none => simp [hk, hd]
      | some nd =>
        simp only [hk, hd]
        cases hc : (net.hasBillboardChangedAfterParsing nd.avatar d.receivedPacket).1 with
        | false =>
          simp only [Bool.false_eq_true, if_false, Bool.and_false]
          rw [identityChangeTimestampAt_set nodes k node nd _ hk hd,
            billboardChangeTimestampAt_set nodes k node nd _ hk hd]
          simp
        | true =>
          simp only [if_true, Bool.and_true, decide_eq_true_eq]
          rw [identityChangeTimestampAt_set nodes k node nd _ hk hd,
            billboardChangeTimestampAt_set nodes k node nd _ hk hd]
          refine ⟨?_, by simp⟩
          by_cases hkj : k = j
          · subst hkj
            by_cases hsame : d.now = nd.billboardChangeTimestamp
            · simp [billboardChangeTimestampAt, hk, hd, hsame]
            · simp [hsame]
          · simp [hkj]

/-! ## The distance filter -/

/-- C14: in a pass, whose buffer is the bulk header followed by the records placed so far,
appending a record writes a datagram if and only if the size of the record plus the size of
the buffer exceeds `MAX_PACKET_SIZE`; then it writes exactly one, the buffer as it was, and
the new buffer is the header followed by the record; otherwise it writes none and the new
buffer is the old one followed by the record. -/
theorem append_flushes_iff_over_max (env : Env) (header pay : QByteArray) (i : Nat)
    (o : Node) (a : AvatarData) (p : Pass)
    (hp : p.mixer.mixedAvatarByteArray = header ++ pay) :
    ((appendAvatar env header.length i o a p).sent ≠ p.sent
        ↔ (toRfc4122 o.uuid ++ a.toByteArray).length + p.mixer.mixedAvatarByteArray.length
          > env.MAX_PACKET_SIZE)
      ∧ ((toRfc4122 o.uuid ++ a.toByteArray).length + p.mixer.mixedAvatarByteArray.length
            > env.MAX_PACKET_SIZE →
          (appendAvatar env header.length i o a p).sent
              = p.sent ++ [⟨.PacketTypeBulkAvatarData, header ++ pay, i⟩]
            ∧ (appendAvatar env header.length i o a p).mixer.mixedAvatarByteArray
              = header ++ (toRfc4122 o.uuid ++ a.toByteArray))
      ∧ (¬ (toRfc4122 o.uuid ++ a.toByteArray).length + p.mixer.mixedAvatarByteArray.length
            > env.MAX_PACKET_SIZE →
          (appendAvatar env header.length i o a p).sent = p.sent
            ∧ (appendAvatar env header.length i o a p).mixer.mixedAvatarByteArray
              = header ++ pay ++ (toRfc4122 o.uuid ++ a.toByteArray)) := by
  have hover : (toRfc4122 o.uuid ++ a.toByteArray).length
        + p.mixer.mixedAvatarByteArray.length > env.MAX_PACKET_SIZE →
      (appendAvatar env header.length i o a p).sent
          = p.sent ++ [⟨.PacketTypeBulkAvatarData, header ++ pay, i⟩]
        ∧ (appendAvatar env header.length i o a p).mixer.mixedAvatarByteArray
          = header ++ (toRfc4122 o.uuid ++ a.toByteArray) := by
    intro h
    simp only [appendAvatar]
    rw [if_pos h]
    exact ⟨by rw [hp], by simp only [hp, resize_header]⟩
  have hfits : ¬ (toRfc4122 o.uuid ++ a.toByteArray).length
        + p.mixer.mixedAvatarByteArray.length > env.MAX_PACKET_SIZE →
      (appendAvatar env header.length i o a p).sent = p.sent
        ∧ (appendAvatar env header.length i o a p).mixer.mixedAvatarByteArray
          = header ++ pay ++ (toRfc4122 o.uuid ++ a.toByteArray) := by
    intro h
    simp only [appendAvatar]
    rw [if_neg h]
    exact ⟨rfl, by rw [hp]⟩
  refine ⟨?_, hover, hfits⟩
  constructor
  · intro hne
    by_contra h
    exact hne (hfits h).1
  · intro h hsame
    rw [(hover h).1] at hsame
    simp at hsame

set_option maxRecDepth 100000 in
/-- The statement of C14 at a concrete append: a record of 1516 bytes to a buffer of the
header alone, with `MAX_PACKET_SIZE = 1500`. -/
theorem append_flushes_iff_over_max_example :
    ((appendAvatar exampleEnv [1].length 0 (examplePeer 8 0 (List.replicate 1500 0) true 0)
            (exampleData 0 (List.replicate 1500 0) true 0).avatar
            { mixer := { startedMixer with mixedAvatarByteArray := [1] ++ [] },
              nodeData := exampleData 0 [70] true 0, sent := [] }).sent
          ≠ []
        ↔ (toRfc4122 (examplePeer 8 0 (List.replicate 1500 0) true 0).uuid
              ++ (exampleData 0 (List.replicate 1500 0) true 0).avatar.toByteArray).length
            + ([1] ++ [] : QByteArray).length
          > exampleEnv.MAX_PACKET_SIZE)
      ∧ (toRfc4122 (examplePeer 8 0 (List.replicate 1500 0) true 0).uuid
              ++ (exampleData 0 (List.replicate 1500 0) true 0).avatar.toByteArray).length
            + ([1] ++ [] : QByteArray).length
          > exampleEnv.MAX_PACKET_SIZE :=
  ⟨(append_flushes_iff_over_max exampleEnv [1] [] 0
      (examplePeer 8 0 (List.replicate 1500 0) true 0)
      (exampleData 0 (List.replicate 1500 0) true 0).avatar
      { mixer := { startedMixer with mixedAvatarByteArray := [1] ++ [] },
        nodeData := exampleData 0 [70] true 0, sent := [] } rfl).1,
    by decide!⟩

/-- C16: of the datagrams a tick writes to a node, whatever the node list, the locks and the
draws: the bulk packets are the header followed by whole records, those packed for the node,
none of which carries the id of the node; every other datagram is a billboard or an identity
packet, and none of them carries the id of the node. -/
theorem no_datagram_carries_the_receiver_id (env : Env) (t : Tick) (m : Mixer)
    (nodes : List Node) (i : Nat) (node : Node) (hnode : nodes[i]? = some node) :
    (∃ groups : List (List QByteArray),
        bulkPacketsTo i (broadcastAvatarData env t m nodes).sent
          = groups.map (fun g =>
              env.byteArrayWithPopulatedHeader .PacketTypeBulkAvatarData ++ g.flatten)
        ∧ groups.flatten
          = receiverRecords env t
              (broadcastAvatarData env t m nodes).mixer._performanceThrottlingRatio i node nodes
        ∧ ∀ g ∈ groups, ∀ record ∈ g, recordId record ≠ toRfc4122 node.uuid)
      ∧ ∀ x ∈ (broadcastAvatarData env t m nodes).sent, x.destination = i →
          (x.type = PacketType.PacketTypeBulkAvatarData
              ∨ x.type = PacketType.PacketTypeAvatarBillboard
              ∨ x.type = PacketType.PacketTypeAvatarIdentity)
            ∧ (x.type = PacketType.PacketTypeAvatarBillboard →
                packetId (env.byteArrayWithPopulatedHeader .PacketTypeAvatarBillboard).length
                  x.packet ≠ toRfc4122 node.uuid)
            ∧ (x.type = PacketType.PacketTypeAvatarIdentity →
                packetId (env.byteArrayWithPopulatedHeader .PacketTypeAvatarIdentity).length
                  x.packet ≠ toRfc4122 node.uuid) := by
  refine ⟨?_, ?_⟩
  · obtain ⟨_, groups, hmap, hflat⟩ := broadcastAvatarData_grouped env t m nodes i
    simp only [hnode] at hflat
    refine ⟨groups, hmap, hflat, ?_⟩
    intro g hg record hrec
    have hmem : record ∈ receiverRecords env t
        (broadcastAvatarData env t m nodes).mixer._performanceThrottlingRatio i node nodes := by
      rw [← hflat]
      exact List.mem_flatten.mpr ⟨g, hg, hrec⟩
    unfold receiverRecords at hmem
    cases hd : node.linkedData with
    | none => simp [hd] at hmem
    | some d =>
      simp only [hd] at hmem
      split_ifs at hmem
      · exact includedRecordsFrom_recordId env t _ i node _ nodes 0 record hmem
      · simp at hmem
  · intro x hx hdest
    have hmem : x ∈ datagramsTo i (broadcastAvatarData env t m nodes).sent := by
      simp only [datagramsTo, List.mem_filter]
      exact ⟨hx, by simp [hdest]⟩
    have hloc := broadcastAvatarData_datagrams env t m nodes i
    simp only [hnode, ReceiverDatagrams] at hloc
    cases hd : node.linkedData with
    | none =>
      simp only [hd] at hloc
      rw [hloc] at hmem
      simp at hmem
    | some d =>
      simp only [hd] at hloc
      split_ifs at hloc
      · obtain ⟨nodes', mixer', _, _, _, _, hsent⟩ := hloc
        rw [hsent] at hmem
        rcases List.mem_append.mp hmem with hmem | hmem
        · exact receiverPass_notOwn env t _ nodes' i node d mixer' x hmem
        · rw [List.mem_singleton.mp hmem]
          simp
      · rw [hloc] at hmem
        simp at hmem

/-- The statement of C16 at a concrete tick: the first of three peers at one place. -/
theorem no_datagram_carries_the_receiver_id_example :
    (∃ groups : List (List QByteArray),
        bulkPacketsTo 0 (broadcastAvatarData exampleEnv calmTick startedMixer threePeers).sent
          = groups.map (fun g =>
              exampleEnv.byteArrayWithPopulatedHeader .PacketTypeBulkAvatarData ++ g.flatten)
        ∧ groups.flatten
          = receiverRecords exampleEnv calmTick
              (broadcastAvatarData exampleEnv calmTick startedMixer
                threePeers).mixer._performanceThrottlingRatio 0
              (examplePeer 7 0 [70] false 5) threePeers
        ∧ ∀ g ∈ groups, ∀ record ∈ g,
            recordId record ≠ toRfc4122 (examplePeer 7 0 [70] false 5).uuid)
      ∧ ∀ x ∈ (broadcastAvatarData exampleEnv calmTick startedMixer threePeers).sent,
          x.destination = 0 →
          (x.type = PacketType.PacketTypeBulkAvatarData
              ∨ x.type = PacketType.PacketTypeAvatarBillboard
              ∨ x.type = PacketType.PacketTypeAvatarIdentity)
            ∧ (x.type = PacketType.PacketTypeAvatarBillboard →
                packetId
                    (exampleEnv.byteArrayWithPopulatedHeader .PacketTypeAvatarBillboard).length
                    x.packet
                  ≠ toRfc4122 (examplePeer 7 0 [70] false 5).uuid)
            ∧ (x.type = PacketType.PacketTypeAvatarIdentity →
                packetId
                    (exampleEnv.byteArrayWithPopulatedHeader .PacketTypeAvatarIdentity).length
                    x.packet
                  ≠ toRfc4122 (examplePeer 7 0 [70] false 5).uuid) :=
  no_datagram_carries_the_receiver_id exampleEnv calmTick startedMixer threePeers 0
    (examplePeer 7 0 [70] false 5) rfl

/-- C17: when the try-lock on a receiver fails, its functor leaves the mixer (and so the
listeners, billboard and identity counters), the node list and the datagrams as they were,
and the tick writes no datagram to that receiver; when the try-lock on a source fails, the
source does not pass the filters, its functor leaves the pass as it was, and the enumeration
goes on with the sources after it. -/
theorem contention_is_a_clean_skip :
    (∀ (env : Env) (t : Tick) (h i : Nat) (node : Node) (b : Broadcast),
        t.nodeLocked i = false → receiverAction env t h i node b = b)
    ∧ (∀ (env : Env) (t : Tick) (m : Mixer) (nodes : List Node) (i : Nat) (node : Node),
        nodes[i]? = some node → t.nodeLocked i = false →
        datagramsTo i (broadcastAvatarData env t m nodes).sent = [])
    ∧ (∀ (env : Env) (t : Tick) (r : ℚ) (h i : Nat) (node : Node) (pos : Vec3) (j : Nat)
        (o : Node) (rest : List Node) (p : Pass),
        t.otherNodeLocked i j = false →
        sourceAction env t h i pos j o p = p
          ∧ included env t r i node pos j o = false
          ∧ eachMatchingNodeFrom (fun j o => sourcePredicate t r i node j o)
              (sourceAction env t h i pos) j (o :: rest) p
            = eachMatchingNodeFrom (fun j o => sourcePredicate t r i node j o)
              (sourceAction env t h i pos) (j + 1) rest p) := by
  refine ⟨?_, ?_, ?_⟩
  · intro env t h i node b hlock
    unfold receiverAction
    split
    · rfl
    · simp [hlock]
  · intro env t m nodes i node hnode hlock
    have hloc := broadcastAvatarData_datagrams env t m nodes i
    simp only [hnode, ReceiverDatagrams, serviced, hlock, Bool.and_false, Bool.false_eq_true,
      if_false] at hloc
    cases hd : node.linkedData with
    | none =>
      simp only [hd] at hloc
      exact hloc
    | some d =>
      simp only [hd] at hloc
      exact hloc
  · intro env t r h i node pos j o rest p hlock
    have hact : sourceAction env t h i pos j o p = p := by
      unfold sourceAction
      split
      · rfl
      · simp [hlock]
    have hinc : included env t r i node pos j o = false := by
      unfold included
      cases o.linkedData with
      | none => simp
      | some d => simp [hlock]
    refine ⟨hact, hinc, ?_⟩
    simp only [eachMatchingNodeFrom]
    rw [source_not_included env t r h i node pos j o p hinc]

/-- The statement of C17 at a concrete tick: the lock of the first of three peers is not
obtained, and no datagram is written to it. -/
theorem contention_is_a_clean_skip_example :
    datagramsTo 0
        (broadcastAvatarData exampleEnv
          { calmTick with nodeLocked := fun i => decide (i ≠ 0) } startedMixer threePeers).sent
      = [] :=
  contention_is_a_clean_skip.2.1 exampleEnv
    { calmTick with nodeLocked := fun i => decide (i ≠ 0) } startedMixer threePeers 0
    (examplePeer 7 0 [70] false 5) rfl rfl

/-! ## The claims about the receive path -/

/-- C18: for an identity packet that passed the version and hash check, the identity change
timestamp of a node becomes the current time if the node is the sender, is in the node list,
has linked data and parsing reports a change, and stays as it was in every other case; no
billboard change timestamp changes. For a billboard packet the same holds with the two
timestamps exchanged. A packet that fails the check leaves the node list as it was. -/
theorem update_sets_the_change_timestamp (net : Network) (d : Inbound) (nodes : List Node) :
    (net.packetVersionAndHashMatch d.receivedPacket = true →
      net.packetTypeForPacket d.receivedPacket = .PacketTypeAvatarIdentity →
      ∀ j, identityChangeTimestampAt (readDatagram net d nodes).1 j
            = (if senderChanged net net.hasIdentityChangedAfterParsing d nodes j then
                some d.now
              else identityChangeTimestampAt nodes j)
          ∧ billboardChangeTimestampAt (readDatagram net d nodes).1 j
            = billboardChangeTimestampAt nodes j)
    ∧ (net.packetVersionAndHashMatch d.receivedPacket = true →
      net.packetTypeForPacket d.receivedPacket = .PacketTypeAvatarBillboard →
      ∀ j, billboardChangeTimestampAt (readDatagram net d nodes).1 j
            = (if senderChanged net net.hasBillboardChangedAfterParsing d nodes j then
                some d.now
              else billboardChangeTimestampAt nodes j)
          ∧ identityChangeTimestampAt (readDatagram net d nodes).1 j
            = identityChangeTimestampAt nodes j)
    ∧ (net.packetVersionAndHashMatch d.receivedPacket = false →
      (readDatagram net d nodes).1 = nodes) := by
  refine ⟨?_, ?_, ?_⟩
  · intro hmatch htype j
    simp only [readDatagram, hmatch, htype, if_true]
    exact readIdentity_timestamps net d nodes j
  · intro hmatch htype j
    simp only [readDatagram, hmatch, htype, if_true]
    exact readBillboard_timestamps net d nodes j
  · intro hmatch
    simp [readDatagram, hmatch]

/-- The statement of C18 at a concrete datagram: an identity packet of the first of three
peers that differs from its stored identity, handled at time 20. -/
theorem update_sets_the_change_timestamp_example :
    (identityChangeTimestampAt (readDatagram exampleNetwork exampleIdentity threePeers).1 0
        = (if senderChanged exampleNetwork exampleNetwork.hasIdentityChangedAfterParsing
              exampleIdentity threePeers 0 then
            some exampleIdentity.now
          else identityChangeTimestampAt threePeers 0)
      ∧ billboardChangeTimestampAt (readDatagram exampleNetwork exampleIdentity threePeers).1 0
        = billboardChangeTimestampAt threePeers 0)
    ∧ identityChangeTimestampAt (readDatagram exampleNetwork exampleIdentity threePeers).1 0
      = some 20
    ∧ identityChangeTimestampAt threePeers 0 = some 5 :=
  ⟨(update_sets_the_change_timestamp exampleNetwork exampleIdentity threePeers).1 rfl rfl 0,
    by decide, by decide⟩

/-- C20, evaluated on the code: an identity packet of a node with linked data that changes
its identity. `readPendingDatagrams` parses the packet into the stored avatar first (line
284) and takes the mutex of the node after that (line 285), for the write of the timestamp
only: the access to the avatar is made while the mutex is not held. It is so for every
identity packet of a node of the list that has linked data. -/
theorem avatar_is_parsed_before_the_lock :
    (readDatagram exampleNetwork exampleIdentity threePeers).2
        = [.avatar 0, .lock 0, .timestamp 0, .unlock 0]
      ∧ guarded [] (readDatagram exampleNetwork exampleIdentity threePeers).2 = false
      ∧ ∀ (net : Network) (d : Inbound) (nodes : List Node) (k : Nat) (node : Node)
          (nodeData : AvatarMixerClientData),
          net.packetVersionAndHashMatch d.receivedPacket = true →
          net.packetTypeForPacket d.receivedPacket = .PacketTypeAvatarIdentity →
          net.sendingNodeForPacket nodes d.receivedPacket = some k →
          nodes[k]? = some node → node.linkedData = some nodeData →
          guarded [] (readDatagram net d nodes).2 = false := by
  refine ⟨by decide, by decide, ?_⟩
  intro net d nodes k node nodeData hmatch htype hsender hnode hdata
  simp only [readDatagram, hmatch, htype, if_true, readIdentity, hsender, hnode, hdata]
  split_ifs <;> simp [guarded]
/-! ## The struggle step -/

theorem referenceStep_struggling (t r : ℚ) (h : t ≤ 10 / 100) :
    referenceStep t r = r + (1 / 2) * (1 - r) := by
  unfold referenceStep
  rw [if_pos h]

/-! ## The counters of billboard and identity packets -/

/-- C22: the frames counter of the throttle block is a local that starts at
`TRAILING_AVERAGE_FRAMES` on every call, so it leaves the block at 0 (after a change) or at
101 and is carried nowhere; two ticks of any two mixers that start from the same throttling
ratio and reach the same trailing sleep ratio leave the same throttling ratio; and after `k`
consecutive ticks whose updated trailing sleep ratio is at most 0.10, from a mixer with
throttling ratio `r0`, the ratio is `1 - (1 - r0) / 2^k`. -/
theorem ratio_after_struggling_ticks (env : Env) (m : Mixer) (ticks : Nat → Tick × List Node)
    (k : Nat)
    (hstruggling : ∀ n, n < k →
      (mixerAfter env m ticks (n + 1))._trailingSleepRatio ≤ 10 / 100) :
    (mixerAfter env m ticks k)._performanceThrottlingRatio
        = 1 - (1 - m._performanceThrottlingRatio) / 2 ^ k
      ∧ (∀ (env1 env2 : Env) (t1 t2 : Tick) (m1 m2 : Mixer) (nodes1 nodes2 : List Node),
          m1._performanceThrottlingRatio = m2._performanceThrottlingRatio →
          (broadcastAvatarData env1 t1 m1 nodes1).mixer._trailingSleepRatio
            = (broadcastAvatarData env2 t2 m2 nodes2).mixer._trailingSleepRatio →
          (broadcastAvatarData env1 t1 m1 nodes1).mixer._performanceThrottlingRatio
            = (broadcastAvatarData env2 t2 m2 nodes2).mixer._performanceThrottlingRatio)
      ∧ (∀ (idle : Int) (trailing ratio : ℚ),
          (throttle idle trailing ratio).framesSinceCutoffEvent
            = if (throttle idle trailing ratio).hasRatioChanged then 0 else 101) := by
  refine ⟨?_, ?_, ?_⟩
  · induction k with
    | zero => simp [mixerAfter]
    | succ k ih =>
      rw [mixerAfter_ratio, referenceStep_struggling _ _ (hstruggling k (Nat.lt_succ_self k)),
        ih (fun n hn => hstruggling n (Nat.lt_succ_of_lt hn)), pow_succ]
      field_simp
      ring
  · intro env1 env2 t1 t2 m1 m2 nodes1 nodes2 hr ht
    rw [ratio_is_reference_step_aux env1 t1 m1 nodes1,
      ratio_is_reference_step_aux env2 t2 m2 nodes2, hr, ht]
  · intro idle trailing ratio
    simp only [throttle, TRAILING_AVERAGE_FRAMES, ge_iff_le, le_refl, decide_True, if_true,
      Bool.true_and]
    split_ifs <;> simp_all

/-- The statement of C22 at a concrete run: three busy ticks of a mixer that has run 229 busy
ticks from construction, whose throttling ratio is still 0. -/
theorem ratio_after_struggling_ticks_example :
    (mixerAfter exampleEnv (mixerAfter exampleEnv (AvatarMixer 0) busyRun 229) busyRun
        3)._performanceThrottlingRatio
      = 1 - (1 - (mixerAfter exampleEnv (AvatarMixer 0) busyRun
          229)._performanceThrottlingRatio) / 2 ^ 3 :=
  (ratio_after_struggling_ticks exampleEnv (mixerAfter exampleEnv (AvatarMixer 0) busyRun 229)
    busyRun 3 (by decide!)).1

/-! ## The claims about the sizes of the bulk packets -/

theorem roundHalfEven_bounds (y : ℚ) : ⌊y⌋ ≤ roundHalfEven y ∧ roundHalfEven y ≤ ⌊y⌋ + 1 := by
  unfold roundHalfEven
  split_ifs <;> constructor <;> omega

theorem roundHalfEven_le (y : ℚ) (n : ℤ) (h : y ≤ n) : roundHalfEven y ≤ n := by
  have hfloor : ⌊y⌋ ≤ n := Int.cast_le.mp (le_trans (Int.floor_le y) h)
  by_cases hfrac : y - ⌊y⌋ < 1 / 2
  · simp only [roundHalfEven, if_pos hfrac]
    exact hfloor
  · have hlt : (⌊y⌋ : ℚ) < n := by
      have : (0 : ℚ) < y - ⌊y⌋ := by linarith [not_lt.mp hfrac]
      linarith
    have hlt' : ⌊y⌋ < n := Int.cast_lt.mp hlt
    exact le_trans (roundHalfEven_bounds y).2 (by omega)

theorem le_roundHalfEven (y : ℚ) (n : ℤ) (h : (n : ℚ) ≤ y) : n ≤ roundHalfEven y :=
  le_trans (Int.le_floor.mpr h) (roundHalfEven_bounds y).1

theorem roundHalfEven_intCast (n : ℤ) : roundHalfEven (n : ℚ) = n := by
  simp [roundHalfEven]

theorem two_zpow_eq_cast (k : ℤ) (hk : 0 ≤ k) : (2 : ℚ) ^ k = (((2 : ℤ) ^ k.toNat : ℤ) : ℚ) := by
  obtain ⟨n, rfl⟩ := Int.eq_ofNat_of_zero_le hk
  simp

theorem two_pow_toNat (k : ℤ) (hk : 0 ≤ k) : (2 : ℚ) ^ k.toNat = 2 ^ k := by
  rw [two_zpow_eq_cast k hk]
  push_cast
  rfl

/-- The exponent that `roundToFloat` takes for a positive `x` is at most `k` when `x` is at
most `2^k` and `k` is an exponent of a normal `float`. -/
theorem exponent_le (x : ℚ) (k : ℤ) (hx : 0 < x) (hle : x ≤ 2 ^ k) (hk : -126 ≤ k) :
    max (Int.log 2 x) (-126) ≤ k := by
  have hlog : Int.log 2 x ≤ k := by
    have := Int.log_mono_right (b := 2) hx hle
    rwa [show ((2 : ℚ) ^ k) = (((2 : ℕ) : ℚ) ^ k) by norm_num,
      Int.log_zpow (R := ℚ) (by norm_num : 1 < 2)] at this
  exact max_le hlog hk

theorem leadingBitFrom_spec : ∀ (fuel n : ℕ), n ≤ fuel → n ≠ 0 →
    2 ^ leadingBitFrom fuel n ≤ n ∧ n < 2 ^ (leadingBitFrom fuel n + 1)
  | 0, n, hle, hn => absurd (Nat.le_zero.mp hle) hn
  | fuel + 1, n, hle, hn => by
    unfold leadingBitFrom
    split_ifs with hsmall
    · refine ⟨by simpa using Nat.pos_of_ne_zero hn, by simpa using hsmall⟩
    · obtain ⟨h1, h2⟩ := leadingBitFrom_spec fuel (n / 2) (by omega) (by omega)
      rw [pow_succ] at h2
      rw [pow_succ, pow_succ, pow_succ]
      omega

theorem leadingBit_spec (n : ℕ) (hn : n ≠ 0) :
    2 ^ leadingBit n ≤ n ∧ n < 2 ^ (leadingBit n + 1) :=
  leadingBitFrom_spec n n le_rfl hn

/-- The exponent of the leading bit: `2^e ≤ |x| < 2^(e+1)`. -/
theorem binaryExponent_spec (x : ℚ) (hx : x ≠ 0) :
    (2 : ℚ) ^ binaryExponent x ≤ |x| ∧ |x| < 2 ^ (binaryExponent x + 1) := by
  have hnum : x.num.natAbs ≠ 0 := by
    simpa using Rat.num_ne_zero.mpr hx
  have hden : x.den ≠ 0 := x.den_nz
  have habs : |x| = (x.num.natAbs : ℚ) / (x.den : ℚ) := by
    conv_lhs => rw [← Rat.num_div_den x]
    rw [abs_div, Nat.abs_cast, Nat.cast_natAbs, Int.cast_abs]
  have hn1 : ((2 : ℚ) ^ leadingBit x.num.natAbs) ≤ (x.num.natAbs : ℚ) := by
    exact_mod_cast (leadingBit_spec _ hnum).1
  have hn2 : (x.num.natAbs : ℚ) < (2 : ℚ) ^ (leadingBit x.num.natAbs + 1) := by
    exact_mod_cast (leadingBit_spec _ hnum).2
  have hd1 : ((2 : ℚ) ^ leadingBit x.den) ≤ (x.den : ℚ) := by
    exact_mod_cast (leadingBit_spec _ hden).1
  have hd2 : (x.den : ℚ) < (2 : ℚ) ^ (leadingBit x.den + 1) := by
    exact_mod_cast (leadingBit_spec _ hden).2
  have hdpos : (0 : ℚ) < (x.den : ℚ) := by exact_mod_cast Nat.pos_of_ne_zero hden
  have hnpos : (0 : ℚ) < (x.num.natAbs : ℚ) := by exact_mod_cast Nat.pos_of_ne_zero hnum
  have hpow : ∀ a b : ℕ, (2 : ℚ) ^ ((a : ℤ) - (b : ℤ)) = 2 ^ a / 2 ^ b := by
    intro a b
    rw [zpow_sub₀ (by norm_num), zpow_natCast, zpow_natCast]
  unfold binaryExponent
  simp only
  split_ifs with hle
  · refine ⟨hle, ?_⟩
    rw [habs, show ((leadingBit x.num.natAbs : ℤ) - (leadingBit x.den : ℤ) + 1)
      = (((leadingBit x.num.natAbs + 1 : ℕ) : ℤ) - (leadingBit x.den : ℤ)) by push_cast; ring, hpow]
    calc (x.num.natAbs : ℚ) / (x.den : ℚ) ≤ (x.num.natAbs : ℚ) / 2 ^ leadingBit x.den :=
          div_le_div_of_nonneg_left hnpos.le (by positivity) hd1
      _ < 2 ^ (leadingBit x.num.natAbs + 1) / 2 ^ leadingBit x.den :=
          div_lt_div_of_pos_right hn2 (by positivity)
  · refine ⟨?_, ?_⟩
    · rw [habs, show ((leadingBit x.num.natAbs : ℤ) - (leadingBit x.den : ℤ) - 1)
        = ((leadingBit x.num.natAbs : ℤ) - ((leadingBit x.den + 1 : ℕ) : ℤ)) by push_cast; ring, hpow]
      calc (2 : ℚ) ^ leadingBit x.num.natAbs / 2 ^ (leadingBit x.den + 1)
          ≤ (x.num.natAbs : ℚ) / 2 ^ (leadingBit x.den + 1) :=
            div_le_div_of_nonneg_right hn1 (by positivity)
        _ ≤ (x.num.natAbs : ℚ) / (x.den : ℚ) :=
            div_le_div_of_nonneg_left hnpos.le hdpos hd2.le
    · rw [sub_add_cancel]
      exact not_le.mp hle

theorem binaryExponent_eq (x : ℚ) (hx : x ≠ 0) : binaryExponent x = Int.log 2 |x| := by
  obtain ⟨hlow, hhigh⟩ := binaryExponent_spec x hx
  have hpos : 0 < |x| := abs_pos.mpr hx
  have h1 : binaryExponent x ≤ Int.log 2 |x| :=
    (Int.zpow_le_iff_le_log (b := 2) (by norm_num) hpos).mp (by simpa using hlow)
  have h2 : Int.log 2 |x| < binaryExponent x + 1 :=
    (Int.lt_zpow_iff_log_lt (b := 2) (by norm_num) hpos).mp (by simpa using hhigh)
  omega

/-- The rounding in terms of the logarithm to base 2. -/
theorem roundToFloat_def (x : ℚ) :
    roundToFloat x
      = if x = 0 then 0
        else if 2 ^ 128
            ≤ |(roundHalfEven (x / 2 ^ (max (Int.log 2 |x|) (-126) - 23)) : ℚ)
                * 2 ^ (max (Int.log 2 |x|) (-126) - 23)| then
          (if 0 < x then 2 ^ 128 else -(2 ^ 128))
        else (roundHalfEven (x / 2 ^ (max (Int.log 2 |x|) (-126) - 23)) : ℚ)
          * 2 ^ (max (Int.log 2 |x|) (-126) - 23) := by
  by_cases h0 : x = 0
  · simp [roundToFloat, h0]
  · simp only [roundToFloat, if_neg h0, binaryExponent_eq x h0]

theorem roundToFloat_nonneg (x : ℚ) (hx : 0 ≤ x) : 0 ≤ roundToFloat x := by
  by_cases h0 : x = 0
  · simp [roundToFloat, h0]
  · have hpos : 0 < x := lt_of_le_of_ne hx (Ne.symm h0)
    simp only [roundToFloat_def, if_neg h0, if_pos hpos]
    split_ifs
    · positivity
    · apply mul_nonneg
      · have : (0 : ℤ) ≤ roundHalfEven (x / 2 ^ (max (Int.log 2 |x|) (-126) - 23)) :=
          le_roundHalfEven _ 0 (by simpa using div_nonneg hx (by positivity))
        exact_mod_cast this
      · positivity

theorem roundToFloat_nonpos (x : ℚ) (hx : x ≤ 0) : roundToFloat x ≤ 0 := by
  by_cases h0 : x = 0
  · simp [roundToFloat, h0]
  · simp only [roundToFloat_def, if_neg h0, if_neg (not_lt.mpr hx)]
    split_ifs
    · simp
    · apply mul_nonpos_of_nonpos_of_nonneg
      · have : roundHalfEven (x / 2 ^ (max (Int.log 2 |x|) (-126) - 23)) ≤ (0 : ℤ) :=
          roundHalfEven_le _ 0
            (by simpa using div_nonpos_of_nonpos_of_nonneg hx (by positivity))
        exact_mod_cast this
      · positivity

/-- Rounding does not cross a power of two that is a normal `float`. -/
theorem roundToFloat_le_zpow (x : ℚ) (k : ℤ) (hle : x ≤ 2 ^ k) (hk : -126 ≤ k)
    (hk' : k ≤ 127) : roundToFloat x ≤ 2 ^ k := by
  rcases le_or_lt x 0 with hx | hx
  · exact le_trans (roundToFloat_nonpos x hx) (by positivity)
  · have he := exponent_le x k hx hle hk
    have habs : |x| = x := abs_of_pos hx
    have hrounded : (roundHalfEven (x / 2 ^ (max (Int.log 2 x) (-126) - 23)) : ℚ)
        * 2 ^ (max (Int.log 2 x) (-126) - 23) ≤ 2 ^ k := by
      generalize max (Int.log 2 x) (-126) = e at he
      have hq : (0 : ℚ) < 2 ^ (e - 23) := by positivity
      have hquot : x / 2 ^ (e - 23) ≤ (((2 : ℤ) ^ (k - e + 23).toNat : ℤ) : ℚ) := by
        rw [← two_zpow_eq_cast (k - e + 23) (by omega), div_le_iff₀ hq, ← zpow_add₀ (by norm_num)]
        rw [show k - e + 23 + (e - 23) = k by ring]
        exact hle
      have hr := roundHalfEven_le _ _ hquot
      have hr' : (roundHalfEven (x / 2 ^ (e - 23)) : ℚ) ≤ (((2 : ℤ) ^ (k - e + 23).toNat : ℤ) : ℚ) :=
        by exact_mod_cast hr
      calc (roundHalfEven (x / 2 ^ (e - 23)) : ℚ) * 2 ^ (e - 23)
          ≤ (((2 : ℤ) ^ (k - e + 23).toNat : ℤ) : ℚ) * 2 ^ (e - 23) :=
            mul_le_mul_of_nonneg_right hr' hq.le
        _ = 2 ^ k := by
            rw [← two_zpow_eq_cast (k - e + 23) (by omega), ← zpow_add₀ (by norm_num)]
            congr 1
            ring
    simp only [roundToFloat_def, if_neg (ne_of_gt hx), if_pos hx, habs]
    split_ifs with hover
    · exfalso
      have hnonneg : (0 : ℚ) ≤ (roundHalfEven (x / 2 ^ (max (Int.log 2 x) (-126) - 23)) : ℚ)
          * 2 ^ (max (Int.log 2 x) (-126) - 23) := by
        apply mul_nonneg
        · have : (0 : ℤ) ≤ roundHalfEven (x / 2 ^ (max (Int.log 2 x) (-126) - 23)) :=
            le_roundHalfEven _ 0 (by simpa using div_nonneg hx.le (by positivity))
          exact_mod_cast this
        · positivity
      rw [abs_of_nonneg hnonneg] at hover
      have h127 : (2 : ℚ) ^ k ≤ 2 ^ (127 : ℤ) := zpow_le_zpow_right₀ (by norm_num) hk'
      have : (2 : ℚ) ^ (127 : ℤ) < 2 ^ 128 := by norm_num
      linarith
    · exact hrounded


/-- A real of at least `2^-149`, the least positive `float`, is not rounded to 0. -/
theorem roundToFloat_pos (x : ℚ) (hx : 2 ^ (-149 : ℤ) ≤ x) : 0 < roundToFloat x := by
  have hpos : 0 < x := lt_of_lt_of_le (by positivity) hx
  have habs : |x| = x := abs_of_pos hpos
  simp only [roundToFloat_def, if_neg (ne_of_gt hpos), if_pos hpos, habs]
  split_ifs
  · positivity
  · have hspacing : (2 : ℚ) ^ (max (Int.log 2 x) (-126) - 23) ≤ x := by
      rcases le_total (Int.log 2 x) (-126) with hsub | hnormal
      · rw [max_eq_right hsub]
        exact hx
      · rw [max_eq_left hnormal]
        calc (2 : ℚ) ^ (Int.log 2 x - 23) ≤ 2 ^ Int.log 2 x :=
              zpow_le_zpow_right₀ (by norm_num) (by omega)
          _ ≤ x := by
              have := Int.zpow_log_le_self (b := 2) (by norm_num) hpos
              simpa using this
    generalize max (Int.log 2 x) (-126) = e at hspacing
    have hq : (0 : ℚ) < 2 ^ (e - 23) := by positivity
    have hone : ((1 : ℤ) : ℚ) ≤ x / 2 ^ (e - 23) := by
      rw [le_div_iff₀ hq]
      simpa using hspacing
    have hr : (1 : ℤ) ≤ roundHalfEven (x / 2 ^ (e - 23)) := le_roundHalfEven _ 1 hone
    have hr' : (0 : ℚ) < (roundHalfEven (x / 2 ^ (e - 23)) : ℚ) := by
      have : (0 : ℤ) < roundHalfEven (x / 2 ^ (e - 23)) := by omega
      exact_mod_cast this
    exact mul_pos hr' hq

/-- Every `float` is a multiple of `2^-149`. -/
theorem roundToFloat_grid (x : ℚ) : ∃ m : ℤ, roundToFloat x = m / 2 ^ 149 := by
  by_cases h0 : x = 0
  · exact ⟨0, by simp [roundToFloat, h0]⟩
  · simp only [roundToFloat_def, if_neg h0]
    split_ifs
    · exact ⟨2 ^ 277, by norm_num⟩
    · exact ⟨-2 ^ 277, by norm_num⟩
    · have he : -126 ≤ max (Int.log 2 |x|) (-126) := le_max_right _ _
      generalize max (Int.log 2 |x|) (-126) = e at he
      refine ⟨roundHalfEven (x / 2 ^ (e - 23)) * 2 ^ (e - 23 + 149).toNat, ?_⟩
      have hsplit : (2 : ℚ) ^ (e - 23) = 2 ^ (e - 23 + 149) / 2 ^ 149 := by
        rw [eq_div_iff (by positivity)]
        rw [show ((2 : ℚ) ^ 149) = 2 ^ (149 : ℤ) by norm_num, ← zpow_add₀ (by norm_num)]
      rw [hsplit, two_zpow_eq_cast (e - 23 + 149) (by omega)]
      push_cast
      ring

/-- A nonnegative multiple of `2^-n` with less than 24 bits is a `float`, for `n` up to 149. -/
theorem roundToFloat_exact (k : ℤ) (n : ℕ) (hk0 : 0 ≤ k) (hk : k < 2 ^ 24) (hn : n ≤ 149) :
    roundToFloat ((k : ℚ) / 2 ^ n) = (k : ℚ) / 2 ^ n := by
  rcases eq_or_lt_of_le hk0 with hzero | hkpos
  · simp [roundToFloat, ← hzero]
  · have hx : (0 : ℚ) < (k : ℚ) / 2 ^ n := div_pos (by exact_mod_cast hkpos) (by positivity)
    have hlt : (k : ℚ) / 2 ^ n < 2 ^ ((24 : ℤ) - n) := by
      rw [div_lt_iff₀ (by positivity)]
      have : (2 : ℚ) ^ ((24 : ℤ) - n) * 2 ^ n = 2 ^ 24 := by
        rw [show ((2 : ℚ) ^ n) = 2 ^ (n : ℤ) by norm_num, ← zpow_add₀ (by norm_num)]
        norm_num
      rw [this]
      exact_mod_cast hk
    have hlog : Int.log 2 ((k : ℚ) / 2 ^ n) < (24 : ℤ) - n := by
      have := (Int.lt_zpow_iff_log_lt (b := 2) (by norm_num) hx).mp (by simpa using hlt)
      exact this
    have he : max (Int.log 2 ((k : ℚ) / 2 ^ n)) (-126) ≤ (23 : ℤ) - n := by
      apply max_le <;> omega
    have habs : |(k : ℚ) / 2 ^ n| = (k : ℚ) / 2 ^ n := abs_of_pos hx
    simp only [roundToFloat_def, if_neg (ne_of_gt hx), if_pos hx, habs]
    generalize max (Int.log 2 ((k : ℚ) / 2 ^ n)) (-126) = e at he
    have hq : (0 : ℚ) < 2 ^ (e - 23) := by positivity
    have hquot : (k : ℚ) / 2 ^ n / 2 ^ (e - 23)
        = ((k * 2 ^ ((23 : ℤ) - n - e).toNat : ℤ) : ℚ) := by
      push_cast
      rw [two_pow_toNat ((23 : ℤ) - n - e) (by omega)]
      rw [div_div, div_eq_iff (by positivity), mul_assoc]
      rw [show ((2 : ℚ) ^ n) = 2 ^ (n : ℤ) by norm_num, ← zpow_add₀ (by norm_num),
        ← zpow_add₀ (by norm_num)]
      rw [show (23 : ℤ) - n - e + (n + (e - 23)) = 0 by ring]
      simp
    have hback : (roundHalfEven ((k : ℚ) / 2 ^ n / 2 ^ (e - 23)) : ℚ) * 2 ^ (e - 23)
        = (k : ℚ) / 2 ^ n := by
      rw [hquot, roundHalfEven_intCast, ← hquot]
      exact div_mul_cancel₀ _ (ne_of_gt hq)
    rw [hback, if_neg]
    rw [habs, not_le]
    calc (k : ℚ) / 2 ^ n ≤ k := div_le_self (by exact_mod_cast hk0) (one_le_pow₀ (by norm_num))
      _ < 2 ^ 24 := by exact_mod_cast hk
      _ < 2 ^ 128 := by norm_num

/-- A `float` from 1/2 to 1 is a multiple of `2^-24`. -/
theorem roundToFloat_grid_upper (x : ℚ) (hlow : 1 / 2 ≤ roundToFloat x)
    (hhigh : roundToFloat x ≤ 1) : ∃ m : ℤ, roundToFloat x = m / 2 ^ 24 := by
  have hpos : 0 < x := by
    by_contra hneg
    have := roundToFloat_nonpos x (not_lt.mp hneg)
    linarith
  rcases le_or_lt (max (Int.log 2 x) (-126)) (-2) with hsmall | hlarge
  · have hlt : x < 2 ^ (Int.log 2 x + 1) := by
      have := Int.lt_zpow_succ_log_self (b := 2) (by norm_num) x
      simpa using this
    have hle : x ≤ 2 ^ (max (Int.log 2 x) (-126) + 1) :=
      le_trans hlt.le (zpow_le_zpow_right₀ (by norm_num) (by
        have := le_max_left (Int.log 2 x) (-126)
        omega))
    have hbound := roundToFloat_le_zpow x _ hle
      (by have := le_max_right (Int.log 2 x) (-126); omega) (by omega)
    have hhalf : (2 : ℚ) ^ (max (Int.log 2 x) (-126) + 1) ≤ 2 ^ (-1 : ℤ) :=
      zpow_le_zpow_right₀ (by norm_num) (by omega)
    have heq : roundToFloat x = 1 / 2 :=
      le_antisymm (le_trans hbound (le_trans hhalf (by norm_num))) hlow
    exact ⟨2 ^ 23, by rw [heq]; norm_num⟩
  · have habs : |x| = x := abs_of_pos hpos
    have hval := hhigh
    simp only [roundToFloat_def, if_neg (ne_of_gt hpos), if_pos hpos, habs] at hval ⊢
    split_ifs at hval ⊢ with hover
    · norm_num at hval
    · generalize max (Int.log 2 x) (-126) = e at hlarge
      refine ⟨roundHalfEven (x / 2 ^ (e - 23)) * 2 ^ (e + 1).toNat, ?_⟩
      have hsplit : (2 : ℚ) ^ (e - 23) = 2 ^ (e + 1) / 2 ^ 24 := by
        rw [eq_div_iff (by positivity)]
        rw [show ((2 : ℚ) ^ 24) = 2 ^ (24 : ℤ) by norm_num, ← zpow_add₀ (by norm_num)]
        congr 1
        ring
      rw [hsplit, two_zpow_eq_cast (e + 1) (by omega)]
      push_cast
      ring


/-! ## The tick in `float` -/

theorem sourceActionFloat_frame (env : Env) (t : Tick) (h i : Nat) (pos : Vec3) (j : Nat)
    (o : Node) (p : Pass) :
    frame (sourceActionFloat env t h i pos j o p).mixer = frame p.mixer := by
  unfold sourceActionFloat
  split
  · rfl
  · dsimp only
    split_ifs
    · rfl
    · rfl
    · rw [sendIdentity_frame, sendBillboard_frame]
      exact appendAvatar_frame env h i o _ p

theorem receiverPassFloat_frame (env : Env) (t : Tick) (h : Nat) (nodes : List Node) (i : Nat)
    (node : Node) (d : AvatarMixerClientData) (m : Mixer) :
    frame (receiverPassFloat env t h nodes i node d m).mixer = frame m := by
  simp only [receiverPassFloat, eachMatchingNode]
  refine eachMatchingNodeFrom_preserves (fun p : Pass => frame p.mixer = frame m) _ _ ?_
    nodes 0 _ ?_
  · intro k n s hs
    exact (sourceActionFloat_frame env t h i _ k n s).trans hs
  · rfl

theorem receiverActionFloat_frame (env : Env) (t : Tick) (h i : Nat) (node : Node)
    (b : Broadcast) :
    frame (receiverActionFloat env t h i node b).mixer = frame b.mixer := by
  unfold receiverActionFloat
  split
  · rfl
  · dsimp only
    split_ifs
    · rfl
    · exact receiverPassFloat_frame env t h b.nodes i node _ b.mixer

/-- The passes over the nodes leave the two ratios as the throttle block computed them. -/
theorem broadcastAvatarDataFloat_throttle (env : Env) (t : Tick) (m : Mixer)
    (nodes : List Node) :
    (broadcastAvatarDataFloat env t m nodes).mixer._trailingSleepRatio
        = (throttleFloat (idleTime t m) m._trailingSleepRatio
            m._performanceThrottlingRatio)._trailingSleepRatio
      ∧ (broadcastAvatarDataFloat env t m nodes).mixer._performanceThrottlingRatio
        = (throttleFloat (idleTime t m) m._trailingSleepRatio
            m._performanceThrottlingRatio)._performanceThrottlingRatio := by
  have key := eachMatchingNodeFrom_preserves
    (fun b : Broadcast => frame b.mixer
      = ((throttleFloat (idleTime t m) m._trailingSleepRatio
            m._performanceThrottlingRatio)._trailingSleepRatio,
         (throttleFloat (idleTime t m) m._trailingSleepRatio
            m._performanceThrottlingRatio)._performanceThrottlingRatio,
         m._lastFrameTimestamp))
    (fun _ node => receiverPredicate node)
    (receiverActionFloat env t
      (populatePacketHeader env m.mixedAvatarByteArray .PacketTypeBulkAvatarData).2)
    (fun k n s hs => (receiverActionFloat_frame env t _ k n s).trans hs) nodes 0
    { mixer :=
        { m with
          _numStatFrames := m._numStatFrames + 1
          _trailingSleepRatio := (throttleFloat (idleTime t m) m._trailingSleepRatio
            m._performanceThrottlingRatio)._trailingSleepRatio
          _performanceThrottlingRatio := (throttleFloat (idleTime t m) m._trailingSleepRatio
            m._performanceThrottlingRatio)._performanceThrottlingRatio
          mixedAvatarByteArray :=
            (populatePacketHeader env m.mixedAvatarByteArray .PacketTypeBulkAvatarData).1 }
      nodes := nodes, sent := [] } rfl
  simp only [frame, Prod.mk.injEq] at key
  exact ⟨key.1, key.2.1⟩

theorem throttleFloat_ratio (i : Int) (t r : ℚ) :
    (throttleFloat i t r)._performanceThrottlingRatio
      = referenceStepFloat (throttleFloat i t r)._trailingSleepRatio r := by
  simp only [throttleFloat, referenceStepFloat, STRUGGLE_TRIGGER_SLEEP_PERCENTAGE_THRESHOLD,
    BACK_OFF_TRIGGER_SLEEP_PERCENTAGE_THRESHOLD, RATIO_BACK_OFF, ge_iff_le, le_refl,
    decide_True, if_true]
  split_ifs with h1 h2 h3 <;> first | rfl | skip
  · rw [max_eq_left (le_of_lt h3)]
  · rw [max_eq_right (not_lt.mp h3)]

theorem mixerAfterFloat_ratio (env : Env) (m : Mixer) (ticks : Nat → Tick × List Node)
    (n : Nat) :
    (mixerAfterFloat env m ticks (n + 1))._performanceThrottlingRatio
      = referenceStepFloat (mixerAfterFloat env m ticks (n + 1))._trailingSleepRatio
          (mixerAfterFloat env m ticks n)._performanceThrottlingRatio := by
  simp only [mixerAfterFloat]
  rw [(broadcastAvatarDataFloat_throttle env _ _ _).2,
    (broadcastAvatarDataFloat_throttle env _ _ _).1, throttleFloat_ratio]

/-- The ticks of a run from tick `n` on are a run of the mixer that the first `n` left. -/
theorem mixerAfterFloat_add (env : Env) (m : Mixer) (ticks : Nat → Tick × List Node)
    (n k : Nat) :
    mixerAfterFloat env m ticks (n + k)
      = mixerAfterFloat env (mixerAfterFloat env m ticks n) (fun j => ticks (n + j)) k := by
  induction k with
  | zero => rfl
  | succ k ih =>
    rw [← Nat.add_assoc]
    simp only [mixerAfterFloat]
    rw [ih]

/-! ## The throttling ratio in `float` stays in the unit interval -/

/-- The struggle step in `float` keeps a `float` of the unit interval in the unit
interval. -/
theorem struggleFloat_le_one (r : ℚ) (h0 : 0 ≤ r) (h1 : r ≤ 1)
    (hfloat : ∃ x, r = roundToFloat x) :
    r + mulFloat (1 / 2) (subFloat 1 r) ≤ 1 := by
  rcases lt_or_le r (1 / 2) with hlow | hhigh
  · have ha : subFloat 1 r ≤ 1 := by
      have := roundToFloat_le_zpow (1 - r) 0 (by simpa using h0) (by norm_num) (by norm_num)
      simpa [subFloat] using this
    have hb : mulFloat (1 / 2) (subFloat 1 r) ≤ 1 / 2 := by
      have := roundToFloat_le_zpow (1 / 2 * subFloat 1 r) (-1)
        (by rw [show (2 : ℚ) ^ (-1 : ℤ) = 1 / 2 by norm_num]; linarith) (by norm_num)
        (by norm_num)
      rw [show (2 : ℚ) ^ (-1 : ℤ) = 1 / 2 by norm_num] at this
      exact this
    linarith
  · obtain ⟨x, hx⟩ := hfloat
    obtain ⟨m, hm⟩ := roundToFloat_grid_upper x (by rw [← hx]; exact hhigh)
      (by rw [← hx]; exact h1)
    rw [← hx] at hm
    have hm1 : m ≤ 2 ^ 24 := by
      have : (m : ℚ) / 2 ^ 24 ≤ 1 := by rw [← hm]; exact h1
      rw [div_le_one (by positivity)] at this
      exact_mod_cast this
    have hm0 : (2 : ℤ) ^ 23 ≤ m := by
      have : (1 : ℚ) / 2 ≤ (m : ℚ) / 2 ^ 24 := by rw [← hm]; exact hhigh
      rw [le_div_iff₀ (by positivity)] at this
      have h' : ((2 ^ 23 : ℤ) : ℚ) ≤ (m : ℚ) := by
        push_cast
        linarith
      exact_mod_cast h'
    have ha : subFloat 1 r = 1 - r := by
      have hform : 1 - r = ((2 ^ 24 - m : ℤ) : ℚ) / 2 ^ 24 := by
        rw [hm]
        push_cast
        field_simp
        norm_num
      unfold subFloat
      rw [hform]
      exact roundToFloat_exact (2 ^ 24 - m) 24 (by omega) (by omega) (by norm_num)
    have hb : mulFloat (1 / 2) (subFloat 1 r) = (1 - r) / 2 := by
      have hform : 1 / 2 * (1 - r) = ((2 ^ 24 - m : ℤ) : ℚ) / 2 ^ 25 := by
        rw [hm]
        push_cast
        field_simp
        ring
      unfold mulFloat
      rw [ha, hform, roundToFloat_exact (2 ^ 24 - m) 25 (by omega) (by omega) (by norm_num),
        ← hform]
      ring
    rw [hb]
    linarith

/-- The step of the throttling ratio in `float` keeps a `float` of the unit interval in the
unit interval. -/
theorem referenceStepFloat_mem (t r : ℚ) (h0 : 0 ≤ r) (h1 : r ≤ 1)
    (hfloat : ∃ x, r = roundToFloat x) :
    0 ≤ referenceStepFloat t r ∧ referenceStepFloat t r ≤ 1
      ∧ ∃ x, referenceStepFloat t r = roundToFloat x := by
  unfold referenceStepFloat
  split_ifs with ha hb
  · have ha' : 0 ≤ subFloat 1 r := roundToFloat_nonneg _ (by linarith)
    have hb' : 0 ≤ mulFloat (1 / 2) (subFloat 1 r) :=
      roundToFloat_nonneg _ (by positivity)
    refine ⟨roundToFloat_nonneg _ (by linarith), ?_, ⟨_, rfl⟩⟩
    have := roundToFloat_le_zpow (r + mulFloat (1 / 2) (subFloat 1 r)) 0
      (by simpa using struggleFloat_le_one r h0 h1 hfloat) (by norm_num) (by norm_num)
    simpa [addFloat] using this
  · refine ⟨le_max_left _ _, max_le (by norm_num) ?_, ?_⟩
    · have hc : 0 ≤ roundToFloat (2 / 100) := roundToFloat_nonneg _ (by norm_num)
      have := roundToFloat_le_zpow (r - roundToFloat (2 / 100)) 0
        (by simp only [zpow_zero]; linarith) (by norm_num) (by norm_num)
      simpa [subFloat] using this
    · rcases le_total (subFloat r (roundToFloat (2 / 100))) 0 with hneg | hpos
      · exact ⟨0, by rw [max_eq_left hneg]; simp [roundToFloat]⟩
      · exact ⟨_, by rw [max_eq_right hpos]; rfl⟩
  · exact ⟨h0, h1, hfloat⟩

/-- In every state that ticks reach from construction, the throttling ratio in `float` is a
`float` of the unit interval. -/
theorem mixerAfterFloat_ratio_mem (env : Env) (now : Nat) (ticks : Nat → Tick × List Node)
    (n : Nat) :
    0 ≤ (mixerAfterFloat env (AvatarMixer now) ticks n)._performanceThrottlingRatio
      ∧ (mixerAfterFloat env (AvatarMixer now) ticks n)._performanceThrottlingRatio ≤ 1
      ∧ ∃ x, (mixerAfterFloat env (AvatarMixer now) ticks n)._performanceThrottlingRatio
          = roundToFloat x := by
  induction n with
  | zero => exact ⟨le_refl 0, by simp [mixerAfterFloat, AvatarMixer],
      ⟨0, by simp [mixerAfterFloat, AvatarMixer, roundToFloat]⟩⟩
  | succ n ih =>
    rw [mixerAfterFloat_ratio]
    exact referenceStepFloat_mem _ _ ih.1 ih.2.1 ih.2.2

/-- For a `float` ratio from 0 and below 1 the `float` difference `1.0f - ratio` is
positive. -/
theorem subFloat_one_pos (r : ℚ) (h1 : r < 1) (hfloat : ∃ x, r = roundToFloat x) :
    0 < subFloat 1 r := by
  obtain ⟨x, hx⟩ := hfloat
  obtain ⟨m, hm⟩ := roundToFloat_grid x
  rw [← hx] at hm
  have hlt : m < 2 ^ 149 := by
    have : (m : ℚ) / 2 ^ 149 < 1 := by rw [← hm]; exact h1
    rw [div_lt_one (by positivity)] at this
    exact_mod_cast this
  apply roundToFloat_pos
  have hform : 1 - r = ((2 ^ 149 - m : ℤ) : ℚ) / 2 ^ 149 := by
    rw [hm]
    push_cast
    field_simp
    norm_num
  rw [hform, show (2 : ℚ) ^ (-149 : ℤ) = 1 / 2 ^ 149 by norm_num]
  apply div_le_div_of_nonneg_right _ (by positivity)
  have : (1 : ℤ) ≤ 2 ^ 149 - m := by omega
  exact_mod_cast this


/-- For a `float` ratio from 1/2 to 1 the `float` difference `1.0f - ratio` is exact. -/
theorem subFloat_one_exact (r : ℚ) (hhigh : 1 / 2 ≤ r) (h1 : r ≤ 1)
    (hfloat : ∃ x, r = roundToFloat x) : subFloat 1 r = 1 - r := by
  obtain ⟨x, hx⟩ := hfloat
  obtain ⟨m, hm⟩ := roundToFloat_grid_upper x (by rw [← hx]; exact hhigh)
    (by rw [← hx]; exact h1)
  rw [← hx] at hm
  have hm1 : m ≤ 2 ^ 24 := by
    have : (m : ℚ) / 2 ^ 24 ≤ 1 := by rw [← hm]; exact h1
    rw [div_le_one (by positivity)] at this
    exact_mod_cast this
  have hm0 : (2 : ℤ) ^ 23 ≤ m := by
    have : (1 : ℚ) / 2 ≤ (m : ℚ) / 2 ^ 24 := by rw [← hm]; exact hhigh
    rw [le_div_iff₀ (by positivity)] at this
    have h' : ((2 ^ 23 : ℤ) : ℚ) ≤ (m : ℚ) := by
      push_cast
      linarith
    exact_mod_cast h'
  have hform : 1 - r = ((2 ^ 24 - m : ℤ) : ℚ) / 2 ^ 24 := by
    rw [hm]
    push_cast
    field_simp
    norm_num
  unfold subFloat
  rw [hform]
  exact roundToFloat_exact (2 ^ 24 - m) 24 (by omega) (by omega) (by norm_num)

/-- A busy tick over an empty node list, in `float`. -/
theorem busyTick_float (m : Mixer) (hlast : m._lastFrameTimestamp = 0) :
    (broadcastAvatarDataFloat exampleEnv busyTick m []).mixer
      = { m with
          _lastFrameTimestamp := 0
          _numStatFrames := m._numStatFrames + 1
          _trailingSleepRatio := (busyStepFloat (m._trailingSleepRatio,
            m._performanceThrottlingRatio)).1
          _performanceThrottlingRatio := (busyStepFloat (m._trailingSleepRatio,
            m._performanceThrottlingRatio)).2
          mixedAvatarByteArray := [1] ++ m.mixedAvatarByteArray.drop 1 } := by
  have hidle : idleTime busyTick m = 0 := by
    simp only [idleTime, hlast, busyTick]
    decide
  simp only [broadcastAvatarDataFloat, eachMatchingNode, eachMatchingNodeFrom, hidle,
    busyStepFloat, populatePacketHeader]
  rfl

/-- The mixer that the run of busy ticks leaves, in `float`. -/
theorem busyRun_float (n : Nat) :
    mixerAfterFloat exampleEnv (AvatarMixer 0) busyRun (n + 1)
      = busyMixer (n + 1) (busyStepFloat^[n + 1] (1, 0)).1 (busyStepFloat^[n + 1] (1, 0)).2 := by
  induction n with
  | zero =>
    simp only [mixerAfterFloat, busyRun]
    rw [busyTick_float _ rfl]
    rfl
  | succ n ih =>
    rw [mixerAfterFloat, ih]
    simp only [busyRun]
    rw [busyTick_float _ rfl, Function.iterate_succ_apply' busyStepFloat (n + 1)]
    rfl


/-- One more busy tick after `n` of them. -/
theorem busyStepFloat_iterate_succ (n : ℕ) (before after : ℚ × ℚ)
    (hbefore : busyStepFloat^[n] (1, 0) = before) (hstep : busyStepFloat before = after) :
    busyStepFloat^[n + 1] (1, 0) = after := by
  rw [Function.iterate_succ_apply', hbefore, hstep]

/-! ## The claims that rounding bears on -/

/-- C10: on every tick (the gate `framesSinceCutoffEvent >= TRAILING_AVERAGE_FRAMES` is open
on every call), computed in `float` as the code computes, the new throttling ratio is the
reference step function of the updated trailing sleep ratio `t` and the old ratio `r`:
`r + 0.5f * (1.0f - r)` if `t <= 0.10f`, the larger of 0 and `r - 0.02f` if `t >= 0.20f` and
`r != 0`, and `r` otherwise, every operation rounded to `float`; the updated trailing sleep
ratio is the `float` weighted sum of the old one and the sample. -/
theorem ratio_is_reference_step_in_float (env : Env) (t : Tick) (m : Mixer)
    (nodes : List Node) :
    (broadcastAvatarDataFloat env t m nodes).mixer._performanceThrottlingRatio
        = referenceStepFloat (broadcastAvatarDataFloat env t m nodes).mixer._trailingSleepRatio
            m._performanceThrottlingRatio
      ∧ (broadcastAvatarDataFloat env t m nodes).mixer._trailingSleepRatio
        = addFloat (mulFloat (subFloat 1 (divFloat 1 100)) m._trailingSleepRatio)
            (divFloat (mulFloat (roundToFloat (idleTime t m)) (divFloat 1 100)) 16) := by
  rw [(broadcastAvatarDataFloat_throttle env t m nodes).1,
    (broadcastAvatarDataFloat_throttle env t m nodes).2]
  refine ⟨throttleFloat_ratio _ _ _, ?_⟩
  have h100 : roundToFloat ((TRAILING_AVERAGE_FRAMES : ℤ) : ℚ) = 100 := by decide!
  have h16 : roundToFloat ((AVATAR_DATA_SEND_INTERVAL_MSECS : ℕ) : ℚ) = 16 := by
    rw [interval_eq]
    decide!
  simp only [throttleFloat, h100, h16]

/-- The statement of C10 at two concrete ticks over an empty node list. From ratio 1/2 and
trailing sleep ratio 1 with an idle time of 16 ms the back-off step leaves
`16106127 / 2^25`, the `float` nearest to `0.5 - 0.02f`, and not 12/25. From ratio 1/2 and
trailing sleep ratio `27114692 / 2^27` with an idle time of 0 the updated trailing sleep
ratio is the `float` `0.20f`, and the ratio backs off. -/
theorem ratio_is_reference_step_in_float_example :
    (broadcastAvatarDataFloat exampleEnv { busyTick with now := 16 }
        { AvatarMixer 0 with _performanceThrottlingRatio := 1 / 2 }
        []).mixer._performanceThrottlingRatio = 16106127 / 33554432
      ∧ (broadcastAvatarDataFloat exampleEnv busyTick
          { AvatarMixer 0 with
            _trailingSleepRatio := 27114692 / 134217728
            _performanceThrottlingRatio := 1 / 2 }
          []).mixer._trailingSleepRatio = roundToFloat (20 / 100)
      ∧ (broadcastAvatarDataFloat exampleEnv busyTick
          { AvatarMixer 0 with
            _trailingSleepRatio := 27114692 / 134217728
            _performanceThrottlingRatio := 1 / 2 }
          []).mixer._performanceThrottlingRatio = 16106127 / 33554432 :=
  ⟨(ratio_is_reference_step_in_float exampleEnv { busyTick with now := 16 }
      { AvatarMixer 0 with _performanceThrottlingRatio := 1 / 2 } []).1.trans (by decide!),
    by decide!,
    (ratio_is_reference_step_in_float exampleEnv busyTick
      { AvatarMixer 0 with
        _trailingSleepRatio := 27114692 / 134217728
        _performanceThrottlingRatio := 1 / 2 } []).1.trans (by decide!)⟩

/-- C11: in `float`, a source with linked data that is not the receiver passes the source
predicate if and only if the throttling ratio is 0 or the draw is below the `float`
difference `1.0f - ratio`; it is skipped if and only if the ratio is not 0 and the draw is
at least `1.0f - ratio`; with ratio 0 it passes whatever the draw. For a `float` ratio from
1/2 to 1 the `float` difference is the exact `1 - ratio`. -/
theorem throttling_filter_in_float (t : Tick) (r : ℚ) (i : Nat) (node : Node) (j : Nat)
    (o : Node) (hdata : o.linkedData.isSome = true) (hother : o.uuid ≠ node.uuid) :
    (sourcePredicateFloat t r i node j o = true ↔ r = 0 ∨ t.throttleDraw i j < subFloat 1 r)
      ∧ (sourcePredicateFloat t r i node j o = false
          ↔ r ≠ 0 ∧ t.throttleDraw i j ≥ subFloat 1 r)
      ∧ (r = 0 → sourcePredicateFloat t r i node j o = true)
      ∧ ((∃ x, r = roundToFloat x) → 1 / 2 ≤ r → r ≤ 1 → subFloat 1 r = 1 - r) := by
  have hnone : o.linkedData.isNone = false := by
    cases hd : o.linkedData with
    | none => simp [hd] at hdata
    | some d => rfl
  have key : sourcePredicateFloat t r i node j o = true
      ↔ r = 0 ∨ t.throttleDraw i j < subFloat 1 r := by
    unfold sourcePredicateFloat
    simp [hnone, hother]
  refine ⟨key, ?_, fun h => key.mpr (Or.inl h),
    fun hfloat hhigh h1 => subFloat_one_exact r hhigh h1 hfloat⟩
  rw [← Bool.not_eq_true, key, not_or, not_lt]

/-- The statement of C11 at a concrete draw: the ratio `16106127 / 2^25` that a struggle step
and a back-off step leave, and the draw `1090519 / 2^21`, which is the `float` difference
`1.0f - ratio` and below the exact one: the source is skipped. -/
theorem throttling_filter_in_float_example :
    sourcePredicateFloat { calmTick with throttleDraw := fun _ _ => 1090519 / 2097152 }
        (16106127 / 33554432) 0 (examplePeer 7 0 [70] true 0) 1
        (examplePeer 8 0 [80] true 0) = false
      ∧ ((16106127 / 33554432 : ℚ) ≠ 0
        ∧ (1090519 / 2097152 : ℚ) ≥ subFloat 1 (16106127 / 33554432))
      ∧ (1090519 / 2097152 : ℚ) < 1 - 16106127 / 33554432 :=
  have h := (throttling_filter_in_float
    { calmTick with throttleDraw := fun _ _ => 1090519 / 2097152 } (16106127 / 33554432) 0
    (examplePeer 7 0 [70] true 0) 1 (examplePeer 8 0 [80] true 0) rfl (by decide)).2.1
  have hskip : (16106127 / 33554432 : ℚ) ≠ 0
      ∧ (1090519 / 2097152 : ℚ) ≥ subFloat 1 (16106127 / 33554432) := by decide!
  ⟨h.mpr hskip, hskip, by norm_num⟩

/-- C19: for a mixer with at least one statistics frame, `sendStatsPacket` reports the three
sums divided by the number of frames, each quotient taken in `float` of the counters
converted to `float`, the trailing sleep ratio times 100 in `float` and the throttling
ratio; it leaves the four counters at zero and the two ratios as they were. -/
theorem sendStatsPacket_reports_and_resets (m : Mixer) (hframes : 1 ≤ m._numStatFrames) :
    (sendStatsPacket m).1.average_listeners_last_second
        = some (divFloat (roundToFloat m._sumListeners) (roundToFloat m._numStatFrames))
      ∧ (sendStatsPacket m).1.average_billboard_packets_per_frame
        = some (divFloat (roundToFloat m._sumBillboardPackets) (roundToFloat m._numStatFrames))
      ∧ (sendStatsPacket m).1.average_identity_packets_per_frame
        = some (divFloat (roundToFloat m._sumIdentityPackets) (roundToFloat m._numStatFrames))
      ∧ (sendStatsPacket m).1.trailing_sleep_percentage = mulFloat m._trailingSleepRatio 100
      ∧ (sendStatsPacket m).1.performance_throttling_ratio = m._performanceThrottlingRatio
      ∧ (sendStatsPacket m).2._sumListeners = 0
      ∧ (sendStatsPacket m).2._sumBillboardPackets = 0
      ∧ (sendStatsPacket m).2._sumIdentityPackets = 0
      ∧ (sendStatsPacket m).2._numStatFrames = 0
      ∧ (sendStatsPacket m).2._trailingSleepRatio = m._trailingSleepRatio
      ∧ (sendStatsPacket m).2._performanceThrottlingRatio = m._performanceThrottlingRatio := by
  have hpos : 0 < roundToFloat (m._numStatFrames : ℚ) := by
    apply roundToFloat_pos
    have h1 : (1 : ℚ) ≤ (m._numStatFrames : ℚ) := by exact_mod_cast hframes
    have h2 : (2 : ℚ) ^ (-149 : ℤ) ≤ 1 := by norm_num
    linarith
  have hne : roundToFloat (m._numStatFrames : ℚ) ≠ 0 := ne_of_gt hpos
  have h100 : roundToFloat 100 = 100 := by decide!
  simp only [sendStatsPacket, divFloatOrNaN, if_neg hne, h100, and_self]

/-- The statement of C19 at a concrete mixer: one listener counted over three frames, for
which the report is `11184811 / 2^25`, the `float` nearest to 1/3. -/
theorem sendStatsPacket_reports_and_resets_example :
    (sendStatsPacket
        { AvatarMixer 0 with _sumListeners := 1, _numStatFrames := 3 }).1.average_listeners_last_second
        = some (divFloat (roundToFloat ((1 : ℕ) : ℚ)) (roundToFloat ((3 : ℕ) : ℚ)))
      ∧ divFloat (roundToFloat ((1 : ℕ) : ℚ)) (roundToFloat ((3 : ℕ) : ℚ))
        = 11184811 / 33554432 :=
  ⟨(sendStatsPacket_reports_and_resets
      { AvatarMixer 0 with _sumListeners := 1, _numStatFrames := 3 } (by decide)).1,
    by decide!⟩

/-- C25, evaluated on the code in `float`: from construction, with every tick starting in
the millisecond the previous one ended in (idle time 0), the trailing sleep ratio is at most
`0.10f` from tick 230 on and every tick from then on takes the struggle step; the throttling
ratio is `1 - 2^-24` after tick 253 and exactly 1 after tick 254, the sum of line 92 being
rounded up. In that state `1.0f - ratio` is 0 and a source whose throttle draw is 0 does not
pass the source predicate; a tick over three peers then sends each of them the header
alone. -/
theorem ratio_reaches_one_in_float :
    (mixerAfterFloat exampleEnv (AvatarMixer 0) busyRun 253)._performanceThrottlingRatio
        = 16777215 / 16777216
      ∧ (mixerAfterFloat exampleEnv (AvatarMixer 0) busyRun 254)._performanceThrottlingRatio = 1
      ∧ sourcePredicateFloat luckyTick
          (mixerAfterFloat exampleEnv (AvatarMixer 0) busyRun 254)._performanceThrottlingRatio
          0 (examplePeer 7 0 [70] true 0) 1 (examplePeer 8 0 [80] true 0) = false
      ∧ (broadcastAvatarDataFloat exampleEnv luckyTick
          (mixerAfterFloat exampleEnv (AvatarMixer 0) busyRun 254) threePeers).sent
        = [⟨.PacketTypeBulkAvatarData, [1], 0⟩, ⟨.PacketTypeBulkAvatarData, [1], 1⟩,
            ⟨.PacketTypeBulkAvatarData, [1], 2⟩] := by
  have h229 : busyStepFloat^[229] (1, 0) = (3359003 / 33554432, 0) := by decide!
  have h230 : busyStepFloat^[230] (1, 0) = (3325413 / 33554432, 1 / 2) :=
    busyStepFloat_iterate_succ 229 _ _ h229 (by decide!)
  have h231 : busyStepFloat^[231] (1, 0) = (3292159 / 33554432, 3 / 4) :=
    busyStepFloat_iterate_succ 230 _ _ h230 (by decide!)
  have h232 : busyStepFloat^[232] (1, 0) = (6518475 / 67108864, 7 / 8) :=
    busyStepFloat_iterate_succ 231 _ _ h231 (by decide!)
  have h233 : busyStepFloat^[233] (1, 0) = (12906581 / 134217728, 15 / 16) :=
    busyStepFloat_iterate_succ 232 _ _ h232 (by decide!)
  have h234 : busyStepFloat^[234] (1, 0) = (12777515 / 134217728, 31 / 32) :=
    busyStepFloat_iterate_succ 233 _ _ h233 (by decide!)
  have h235 : busyStepFloat^[235] (1, 0) = (3162435 / 33554432, 63 / 64) :=
    busyStepFloat_iterate_succ 234 _ _ h234 (by decide!)
  have h236 : busyStepFloat^[236] (1, 0) = (12523243 / 134217728, 127 / 128) :=
    busyStepFloat_iterate_succ 235 _ _ h235 (by decide!)
  have h237 : busyStepFloat^[237] (1, 0) = (12398011 / 134217728, 255 / 256) :=
    busyStepFloat_iterate_succ 236 _ _ h236 (by decide!)
  have h238 : busyStepFloat^[238] (1, 0) = (12274031 / 134217728, 511 / 512) :=
    busyStepFloat_iterate_succ 237 _ _ h237 (by decide!)
  have h239 : busyStepFloat^[239] (1, 0) = (12151291 / 134217728, 1023 / 1024) :=
    busyStepFloat_iterate_succ 238 _ _ h238 (by decide!)
  have h240 : busyStepFloat^[240] (1, 0) = (6014889 / 67108864, 2047 / 2048) :=
    busyStepFloat_iterate_succ 239 _ _ h239 (by decide!)
  have h241 : busyStepFloat^[241] (1, 0) = (1488685 / 16777216, 4095 / 4096) :=
    busyStepFloat_iterate_succ 240 _ _ h240 (by decide!)
  have h242 : busyStepFloat^[242] (1, 0) = (11790385 / 134217728, 8191 / 8192) :=
    busyStepFloat_iterate_succ 241 _ _ h241 (by decide!)
  have h243 : busyStepFloat^[243] (1, 0) = (11672481 / 134217728, 16383 / 16384) :=
    busyStepFloat_iterate_succ 242 _ _ h242 (by decide!)
  have h244 : busyStepFloat^[244] (1, 0) = (2888939 / 33554432, 32767 / 32768) :=
    busyStepFloat_iterate_succ 243 _ _ h243 (by decide!)
  have h245 : busyStepFloat^[245] (1, 0) = (11440199 / 134217728, 65535 / 65536) :=
    busyStepFloat_iterate_succ 244 _ _ h244 (by decide!)
  have h246 : busyStepFloat^[246] (1, 0) = (11325797 / 134217728, 131071 / 131072) :=
    busyStepFloat_iterate_succ 245 _ _ h245 (by decide!)
  have h247 : busyStepFloat^[247] (1, 0) = (11212539 / 134217728, 262143 / 262144) :=
    busyStepFloat_iterate_succ 246 _ _ h246 (by decide!)
  have h248 : busyStepFloat^[248] (1, 0) = (5550207 / 67108864, 524287 / 524288) :=
    busyStepFloat_iterate_succ 247 _ _ h247 (by decide!)
  have h249 : busyStepFloat^[249] (1, 0) = (5494705 / 67108864, 1048575 / 1048576) :=
    busyStepFloat_iterate_succ 248 _ _ h248 (by decide!)
  have h250 : busyStepFloat^[250] (1, 0) = (2719879 / 33554432, 2097151 / 2097152) :=
    busyStepFloat_iterate_succ 249 _ _ h249 (by decide!)
  have h251 : busyStepFloat^[251] (1, 0) = (10770721 / 134217728, 4194303 / 4194304) :=
    busyStepFloat_iterate_succ 250 _ _ h250 (by decide!)
  have h252 : busyStepFloat^[252] (1, 0) = (5331507 / 67108864, 8388607 / 8388608) :=
    busyStepFloat_iterate_succ 251 _ _ h251 (by decide!)
  have h253 : busyStepFloat^[253] (1, 0) = (329887 / 4194304, 16777215 / 16777216) :=
    busyStepFloat_iterate_succ 252 _ _ h252 (by decide!)
  have h254 : busyStepFloat^[254] (1, 0) = (2612705 / 33554432, 1) :=
    busyStepFloat_iterate_succ 253 _ _ h253 (by decide!)
  rw [busyRun_float 252, busyRun_float 253, h253, h254]
  exact ⟨rfl, rfl, by decide!, by decide!⟩

/-- C25, as amended: in `float`, in every state that ticks reach from construction the
throttling ratio is from 0 to 1. In such a state with a ratio below 1 the `float`
difference `1.0f - ratio` is positive and a source with linked data and an id other than the
receiver's passes the source predicate when its throttle draw is 0; in such a state with
ratio 1 no source passes it, whatever its draw from 0 on. -/
theorem throttling_filter_open_below_one (env : Env) (now : Nat)
    (ticks : Nat → Tick × List Node) (n : Nat) :
    0 ≤ (mixerAfterFloat env (AvatarMixer now) ticks n)._performanceThrottlingRatio
      ∧ (mixerAfterFloat env (AvatarMixer now) ticks n)._performanceThrottlingRatio ≤ 1
      ∧ ((mixerAfterFloat env (AvatarMixer now) ticks n)._performanceThrottlingRatio < 1 →
          0 < subFloat 1
              (mixerAfterFloat env (AvatarMixer now) ticks n)._performanceThrottlingRatio
            ∧ ∀ (t : Tick) (i j : Nat) (node otherNode : Node),
              otherNode.linkedData.isSome = true → otherNode.uuid ≠ node.uuid →
              t.throttleDraw i j = 0 →
              sourcePredicateFloat t
                (mixerAfterFloat env (AvatarMixer now) ticks n)._performanceThrottlingRatio
                i node j otherNode = true)
      ∧ ((mixerAfterFloat env (AvatarMixer now) ticks n)._performanceThrottlingRatio = 1 →
          ∀ (t : Tick) (i j : Nat) (node otherNode : Node), 0 ≤ t.throttleDraw i j →
            sourcePredicateFloat t
              (mixerAfterFloat env (AvatarMixer now) ticks n)._performanceThrottlingRatio
              i node j otherNode = false) := by
  obtain ⟨h0, h1, hfloat⟩ := mixerAfterFloat_ratio_mem env now ticks n
  generalize (mixerAfterFloat env (AvatarMixer now) ticks n)._performanceThrottlingRatio = r
    at h0 h1 hfloat
  refine ⟨h0, h1, ?_, ?_⟩
  · intro hlt
    have hpos := subFloat_one_pos r hlt hfloat
    refine ⟨hpos, ?_⟩
    intro t i j node otherNode hdata hid hdraw
    cases hd : otherNode.linkedData with
    | none => simp [hd] at hdata
    | some d => simp [sourcePredicateFloat, hd, hid, hdraw, hpos]
  · intro hone t i j node otherNode hdraw
    have hzero : subFloat 1 (1 : ℚ) = 0 := by decide!
    rw [hone]
    unfold sourcePredicateFloat
    split_ifs with ha hb hc
    · rfl
    · rfl
    · rfl
    · exfalso
      apply hc
      simp only [hzero]
      simp [not_lt.mpr hdraw]

end Hifi
